import Mathlib

/-!
# lrcget-go: the catalog store, its schema migrations, the scanner

A shallow embedding of `internal/database` (migrations.go, connection.go,
tracks.go, albums.go, artists.go, config.go), of `internal/filesystem`
(scanner.go), of `InitializeLibrary` (app/handlers.go) and of
`convertResponse` (lrclib/get.go).  The scanner sees the host through the
structure `FileSystem`.  The Go code talks to an embedded SQL engine through
SQL text; the embedding keeps one Lean definition per Go function and
interprets each SQL statement with a small relational model:

* a table is a list of column declarations and a list of rows, kept in rowid
  order; a row is its integer rowid (`id INTEGER PRIMARY KEY`) and a cell
  value for every column name;
* a statement fails when it names a table or column that does not exist,
  when `CREATE TABLE` / `CREATE INDEX` / `ALTER TABLE ADD` would create
  something that already exists; input/output failures of the storage
  medium are not modelled;
* a comparison with `NULL` is never true;
* a row inserted without an explicit id gets the largest rowid plus one
  (1 in an empty table); the 63-bit rowid ceiling is not modelled;
* `strings.ToLower` and `time.Now()` are taken as parameters (`lower`, `now`).
-/

namespace LrcGet

/-! ## The relational model -/

/-- A cell value of the embedded store.  Booleans are stored as the integers
0 and 1; `real` carries the bit pattern of a float64 verbatim; `time` is a
clock reading (a Go `time.Time` parameter or `CURRENT_TIMESTAMP`), kept apart
from ordinary text. -/
inductive Value where
  | null
  | int (i : Int)
  | text (s : String)
  | real (bits : Nat)
  | time (t : Nat)
deriving DecidableEq, Repr

/-- The `DEFAULT` clause of a column declaration. -/
inductive Default where
  | none
  | const (v : Value)
  | currentTimestamp
deriving DecidableEq, Repr

/-- The value a `DEFAULT` clause yields for a row inserted at time `now`. -/
def Default.eval (now : Nat) : Default → Value
  | .none => .null
  | .const v => v
  | .currentTimestamp => .time now

/-- A column declaration. -/
structure Column where
  name : String
  dflt : Default
deriving DecidableEq, Repr

/-- A row: the rowid and the cell of every column. -/
structure Row where
  id : Int
  get : String → Value

/-- A table: its declared columns and its rows in rowid order. -/
structure Table where
  cols : List Column
  rows : List Row

/-- The database file: the persisted `user_version`, the journal mode
(`wal = true` after `PRAGMA journal_mode = WAL`), the tables by name and the
names of the indexes. -/
structure Store where
  user_version : Int
  wal : Bool
  tables : String → Option Table
  indexes : List String

/-- Go `error` values: an error of the storage engine, `sql.ErrNoRows`,
`fmt.Errorf(msg)` and `fmt.Errorf(msg + ": %w", inner)`. -/
inductive Error where
  | engine
  | errNoRows
  | errorf (msg : String)
  | wrap (msg : String) (inner : Error)
deriving DecidableEq, Repr

/-- SQL `a = b`: never true when either side is `NULL`. -/
def sqlEq : Value → Value → Bool
  | .null, _ => false
  | _, .null => false
  | a, b => decide (a = b)

/-- Go `bool` bound as a statement parameter. -/
def ofBool (b : Bool) : Value := if b then .int 1 else .int 0

/-- Whether the 64 bits are a float64 NaN: the exponent all ones and the
fraction not zero. -/
def isNaN (bits : Nat) : Bool := (bits / 2 ^ 52) % 2 ^ 11 = 2047 && bits % 2 ^ 52 ≠ 0

/-- Go `float64` bound as a statement parameter: the engine stores a NaN as
`NULL`, and in a column of real affinity negative zero comes back as zero. -/
def ofFloat64 (bits : Nat) : Value :=
  if isNaN bits then .null else if bits = 2 ^ 63 then .real 0 else .real bits

/-- Go `*string` bound as a statement parameter (`nil` is `NULL`). -/
def ofStringPtr : Option String → Value
  | none => .null
  | some s => .text s

/-- Go `*int64` bound as a statement parameter (`nil` is `NULL`). -/
def ofIntPtr : Option Int → Value
  | none => .null
  | some i => .int i

/-- Whether the table declares a column of that name. -/
def Table.hasCol (t : Table) (c : String) : Bool := t.cols.any (fun k => k.name == c)

/-- The declared default of a column at time `now` (`NULL` when there is no
such column or no default). -/
def Table.defaultOf (t : Table) (now : Nat) (c : String) : Value :=
  match t.cols.find? (fun k => k.name == c) with
  | some k => k.dflt.eval now
  | none => .null

/-- The largest of `m` and the rowids of `rows`. -/
def maxId (m : Int) : List Row → Int
  | [] => m
  | r :: rs => maxId (max m r.id) rs

/-- The rowid given to a row inserted without an explicit id. -/
def nextId : List Row → Int
  | [] => 1
  | r :: rs => maxId r.id rs + 1

/-- Replace one table of the store. -/
def Store.setTable (s : Store) (name : String) (t : Table) : Store :=
  { s with tables := fun n => if n = name then some t else s.tables n }

/-- The rows of a table (none when the table does not exist). -/
def Store.rowsOf (s : Store) (name : String) : List Row :=
  match s.tables name with
  | some t => t.rows
  | none => []

/-- A column without a default. -/
def col (name : String) : Column := ⟨name, .none⟩

/-- A `DATETIME DEFAULT CURRENT_TIMESTAMP` column. -/
def colNow (name : String) : Column := ⟨name, .currentTimestamp⟩

/-- A column with a constant default. -/
def colDflt (name : String) (v : Value) : Column := ⟨name, .const v⟩

/-- Statement `PRAGMA user_version = v`. -/
def pragmaUserVersion (s : Store) (v : Int) : Option Store :=
  some { s with user_version := v }

/-- Statement `PRAGMA journal_mode = WAL` outside a transaction. -/
def pragmaJournalModeWAL (s : Store) : Option Store :=
  some { s with wal := true }

/-- Statement `PRAGMA journal_mode = WAL` inside a transaction: the engine
cannot change into WAL mode there and reports an error, unless the file is in
WAL mode already, when the statement changes nothing. -/
def pragmaJournalModeWALInTx (s : Store) : Option Store :=
  if s.wal then some s else none

/-- Statement `CREATE TABLE name (cols)`: fails when the table exists. -/
def createTable (s : Store) (name : String) (cols : List Column) : Option Store :=
  match s.tables name with
  | some _ => none
  | none => some (s.setTable name ⟨cols, []⟩)

/-- Statement `CREATE INDEX idx ON table(column)`: fails when an index of that
name exists or the table or column does not. -/
def createIndex (s : Store) (idx table column : String) : Option Store :=
  if s.indexes.contains idx then none
  else
    match s.tables table with
    | none => none
    | some t =>
      if t.hasCol column then some { s with indexes := s.indexes ++ [idx] } else none

/-- Statement `ALTER TABLE table ADD column ... [DEFAULT v]`: fails when the
table does not exist or already has a column of that name; every existing row
gets the default in the new column. -/
def alterTableAdd (s : Store) (table column : String) (v : Value) : Option Store :=
  match s.tables table with
  | none => none
  | some t =>
    if t.hasCol column then none
    else
      some (s.setTable table
        ⟨t.cols ++ [⟨column, .const v⟩],
         t.rows.map (fun r => { r with get := fun c => if c = column then v else r.get c })⟩)

/-- The row an `INSERT` without an explicit id adds to table `t`: the next
rowid, the given values, and the declared default in every other column. -/
def insertedRow (t : Table) (now : Nat) (vals : List (String × Value)) : Row :=
  ⟨nextId t.rows, fun c => match vals.lookup c with
                            | some v => v
                            | none => t.defaultOf now c⟩

/-- Statement `INSERT INTO table (columns) VALUES (values)`: fails when the
table or one of the named columns does not exist; columns that are not named
get their declared default, the new rowid is returned. -/
def insertInto (s : Store) (table : String) (now : Nat) (vals : List (String × Value)) :
    Option (Int × Store) :=
  match s.tables table with
  | none => none
  | some t =>
    if vals.all (fun p => t.hasCol p.1) then
      let row := insertedRow t now vals
      some (row.id, s.setTable table { t with rows := t.rows ++ [row] })
    else none

/-- Statement `SELECT ... FROM table WHERE p [ORDER BY ...]` before ordering:
fails when the table or one of the columns it names does not exist. -/
def selectWhere (s : Store) (table : String) (columns : List String) (p : Row → Bool) :
    Option (List Row) :=
  match s.tables table with
  | none => none
  | some t => if columns.all t.hasCol then some (t.rows.filter p) else none

/-- Statement `DELETE FROM table` (also `... WHERE 1`). -/
def deleteAll (s : Store) (table : String) : Option Store :=
  match s.tables table with
  | none => none
  | some t => some (s.setTable table { t with rows := [] })

/-- Statement `UPDATE table SET c1 = e1, ... WHERE p`: fails when the table or a
named column does not exist; `columns` lists the columns read by the
expressions and by the condition. -/
def updateWhere (s : Store) (table : String) (columns : List String)
    (sets : List (String × (Row → Value))) (p : Row → Bool) : Option Store :=
  match s.tables table with
  | none => none
  | some t =>
    if columns.all t.hasCol && sets.all (fun q => t.hasCol q.1) then
      some (s.setTable table
        { t with rows := t.rows.map (fun r =>
            if p r then
              { r with get := fun c => match sets.lookup c with
                                       | some e => e r
                                       | none => r.get c }
            else r) })
    else none

/-- Go `_, err = tx.Exec(stmt); if err != nil { return fmt.Errorf(msg + ": %w", err) }`. -/
def exec (r : Option Store) (msg : String) : Except Error Store :=
  match r with
  | some s => .ok s
  | none => .error (.wrap msg .engine)

/-- Go `tx := Begin(); defer tx.Rollback(); ...; return tx.Commit()`: the body
runs on the store; when it fails the store is left as it was. -/
def transaction (s : Store) (body : Store → Except Error Store) : Option Error × Store :=
  match body s with
  | .ok s1 => (none, s1)
  | .error e => (some e, s)

/-! ## Schema migrations (migrations.go, connection.go) -/

/-- The schema version this build migrates to (connection.go). -/
def CurrentDBVersion : Int := 7

/-- The multi-statement `schema` text that `migrateToVersion1` executes. -/
def schemaVersion1 (now : Nat) (s : Store) : Option Store := do
  let s ← createTable s "directories"
    [col "id", col "path", colNow "created_at", colNow "updated_at"]
  let s ← createTable s "library_data"
    [col "id", col "init", colNow "created_at", colNow "updated_at"]
  let s ← createTable s "config_data"
    [col "id", col "skip_not_needed_tracks", col "try_embed_lyrics",
     colDflt "skip_tracks_with_synced_lyrics" (.int 0),
     colDflt "skip_tracks_with_plain_lyrics" (.int 0),
     colDflt "show_line_count" (.int 1),
     colDflt "theme_mode" (.text "system"),
     colDflt "lrclib_instance" (.text "https://lrclib.net"),
     colNow "created_at", colNow "updated_at"]
  let s ← createTable s "artists"
    [col "id", col "name", col "name_lower", colNow "created_at", colNow "updated_at"]
  let s ← createTable s "albums"
    [col "id", col "name", col "artist_id", col "image_path", col "artist_name",
     col "album_artist_name", col "name_lower", col "album_artist_name_lower",
     colNow "created_at", colNow "updated_at"]
  let s ← createTable s "tracks"
    [col "id", col "file_path", col "file_name", col "title", col "album_name",
     col "artist_name", col "album_artist_name", col "album_id", col "artist_id",
     col "image_path", col "track_number", col "txt_lyrics", col "duration",
     col "lrc_lyrics", col "instrumental", col "title_lower",
     colNow "created_at", colNow "updated_at"]
  let (_, s) ← insertInto s "library_data" now [("init", .int 0)]
  let (_, s) ← insertInto s "config_data" now
    [("skip_not_needed_tracks", .int 1), ("try_embed_lyrics", .int 0),
     ("skip_tracks_with_synced_lyrics", .int 1), ("skip_tracks_with_plain_lyrics", .int 0),
     ("show_line_count", .int 1), ("theme_mode", .text "system"),
     ("lrclib_instance", .text "https://lrclib.net")]
  pure s

/-- Go `migrateToVersion1`: sets the journal mode outside the transaction,
then creates the initial schema inside one. -/
def migrateToVersion1 (now : Nat) (s : Store) : Option Error × Store :=
  match exec (pragmaJournalModeWAL s) "failed to set journal mode" with
  | .error e => (some e, s)
  | .ok s =>
    transaction s (fun s => do
      let s ← exec (pragmaUserVersion s 1) "failed to set user version"
      let s ← exec (schemaVersion1 now s) "failed to create schema"
      pure s)

/-- Go `migrateToVersion2`. -/
def migrateToVersion2 (s : Store) : Option Error × Store :=
  transaction s (fun s => do
    let s ← exec (pragmaJournalModeWALInTx s) "failed to set journal mode"
    let s ← exec (pragmaUserVersion s 2) "failed to set user version"
    let s ← exec (createIndex s "idx_tracks_title" "tracks" "title")
      "failed to create tracks title index"
    let s ← exec (createIndex s "idx_albums_name" "albums" "name")
      "failed to create albums name index"
    let s ← exec (createIndex s "idx_artists_name" "artists" "name")
      "failed to create artists name index"
    pure s)

/-- Go `migrateToVersion3`. -/
def migrateToVersion3 (s : Store) : Option Error × Store :=
  transaction s (fun s => do
    let s ← exec (pragmaUserVersion s 3) "failed to set user version"
    pure s)

/-- Go `migrateToVersion4`. -/
def migrateToVersion4 (s : Store) : Option Error × Store :=
  transaction s (fun s => do
    let s ← exec (pragmaUserVersion s 4) "failed to set user version"
    let s ← exec (alterTableAdd s "tracks" "title_lower" .null)
      "failed to add title_lower column"
    let s ← exec (alterTableAdd s "albums" "name_lower" .null)
      "failed to add name_lower column"
    let s ← exec (alterTableAdd s "artists" "name_lower" .null)
      "failed to add name_lower column"
    let s ← exec (createIndex s "idx_tracks_title_lower" "tracks" "title_lower")
      "failed to create tracks title_lower index"
    let s ← exec (createIndex s "idx_albums_name_lower" "albums" "name_lower")
      "failed to create albums name_lower index"
    let s ← exec (createIndex s "idx_artists_name_lower" "artists" "name_lower")
      "failed to create artists name_lower index"
    pure s)

/-- Go `migrateToVersion5`. -/
def migrateToVersion5 (s : Store) : Option Error × Store :=
  transaction s (fun s => do
    let s ← exec (pragmaUserVersion s 5) "failed to set user version"
    let s ← exec (alterTableAdd s "tracks" "track_number" .null)
      "failed to add track_number column"
    let s ← exec (alterTableAdd s "albums" "album_artist_name" .null)
      "failed to add album_artist_name column"
    let s ← exec (alterTableAdd s "albums" "album_artist_name_lower" .null)
      "failed to add album_artist_name_lower column"
    let s ← exec (alterTableAdd s "config_data" "theme_mode" (.text "auto"))
      "failed to add theme_mode column"
    let s ← exec (alterTableAdd s "config_data" "lrclib_instance" (.text "https://lrclib.net"))
      "failed to add lrclib_instance column"
    let s ← exec (createIndex s "idx_albums_album_artist_name_lower" "albums"
      "album_artist_name_lower") "failed to create albums album_artist_name_lower index"
    let s ← exec (createIndex s "idx_tracks_track_number" "tracks" "track_number")
      "failed to create tracks track_number index"
    let s ← exec (deleteAll s "tracks") "failed to clear tracks"
    let s ← exec (deleteAll s "albums") "failed to clear albums"
    let s ← exec (deleteAll s "artists") "failed to clear artists"
    let s ← exec (updateWhere s "library_data" [] [("init", fun _ => .int 0)] (fun _ => true))
      "failed to reset library initialization"
    pure s)

/-- Go `migrateToVersion6`. -/
def migrateToVersion6 (s : Store) : Option Error × Store :=
  transaction s (fun s => do
    let s ← exec (pragmaUserVersion s 6) "failed to set user version"
    let s ← exec (alterTableAdd s "config_data" "skip_tracks_with_synced_lyrics" (.int 0))
      "failed to add skip_tracks_with_synced_lyrics column"
    let s ← exec (alterTableAdd s "config_data" "skip_tracks_with_plain_lyrics" (.int 0))
      "failed to add skip_tracks_with_plain_lyrics column"
    let s ← exec (alterTableAdd s "tracks" "created_at" .null)
      "failed to add created_at to tracks"
    let s ← exec (alterTableAdd s "tracks" "updated_at" .null)
      "failed to add updated_at to tracks"
    let s ← exec (alterTableAdd s "albums" "created_at" .null)
      "failed to add created_at to albums"
    let s ← exec (alterTableAdd s "albums" "updated_at" .null)
      "failed to add updated_at to albums"
    let s ← exec (alterTableAdd s "artists" "created_at" .null)
      "failed to add created_at to artists"
    let s ← exec (alterTableAdd s "artists" "updated_at" .null)
      "failed to add updated_at to artists"
    let s ← exec (alterTableAdd s "directories" "created_at" .null)
      "failed to add created_at to directories"
    let s ← exec (alterTableAdd s "directories" "updated_at" .null)
      "failed to add updated_at to directories"
    let s ← exec (alterTableAdd s "library_data" "created_at" .null)
      "failed to add created_at to library_data"
    let s ← exec (alterTableAdd s "library_data" "updated_at" .null)
      "failed to add updated_at to library_data"
    let s ← exec (alterTableAdd s "config_data" "created_at" .null)
      "failed to add created_at to config_data"
    let s ← exec (alterTableAdd s "config_data" "updated_at" .null)
      "failed to add updated_at to config_data"
    let s ← exec (alterTableAdd s "tracks" "album_name" .null)
      "failed to add album_name to tracks"
    let s ← exec (alterTableAdd s "tracks" "artist_name" .null)
      "failed to add artist_name to tracks"
    let s ← exec (alterTableAdd s "tracks" "album_artist_name" .null)
      "failed to add album_artist_name to tracks"
    let s ← exec (alterTableAdd s "albums" "artist_name" .null)
      "failed to add artist_name to albums"
    let s ← exec (alterTableAdd s "albums" "album_artist_name" .null)
      "failed to add album_artist_name to albums"
    let s ← exec (alterTableAdd s "albums" "album_artist_name_lower" .null)
      "failed to add album_artist_name_lower to albums"
    let s ← exec (alterTableAdd s "tracks" "image_path" .null)
      "failed to add image_path to tracks"
    let s ← exec (alterTableAdd s "tracks" "track_number" .null)
      "failed to add track_number to tracks"
    let s ← exec (alterTableAdd s "tracks" "txt_lyrics" .null)
      "failed to add txt_lyrics to tracks"
    let s ← exec (alterTableAdd s "tracks" "instrumental" .null)
      "failed to add instrumental to tracks"
    let s ← exec (alterTableAdd s "tracks" "title_lower" .null)
      "failed to add title_lower to tracks"
    let s ← exec (alterTableAdd s "tracks" "album_artist_name" .null)
      "failed to add album_artist_name to tracks"
    let s ← exec (updateWhere s "config_data" ["skip_not_needed_tracks"]
      [("skip_tracks_with_synced_lyrics", fun r => r.get "skip_not_needed_tracks")]
      (fun _ => true)) "failed to migrate skip_not_needed_tracks"
    pure s)

/-- Go `migrateToVersion7`. -/
def migrateToVersion7 (s : Store) : Option Error × Store :=
  transaction s (fun s => do
    let s ← exec (pragmaUserVersion s 7) "failed to set user version"
    let s ← exec (alterTableAdd s "config_data" "show_line_count" (.int 1))
      "failed to add show_line_count column"
    pure s)

/-- What a migration call returns: the Go error (`none` is `nil`), the lines
printed to standard output, and the database afterwards. -/
structure MigrateResult where
  err : Option Error
  out : List String
  store : Store

/-- Go `upgradeDatabase`: every branch returns the result of its one step. -/
def upgradeDatabase (now : Nat) (s : Store) (fromVersion : Int) : MigrateResult :=
  let out := ["Existing database version: " ++ toString fromVersion]
  if fromVersion ≤ 0 then
    let r := migrateToVersion1 now s
    ⟨r.1, out ++ ["Migrate database version 1..."], r.2⟩
  else if fromVersion ≤ 1 then
    let r := migrateToVersion2 s
    ⟨r.1, out ++ ["Migrate database version 2..."], r.2⟩
  else if fromVersion ≤ 2 then
    let r := migrateToVersion3 s
    ⟨r.1, out ++ ["Migrate database version 3..."], r.2⟩
  else if fromVersion ≤ 3 then
    let r := migrateToVersion4 s
    ⟨r.1, out ++ ["Migrate database version 4..."], r.2⟩
  else if fromVersion ≤ 4 then
    let r := migrateToVersion5 s
    ⟨r.1, out ++ ["Migrate database version 5..."], r.2⟩
  else if fromVersion ≤ 5 then
    let r := migrateToVersion6 s
    ⟨r.1, out ++ ["Migrate database version 6..."], r.2⟩
  else if fromVersion ≤ 6 then
    let r := migrateToVersion7 s
    ⟨r.1, out ++ ["Migrate database version 7..."], r.2⟩
  else
    ⟨none, out, s⟩

/-- Go `Migrate`: reads `PRAGMA user_version` and upgrades when it is below
`CurrentDBVersion`. -/
def Migrate (now : Nat) (s : Store) : MigrateResult :=
  let version := s.user_version
  if version < CurrentDBVersion then upgradeDatabase now s version
  else ⟨none, [], s⟩

/-- The database `sql.Open` sees when the data directory holds no file yet. -/
def blankDatabase : Store := ⟨0, false, fun _ => none, []⟩

/-- Go `NewConnection` on a data directory whose database file is `disk`
(`none`: no file yet): opens the database and runs `Migrate`.  Returns the
connection, or the wrapped migration error, and the database file afterwards. -/
def NewConnection (now : Nat) (disk : Option Store) : Except Error Store × Store :=
  let db := disk.getD blankDatabase
  let r := Migrate now db
  match r.err with
  | some e => (.error (.wrap "failed to migrate database" e), r.store)
  | none => (.ok r.store, r.store)

/-- The errors of `n` successive `NewConnection` calls on one data directory,
each connection closed before the next is opened (`none`: the call succeeded). -/
def reopen (now : Nat) : Nat → Option Store → List (Option Error)
  | 0, _ => []
  | n + 1, disk =>
    let r := NewConnection now disk
    (match r.1 with
     | .ok _ => none
     | .error e => some e) :: reopen now n (some r.2)

/-! ## Tracks, artists and albums (models.go, tracks.go) -/

/-- Go `PersistentTrack` (models.go).  `Duration` carries the 64 bits of the
float64, the two timestamps are clock readings. -/
structure PersistentTrack where
  ID : Int
  FilePath : String
  FileName : String
  Title : String
  AlbumName : String
  AlbumArtistName : Option String
  AlbumID : Int
  ArtistName : String
  ArtistID : Int
  ImagePath : Option String
  TrackNumber : Option Int
  TxtLyrics : Option String
  LrcLyrics : Option String
  Duration : Nat
  Instrumental : Bool
  TitleLower : Option String
  CreatedAt : Nat
  UpdatedAt : Nat

/-- Go `getOrCreateArtist`: `SELECT id FROM artists WHERE name = ?`, and on
`sql.ErrNoRows` an `INSERT INTO artists (name, name_lower, created_at,
updated_at)`.  Returns the id or the error, and the store afterwards. -/
def getOrCreateArtist (lower : String → String) (now : Nat) (s : Store)
    (artistName : String) : Except Error Int × Store :=
  match selectWhere s "artists" ["id", "name"]
      (fun r => sqlEq (r.get "name") (.text artistName)) with
  | none => (.error (.wrap "failed to query artist" .engine), s)
  | some (r :: _) => (.ok r.id, s)
  | some [] =>
    let nameLower := lower artistName
    match insertInto s "artists" now
        [("name", .text artistName), ("name_lower", .text nameLower),
         ("created_at", .time now), ("updated_at", .time now)] with
    | none => (.error (.wrap "failed to create artist" .engine), s)
    | some (artistID, s1) => (.ok artistID, s1)

/-- Go `getOrCreateAlbum`: `SELECT id FROM albums WHERE name = ? AND artist_id
= ?`, and on `sql.ErrNoRows` an `INSERT INTO albums (name, name_lower,
artist_name, album_artist_name, album_artist_name_lower, image_path,
created_at, updated_at)` with the empty string as `artist_name`. -/
def getOrCreateAlbum (lower : String → String) (now : Nat) (s : Store)
    (albumName : String) (albumArtistName : Option String) (imagePath : Option String)
    (artistID : Int) : Except Error Int × Store :=
  match selectWhere s "albums" ["id", "name", "artist_id"]
      (fun r => sqlEq (r.get "name") (.text albumName) &&
                sqlEq (r.get "artist_id") (.int artistID)) with
  | none => (.error (.wrap "failed to query album" .engine), s)
  | some (r :: _) => (.ok r.id, s)
  | some [] =>
    let nameLower := lower albumName
    let albumArtistNameLower : Option String :=
      match albumArtistName with
      | some a => some (lower a)
      | none => none
    match insertInto s "albums" now
        [("name", .text albumName), ("name_lower", .text nameLower),
         ("artist_name", .text ""), ("album_artist_name", ofStringPtr albumArtistName),
         ("album_artist_name_lower", ofStringPtr albumArtistNameLower),
         ("image_path", ofStringPtr imagePath),
         ("created_at", .time now), ("updated_at", .time now)] with
    | none => (.error (.wrap "failed to create album" .engine), s)
    | some (albumID, s1) => (.ok albumID, s1)

/-- Go `AddTrack`: resolves the artist, then the album, then inserts the track
row; the three steps are not wrapped in a transaction.  Returns the track with
its ids and timestamps filled in, or the error, and the store afterwards. -/
def AddTrack (lower : String → String) (now : Nat) (s : Store) (track : PersistentTrack) :
    Except Error PersistentTrack × Store :=
  match getOrCreateArtist lower now s track.ArtistName with
  | (.error e, s1) => (.error (.wrap "failed to get or create artist" e), s1)
  | (.ok artistID, s1) =>
    match getOrCreateAlbum lower now s1 track.AlbumName track.AlbumArtistName
        track.ImagePath artistID with
    | (.error e, s2) => (.error (.wrap "failed to get or create album" e), s2)
    | (.ok albumID, s2) =>
      let titleLower := lower track.Title
      match insertInto s2 "tracks" now
          [("file_path", .text track.FilePath), ("file_name", .text track.FileName),
           ("title", .text track.Title), ("album_name", .text track.AlbumName),
           ("album_artist_name", ofStringPtr track.AlbumArtistName),
           ("album_id", .int albumID), ("artist_name", .text track.ArtistName),
           ("artist_id", .int artistID), ("image_path", ofStringPtr track.ImagePath),
           ("track_number", ofIntPtr track.TrackNumber),
           ("txt_lyrics", ofStringPtr track.TxtLyrics),
           ("lrc_lyrics", ofStringPtr track.LrcLyrics),
           ("duration", ofFloat64 track.Duration), ("instrumental", ofBool track.Instrumental),
           ("title_lower", .text titleLower),
           ("created_at", .time now), ("updated_at", .time now)] with
      | none => (.error (.wrap "failed to insert track" .engine), s2)
      | some (trackID, s3) =>
        (.ok { track with ID := trackID, AlbumID := albumID, ArtistID := artistID,
                          CreatedAt := now, UpdatedAt := now }, s3)

/-! ## Directories and the library state (config.go) -/

/-- Scanning a cell into a Go `bool`. -/
def scanBool : Value → Except Error Bool
  | .int 0 => .ok false
  | .int 1 => .ok true
  | _ => .error .engine

/-- Scanning a cell into a Go `string`; `NULL` cannot be scanned.  Only text
and `NULL` occur in the columns read this way. -/
def scanString : Value → Except Error String
  | .text s => .ok s
  | _ => .error .engine

/-- Go `GetInit`: `SELECT init FROM library_data WHERE id = 1`; no row reads as
`false`. -/
def GetInit (s : Store) : Except Error Bool :=
  match selectWhere s "library_data" ["init", "id"] (fun r => r.id = 1) with
  | none => .error (.wrap "failed to get init status" .engine)
  | some [] => .ok false
  | some (r :: _) =>
    match scanBool (r.get "init") with
    | .ok b => .ok b
    | .error e => .error (.wrap "failed to get init status" e)

/-- Go `SetInit`: `UPDATE library_data SET init = ?, updated_at = ? WHERE id = 1`. -/
def SetInit (now : Nat) (s : Store) (flag : Bool) : Option Error × Store :=
  match updateWhere s "library_data" ["id"]
      [("init", fun _ => ofBool flag), ("updated_at", fun _ => .time now)]
      (fun r => r.id = 1) with
  | none => (some (.wrap "failed to set init status" .engine), s)
  | some s1 => (none, s1)

/-- The storage classes in the order `ORDER BY` puts them: `NULL`, numbers,
text.  Reals and clock readings, which no ordered column of this schema
holds, are put after the integers as classes of their own. -/
def Value.rank : Value → Nat
  | .null => 0
  | .int _ => 1
  | .real _ => 2
  | .time _ => 3
  | .text _ => 4

/-- Lexicographic order on code points, which is the byte order of the UTF-8
encodings (the engine's default `BINARY` collation). -/
def lexLe : List Char → List Char → Bool
  | [], _ => true
  | _ :: _, [] => false
  | a :: as, b :: bs =>
    if a.toNat < b.toNat then true
    else if b.toNat < a.toNat then false
    else lexLe as bs

/-- Whether text `a` sorts before or with text `b`. -/
def strLe (a b : String) : Bool := lexLe a.data b.data

/-- The order of `ORDER BY column` on two cells: by storage class, integers by
value, text by its bytes (reals by their bit pattern, clock readings by time). -/
def Value.le : Value → Value → Bool
  | .int a, .int b => decide (a ≤ b)
  | .real a, .real b => decide (a ≤ b)
  | .time a, .time b => decide (a ≤ b)
  | .text a, .text b => strLe a b
  | a, b => decide (a.rank ≤ b.rank)

/-- The order of `ORDER BY k1, k2, ...` on two rows: the first key on which the
rows differ decides. -/
def orderBy : List String → Row → Row → Bool
  | [], _, _ => true
  | k :: ks, a, b =>
    if Value.le (a.get k) (b.get k) then
      if Value.le (b.get k) (a.get k) then orderBy ks a b else true
    else false

/-- Go `rows.Scan(&path)` over the result rows, in order. -/
def scanPaths : List Row → Except Error (List String)
  | [] => .ok []
  | r :: rs =>
    match scanString (r.get "path") with
    | .error e => .error (.wrap "failed to scan directory" e)
    | .ok p =>
      match scanPaths rs with
      | .error e => .error e
      | .ok ps => .ok (p :: ps)

/-- Go `GetDirectories`: `SELECT path FROM directories ORDER BY path`. -/
def GetDirectories (s : Store) : Except Error (List String) :=
  match selectWhere s "directories" ["path"] (fun _ => true) with
  | none => .error (.wrap "failed to query directories" .engine)
  | some rows =>
    scanPaths (rows.insertionSort (fun a b => Value.le (a.get "path") (b.get "path") = true))

/-- The loop of `SetDirectories`: one `INSERT INTO directories (path,
created_at, updated_at)` per path. -/
def insertDirectories (now : Nat) : Store → List String → Except Error Store
  | s, [] => .ok s
  | s, path :: rest =>
    match insertInto s "directories" now
        [("path", .text path), ("created_at", .time now), ("updated_at", .time now)] with
    | none => .error (.wrap "failed to insert directory" .engine)
    | some (_, s1) => insertDirectories now s1 rest

/-- Go `SetDirectories`: inside one transaction, `DELETE FROM directories` and
then the inserts. -/
def SetDirectories (now : Nat) (s : Store) (directories : List String) :
    Option Error × Store :=
  transaction s (fun s => do
    let s ← exec (deleteAll s "directories") "failed to clear directories"
    insertDirectories now s directories)

/-! ## Library initialization (app/handlers.go) -/

/-- The loop of `InitializeLibrary` that adds the scanned tracks: an error of
`AddTrack` is printed and the loop goes on. -/
def addTracks (lower : String → String) (now : Nat) : Store → List PersistentTrack → Store
  | s, [] => s
  | s, track :: rest => addTracks lower now (AddTrack lower now s track).2 rest

/-- The body of the goroutine that `InitializeLibrary` starts, with the
scanner's `ScanDirectories` on the current file system as the parameter
`scan`: load the directories, scan them, add every track, set the initialized
flag.  An error of `GetDirectories` or of `scan` ends the body; every error is
only printed. -/
def initializeLibraryBody (lower : String → String) (now : Nat)
    (scan : List String → Except Error (List PersistentTrack)) (s : Store) : Store :=
  match GetDirectories s with
  | .error _ => s
  | .ok directories =>
    match scan directories with
    | .error _ => s
    | .ok tracks => (SetInit now (addTracks lower now s tracks) true).2

/-- Go `InitializeLibrary`: starts the goroutine and returns `nil`.  The result
is the returned error and the store once the goroutine has finished. -/
def InitializeLibrary (lower : String → String) (now : Nat)
    (scan : List String → Except Error (List PersistentTrack)) (s : Store) :
    Option Error × Store :=
  (none, initializeLibraryBody lower now scan s)

/-- Whether the store has the table with all the given columns. -/
def Store.hasColumns (s : Store) (table : String) (columns : List String) : Bool :=
  match s.tables table with
  | none => false
  | some t => columns.all t.hasCol

/-- A model of `strings.ToLower` on ASCII text, used for concrete runs. -/
def asciiLower (s : String) : String := String.mk (s.data.map Char.toLower)

/-- The database of a first `NewConnection` on an empty data directory. -/
def freshStore : Store := (NewConnection 0 none).2

/-- A candidate track as the scanner hands it over, with only the names set. -/
def candidate (artist album title : String) : PersistentTrack :=
  { ID := 0, FilePath := "/music/" ++ title ++ ".mp3", FileName := title ++ ".mp3",
    Title := title, AlbumName := album, AlbumArtistName := some artist, AlbumID := 0,
    ArtistName := artist, ArtistID := 0, ImagePath := none, TrackNumber := none,
    TxtLyrics := none, LrcLyrics := none, Duration := 0, Instrumental := false,
    TitleLower := none, CreatedAt := 0, UpdatedAt := 0 }

/-- The three files of the end-to-end scenario: two by "Artist X" and one by
"Artist Z", all on "Album Y". -/
def scenarioTracks : List PersistentTrack :=
  [candidate "Artist X" "Album Y" "one", candidate "Artist X" "Album Y" "two",
   candidate "Artist Z" "Album Y" "three"]

/-- The end-to-end scenario: a fresh store, one configured directory, and
`InitializeLibrary` with a scanner that finds the three files. -/
def scenarioStore : Store :=
  (InitializeLibrary asciiLower 2 (fun _ => .ok scenarioTracks)
    (SetDirectories 1 freshStore ["/music"]).2).2

/-- A fresh store in which "Artist X" has been resolved (its id is 1). -/
def artistXStore : Store := (getOrCreateArtist asciiLower 1 freshStore "Artist X").2

/-- The store holds no Track, Album or Artist row. -/
def Store.isEmpty (s : Store) : Prop :=
  s.rowsOf "tracks" = [] ∧ s.rowsOf "albums" = [] ∧ s.rowsOf "artists" = []

/-- The stores reachable from an empty store by `AddTrack` calls (whether or
not a call returns an error, its effect on the store stays). -/
inductive Reachable (lower : String → String) : Store → Prop where
  | empty (s : Store) (h : s.isEmpty) : Reachable lower s
  | addTrack (s : Store) (now : Nat) (track : PersistentTrack) (h : Reachable lower s) :
      Reachable lower (AddTrack lower now s track).2

/-- Referential integrity: every Track row's `artist_id` and `album_id` are
ids of existing Artist and Album rows. -/
def RefIntegrity (s : Store) : Prop :=
  ∀ r ∈ s.rowsOf "tracks",
    (∃ a ∈ s.rowsOf "artists", r.get "artist_id" = .int a.id) ∧
    (∃ b ∈ s.rowsOf "albums", r.get "album_id" = .int b.id)

/-- The shadow column of a Track row is the lower-cased title. -/
def TrackInSync (lower : String → String) (r : Row) : Prop :=
  ∃ title, r.get "title" = .text title ∧ r.get "title_lower" = .text (lower title)

/-- The shadow column of an Artist row is the lower-cased name. -/
def ArtistInSync (lower : String → String) (a : Row) : Prop :=
  ∃ n, a.get "name" = .text n ∧ a.get "name_lower" = .text (lower n)

/-- The shadow columns of an Album row are the lower-cased name and the
lower-cased album artist, the latter `NULL` exactly when the album artist is. -/
def AlbumInSync (lower : String → String) (b : Row) : Prop :=
  (∃ n, b.get "name" = .text n ∧ b.get "name_lower" = .text (lower n)) ∧
  ∃ aan : Option String, b.get "album_artist_name" = ofStringPtr aan ∧
    b.get "album_artist_name_lower" = ofStringPtr (aan.map lower)

/-- The text in the `path` cell of a Directory row (empty when it is not text). -/
def pathText (r : Row) : String :=
  match r.get "path" with
  | .text p => p
  | _ => ""

/-- A database file that is already at version 7 (and otherwise blank). -/
def currentBlankDatabase : Store := ⟨7, true, fun _ => none, []⟩

/-! ## Reading and updating tracks (tracks.go, albums.go, artists.go) -/

/-- The columns the track queries select. -/
def trackColumns : List String :=
  ["id", "file_path", "file_name", "title", "album_name", "album_artist_name",
   "album_id", "artist_name", "artist_id", "image_path", "track_number",
   "txt_lyrics", "lrc_lyrics", "duration", "instrumental", "title_lower",
   "created_at", "updated_at"]

/-- Scanning a cell into a Go `int64`. -/
def scanInt : Value → Except Error Int
  | .int i => .ok i
  | _ => .error .engine

/-- Scanning a cell into a Go `*string` (`NULL` gives `nil`). -/
def scanStringPtr : Value → Except Error (Option String)
  | .null => .ok none
  | .text s => .ok (some s)
  | _ => .error .engine

/-- Scanning a cell into a Go `*int64` (`NULL` gives `nil`). -/
def scanIntPtr : Value → Except Error (Option Int)
  | .null => .ok none
  | .int i => .ok (some i)
  | _ => .error .engine

/-- Scanning a cell into a Go `float64`. -/
def scanFloat : Value → Except Error Nat
  | .real b => .ok b
  | _ => .error .engine

/-- Scanning a cell into a Go `time.Time`. -/
def scanTime : Value → Except Error Nat
  | .time t => .ok t
  | _ => .error .engine

/-- Go `rows.Scan(&track.ID, &track.FilePath, ...)` on one result row of the
track queries. -/
def scanTrack (r : Row) : Except Error PersistentTrack := do
  let filePath ← scanString (r.get "file_path")
  let fileName ← scanString (r.get "file_name")
  let title ← scanString (r.get "title")
  let albumName ← scanString (r.get "album_name")
  let albumArtistName ← scanStringPtr (r.get "album_artist_name")
  let albumID ← scanInt (r.get "album_id")
  let artistName ← scanString (r.get "artist_name")
  let artistID ← scanInt (r.get "artist_id")
  let imagePath ← scanStringPtr (r.get "image_path")
  let trackNumber ← scanIntPtr (r.get "track_number")
  let txtLyrics ← scanStringPtr (r.get "txt_lyrics")
  let lrcLyrics ← scanStringPtr (r.get "lrc_lyrics")
  let duration ← scanFloat (r.get "duration")
  let instrumental ← scanBool (r.get "instrumental")
  let titleLower ← scanStringPtr (r.get "title_lower")
  let createdAt ← scanTime (r.get "created_at")
  let updatedAt ← scanTime (r.get "updated_at")
  pure { ID := r.id, FilePath := filePath, FileName := fileName, Title := title,
         AlbumName := albumName, AlbumArtistName := albumArtistName, AlbumID := albumID,
         ArtistName := artistName, ArtistID := artistID, ImagePath := imagePath,
         TrackNumber := trackNumber, TxtLyrics := txtLyrics, LrcLyrics := lrcLyrics,
         Duration := duration, Instrumental := instrumental, TitleLower := titleLower,
         CreatedAt := createdAt, UpdatedAt := updatedAt }

/-- The `for rows.Next()` loop of the track listings: scan every row in order,
the first row that does not scan ends the listing with its error. -/
def scanTracks : List Row → Except Error (List PersistentTrack)
  | [] => .ok []
  | r :: rs =>
    match scanTrack r with
    | .error e => .error (.wrap "failed to scan track" e)
    | .ok t =>
      match scanTracks rs with
      | .error e => .error e
      | .ok ts => .ok (t :: ts)

/-- Go `GetTracks`: `SELECT ... FROM tracks ORDER BY artist_name, album_name,
track_number`. -/
def GetTracks (s : Store) : Except Error (List PersistentTrack) :=
  match selectWhere s "tracks" trackColumns (fun _ => true) with
  | none => .error (.wrap "failed to query tracks" .engine)
  | some rows =>
    scanTracks (rows.insertionSort
      (fun a b => orderBy ["artist_name", "album_name", "track_number"] a b = true))

/-- Go `GetTracksByAlbumID`: `SELECT ... FROM tracks WHERE album_id = ? ORDER BY
track_number, title`. -/
def GetTracksByAlbumID (s : Store) (albumID : Int) : Except Error (List PersistentTrack) :=
  match selectWhere s "tracks" trackColumns
      (fun r => sqlEq (r.get "album_id") (.int albumID)) with
  | none => .error (.wrap "failed to query tracks by album" .engine)
  | some rows =>
    scanTracks (rows.insertionSort (fun a b => orderBy ["track_number", "title"] a b = true))

/-- Go `GetTracksByArtistID`: `SELECT ... FROM tracks WHERE artist_id = ? ORDER
BY album_name, track_number, title`. -/
def GetTracksByArtistID (s : Store) (artistID : Int) : Except Error (List PersistentTrack) :=
  match selectWhere s "tracks" trackColumns
      (fun r => sqlEq (r.get "artist_id") (.int artistID)) with
  | none => .error (.wrap "failed to query tracks by artist" .engine)
  | some rows =>
    scanTracks (rows.insertionSort
      (fun a b => orderBy ["album_name", "track_number", "title"] a b = true))

/-- Go `GetTrackByID`: `SELECT ... FROM tracks WHERE id = ?`; `sql.ErrNoRows`
becomes the error "track with ID n not found", every other error is wrapped in
"failed to get track". -/
def GetTrackByID (s : Store) (id : Int) : Except Error PersistentTrack :=
  match selectWhere s "tracks" trackColumns (fun r => r.id = id) with
  | none => .error (.wrap "failed to get track" .engine)
  | some [] => .error (.errorf ("track with ID " ++ toString id ++ " not found"))
  | some (r :: _) =>
    match scanTrack r with
    | .ok t => .ok t
    | .error e => .error (.wrap "failed to get track" e)

/-- Go `UpdateTrackSyncedLyrics`: `UPDATE tracks SET lrc_lyrics = ?, txt_lyrics
= ?, updated_at = ? WHERE id = ?`. -/
def UpdateTrackSyncedLyrics (now : Nat) (s : Store) (trackID : Int)
    (syncedLyrics plainLyrics : String) : Option Error × Store :=
  match updateWhere s "tracks" ["id"]
      [("lrc_lyrics", fun _ => .text syncedLyrics), ("txt_lyrics", fun _ => .text plainLyrics),
       ("updated_at", fun _ => .time now)]
      (fun r => r.id = trackID) with
  | none => (some (.wrap "failed to update synced lyrics" .engine), s)
  | some s1 => (none, s1)

/-- Go `UpdateTrackPlainLyrics`: `UPDATE tracks SET txt_lyrics = ?, updated_at =
? WHERE id = ?`. -/
def UpdateTrackPlainLyrics (now : Nat) (s : Store) (trackID : Int) (plainLyrics : String) :
    Option Error × Store :=
  match updateWhere s "tracks" ["id"]
      [("txt_lyrics", fun _ => .text plainLyrics), ("updated_at", fun _ => .time now)]
      (fun r => r.id = trackID) with
  | none => (some (.wrap "failed to update plain lyrics" .engine), s)
  | some s1 => (none, s1)

/-- Go `UpdateTrackInstrumental`: `UPDATE tracks SET instrumental = TRUE,
updated_at = ? WHERE id = ?`. -/
def UpdateTrackInstrumental (now : Nat) (s : Store) (trackID : Int) : Option Error × Store :=
  match updateWhere s "tracks" ["id"]
      [("instrumental", fun _ => .int 1), ("updated_at", fun _ => .time now)]
      (fun r => r.id = trackID) with
  | none => (some (.wrap "failed to update instrumental status" .engine), s)
  | some s1 => (none, s1)

/-! ## The scanner (filesystem/scanner.go) -/

/-- The tags `tag.ReadFrom` reads from an audio file; `Track` is the track
number (0 when the file has none). -/
structure Tags where
  Title : String
  Album : String
  Artist : String
  AlbumArtist : String
  Track : Int

/-- One call `filepath.Walk` makes to its callback: the path, whether it is a
directory, and the error the walk met there (`none` is `nil`). -/
structure Visit where
  path : String
  isDir : Bool
  err : Option Error

/-- The host the scanner runs on: for every root the calls `filepath.Walk`
makes in order while the callback returns `nil`, the outcome of `os.Open`
(`none` is success) and of `tag.ReadFrom` on a file, the content `os.ReadFile`
returns (`none` when it fails), and `filepath.Dir` and `filepath.Join`. -/
structure FileSystem where
  walk : String → List Visit
  openFile : String → Option Error
  readTags : String → Except Error Tags
  readFile : String → Option String
  dir : String → String
  join : String → String → String

/-- The loop of `filepath.Ext` from the end of the path: `rev` is what is left
of the reversed path, `acc` the characters already passed. -/
def extAux : List Char → List Char → String
  | [], _ => ""
  | c :: rest, acc =>
    if c = '/' then ""
    else if c = '.' then String.mk ('.' :: acc)
    else extAux rest (c :: acc)

/-- Go `filepath.Ext`: the suffix beginning at the final dot in the final
element of the path, empty if there is no dot (separator `/`). -/
def Ext (path : String) : String := extAux path.data.reverse []

/-- Go `filepath.Base`: the last element of the path, after trailing slashes
are removed; "." for the empty path and "/" for a path of slashes only. -/
def Base (path : String) : String :=
  if path = "" then "."
  else
    let last := ((path.data.reverse.dropWhile (fun c => c = '/')).takeWhile
      (fun c => c ≠ '/')).reverse
    if last = [] then "/" else String.mk last

/-- Go `strings.TrimSuffix`. -/
def TrimSuffix (s suffix : String) : String :=
  if suffix.data.isSuffixOf s.data then String.mk (s.data.take (s.data.length - suffix.data.length))
  else s

/-- The allow-list of `isAudioFile`. -/
def audioExtensions : List String :=
  [".mp3", ".m4a", ".flac", ".ogg", ".opus", ".wav", ".aac", ".wma"]

/-- Go `isAudioFile`: the lower-cased extension is in the allow-list. -/
def isAudioFile (lower : String → String) (path : String) : Bool :=
  audioExtensions.contains (lower (Ext path))

/-- Go `getTxtPath`. -/
def getTxtPath (fs : FileSystem) (filePath : String) : String :=
  fs.join (fs.dir filePath) (TrimSuffix (Base filePath) (Ext filePath) ++ ".txt")

/-- Go `getLrcPath`. -/
def getLrcPath (fs : FileSystem) (filePath : String) : String :=
  fs.join (fs.dir filePath) (TrimSuffix (Base filePath) (Ext filePath) ++ ".lrc")

/-- Go `getTxtLyrics`: the content of the `.txt` file next to the audio file,
`nil` when it cannot be read. -/
def getTxtLyrics (fs : FileSystem) (filePath : String) : Option String :=
  fs.readFile (getTxtPath fs filePath)

/-- Go `getLrcLyrics`: the content of the `.lrc` file next to the audio file,
`nil` when it cannot be read. -/
def getLrcLyrics (fs : FileSystem) (filePath : String) : Option String :=
  fs.readFile (getLrcPath fs filePath)

/-- Go `extractMetadata`: opens the file, reads its tags and builds the
candidate track with the fallbacks for empty tags. -/
def extractMetadata (lower : String → String) (now : Nat) (fs : FileSystem)
    (filePath : String) : Except Error PersistentTrack :=
  match fs.openFile filePath with
  | some e => .error (.wrap "failed to open file" e)
  | none =>
    match fs.readTags filePath with
    | .error e => .error (.wrap "failed to read tags" e)
    | .ok tags =>
      let title := if tags.Title = "" then TrimSuffix (Base filePath) (Ext filePath)
                   else tags.Title
      let album := if tags.Album = "" then "Unknown Album" else tags.Album
      let artist := if tags.Artist = "" then "Unknown Artist" else tags.Artist
      let albumArtist := if tags.AlbumArtist = "" then artist else tags.AlbumArtist
      let trackNumber := tags.Track
      let txtLyrics := getTxtLyrics fs filePath
      let lrcLyrics := getLrcLyrics fs filePath
      .ok { ID := 0, FilePath := filePath, FileName := Base filePath, Title := title,
            AlbumName := album, AlbumArtistName := some albumArtist, AlbumID := 0,
            ArtistName := artist, ArtistID := 0, ImagePath := none,
            TrackNumber := if trackNumber > 0 then some trackNumber else none,
            TxtLyrics := txtLyrics, LrcLyrics := lrcLyrics, Duration := 0,
            Instrumental := false, TitleLower := some (lower title),
            CreatedAt := now, UpdatedAt := now }

/-- The callback of `scanDirectory` run over the calls of one walk, `tracks`
being the tracks collected so far: an error of the walk ends it, directories
and other files are passed over, a file whose extraction fails is skipped. -/
def scanVisits (lower : String → String) (now : Nat) (fs : FileSystem) :
    List Visit → List PersistentTrack → Except Error (List PersistentTrack)
  | [], tracks => .ok tracks
  | v :: vs, tracks =>
    match v.err with
    | some e => .error e
    | none =>
      if v.isDir then scanVisits lower now fs vs tracks
      else if !isAudioFile lower v.path then scanVisits lower now fs vs tracks
      else
        match extractMetadata lower now fs v.path with
        | .error _ => scanVisits lower now fs vs tracks
        | .ok track => scanVisits lower now fs vs (tracks ++ [track])

/-- Go `scanDirectory`. -/
def scanDirectory (lower : String → String) (now : Nat) (fs : FileSystem)
    (directory : String) : Except Error (List PersistentTrack) :=
  match scanVisits lower now fs (fs.walk directory) [] with
  | .error e => .error (.wrap "failed to walk directory" e)
  | .ok tracks => .ok tracks

/-- The loop of `ScanDirectories`, `allTracks` being the tracks so far. -/
def scanDirectoriesLoop (lower : String → String) (now : Nat) (fs : FileSystem) :
    List String → List PersistentTrack → Except Error (List PersistentTrack)
  | [], allTracks => .ok allTracks
  | directory :: rest, allTracks =>
    match scanDirectory lower now fs directory with
    | .error e => .error (.wrap ("failed to scan directory " ++ directory) e)
    | .ok tracks => scanDirectoriesLoop lower now fs rest (allTracks ++ tracks)

/-- Go `ScanDirectories`. -/
def ScanDirectories (lower : String → String) (now : Nat) (fs : FileSystem)
    (directories : List String) : Except Error (List PersistentTrack) :=
  scanDirectoriesLoop lower now fs directories []

/-- The callback of `CountFiles` run over the calls of one walk. -/
def countVisits (lower : String → String) : List Visit → Int → Except Error Int
  | [], count => .ok count
  | v :: vs, count =>
    match v.err with
    | some e => .error e
    | none =>
      if v.isDir then countVisits lower vs count
      else if isAudioFile lower v.path then countVisits lower vs (count + 1)
      else countVisits lower vs count

/-- The loop of `CountFiles` over the directories. -/
def countFilesLoop (lower : String → String) (fs : FileSystem) :
    List String → Int → Except Error Int
  | [], count => .ok count
  | directory :: rest, count =>
    match countVisits lower (fs.walk directory) count with
    | .error e => .error (.wrap ("failed to count files in directory " ++ directory) e)
    | .ok count1 => countFilesLoop lower fs rest count1

/-- Go `CountFiles`. -/
def CountFiles (lower : String → String) (fs : FileSystem) (directories : List String) :
    Except Error Int :=
  countFilesLoop lower fs directories 0

/-- The audio files the walks of the directories come by, in traversal order. -/
def audioFiles (lower : String → String) (fs : FileSystem) : List String → List String
  | [] => []
  | directory :: rest =>
    ((fs.walk directory).filter (fun v => !v.isDir && isAudioFile lower v.path)).map
      (fun v => v.path) ++ audioFiles lower fs rest

/-- The track `extractMetadata` builds for a file, `none` when it fails. -/
def extracted (lower : String → String) (now : Nat) (fs : FileSystem) (path : String) :
    Option PersistentTrack :=
  match extractMetadata lower now fs path with
  | .ok track => some track
  | .error _ => none

/-! ## The lyrics provider's response (lrclib/models.go, lrclib/get.go) -/

/-- Go `RawResponse`; `Duration` carries the float64 verbatim. -/
structure RawResponse where
  PlainLyrics : Option String
  SyncedLyrics : Option String
  Instrumental : Bool
  Lang : Option String
  Isrc : Option String
  SpotifyID : Option String
  Name : Option String
  AlbumName : Option String
  ArtistName : Option String
  ReleaseDate : Option String
  Duration : Option Nat

/-- The four implementations of the Go interface `Response`. -/
inductive Response where
  | SyncedLyrics (Synced : String) (Plain : String)
  | UnsyncedLyrics (Plain : String)
  | Instrumental
  | None
deriving DecidableEq, Repr

/-- Go `stripTimestamp`: returns the synced lyrics as they are. -/
def stripTimestamp (syncedLyrics : String) : String := syncedLyrics

/-- Go `convertResponse`. -/
def convertResponse (raw : RawResponse) : Response :=
  match raw.SyncedLyrics with
  | some synced =>
    let plain := match raw.PlainLyrics with
      | some p => p
      | none => stripTimestamp synced
    .SyncedLyrics synced plain
  | none =>
    match raw.PlainLyrics with
    | some p => .UnsyncedLyrics p
    | none => if raw.Instrumental then .Instrumental else .None

/-! ## The configuration (models.go, config.go) -/

/-- Go `PersistentConfig` (models.go). -/
structure PersistentConfig where
  ID : Int
  SkipTracksWithSyncedLyrics : Bool
  SkipTracksWithPlainLyrics : Bool
  ShowLineCount : Bool
  TryEmbedLyrics : Bool
  ThemeMode : String
  LrclibInstance : String
  CreatedAt : Nat
  UpdatedAt : Nat

/-- The columns `GetConfig` selects. -/
def configColumns : List String :=
  ["id", "skip_tracks_with_synced_lyrics", "skip_tracks_with_plain_lyrics",
   "show_line_count", "try_embed_lyrics", "theme_mode", "lrclib_instance",
   "created_at", "updated_at"]

/-- Go `QueryRow(...).Scan(&config.ID, ...)` on the row of `GetConfig`. -/
def scanConfig (r : Row) : Except Error PersistentConfig := do
  let skipSynced ← scanBool (r.get "skip_tracks_with_synced_lyrics")
  let skipPlain ← scanBool (r.get "skip_tracks_with_plain_lyrics")
  let showLineCount ← scanBool (r.get "show_line_count")
  let tryEmbed ← scanBool (r.get "try_embed_lyrics")
  let themeMode ← scanString (r.get "theme_mode")
  let lrclibInstance ← scanString (r.get "lrclib_instance")
  let createdAt ← scanTime (r.get "created_at")
  let updatedAt ← scanTime (r.get "updated_at")
  pure { ID := r.id, SkipTracksWithSyncedLyrics := skipSynced,
         SkipTracksWithPlainLyrics := skipPlain, ShowLineCount := showLineCount,
         TryEmbedLyrics := tryEmbed, ThemeMode := themeMode,
         LrclibInstance := lrclibInstance, CreatedAt := createdAt, UpdatedAt := updatedAt }

/-- Go `GetConfig`: `SELECT ... FROM config_data WHERE id = 1`; without such a
row the default configuration is returned. -/
def GetConfig (now : Nat) (s : Store) : Except Error PersistentConfig :=
  match selectWhere s "config_data" configColumns (fun r => r.id = 1) with
  | none => .error (.wrap "failed to get config" .engine)
  | some [] =>
    .ok { ID := 1, SkipTracksWithSyncedLyrics := true, SkipTracksWithPlainLyrics := false,
          ShowLineCount := true, TryEmbedLyrics := false, ThemeMode := "system",
          LrclibInstance := "https://lrclib.net", CreatedAt := now, UpdatedAt := now }
  | some (r :: _) =>
    match scanConfig r with
    | .ok config => .ok config
    | .error e => .error (.wrap "failed to get config" e)

/-- Go `UpdateConfig`: `UPDATE config_data SET skip_tracks_with_synced_lyrics =
?, skip_tracks_with_plain_lyrics = ?, show_line_count = ?, try_embed_lyrics = ?,
theme_mode = ?, lrclib_instance = ?, updated_at = ? WHERE id = ?`. -/
def UpdateConfig (now : Nat) (s : Store) (config : PersistentConfig) : Option Error × Store :=
  match updateWhere s "config_data" ["id"]
      [("skip_tracks_with_synced_lyrics", fun _ => ofBool config.SkipTracksWithSyncedLyrics),
       ("skip_tracks_with_plain_lyrics", fun _ => ofBool config.SkipTracksWithPlainLyrics),
       ("show_line_count", fun _ => ofBool config.ShowLineCount),
       ("try_embed_lyrics", fun _ => ofBool config.TryEmbedLyrics),
       ("theme_mode", fun _ => .text config.ThemeMode),
       ("lrclib_instance", fun _ => .text config.LrclibInstance),
       ("updated_at", fun _ => .time now)]
      (fun r => r.id = config.ID) with
  | none => (some (.wrap "failed to update config" .engine), s)
  | some s1 => (none, s1)

/-! ## Input validation (utils/validation.go, utils/errors.go) -/

/-- Whether the characters `sub` occur in a row somewhere in the first list. -/
def containsChars : List Char → List Char → Bool
  | [], sub => sub.isEmpty
  | c :: cs, sub => sub.isPrefixOf (c :: cs) || containsChars cs sub

/-- Go `strings.Contains`. -/
def Contains (s substr : String) : Bool := containsChars s.data substr.data

/-- Go `filepath.IsAbs` (separator `/`). -/
def IsAbs (path : String) : Bool := path.data.head? = some '/'

/-- Go `ValidateFilePath`; `abs` is `filepath.Abs`, which depends on the
working directory. -/
def ValidateFilePath (abs : String → Except Error String) (path : String) : Option Error :=
  if path = "" then some (.errorf "path cannot be empty")
  else if Contains path ".." then some (.errorf "path traversal not allowed")
  else
    match (if IsAbs path then .ok path else abs path) with
    | .error _ => some (.errorf "invalid path format")
    | .ok path =>
      if Contains path "~" then some (.errorf "home directory references not allowed")
      else if ["//", "\\\\", "/./", "\\.\\"].any (fun pattern => Contains path pattern) then
        some (.errorf "suspicious path pattern detected")
      else none

/-- Go `ValidateDirectory`. -/
def ValidateDirectory (abs : String → Except Error String) (path : String) : Option Error :=
  match ValidateFilePath abs path with
  | some err => some err
  | none =>
    if !IsAbs path then
      match abs path with
      | .error _ => some (.errorf "invalid directory path")
      | .ok _ => none
    else none

/-- Go `unicode.IsSpace`. -/
def isSpace (c : Char) : Bool :=
  c.toNat = 9 || c.toNat = 10 || c.toNat = 11 || c.toNat = 12 || c.toNat = 13 ||
  c.toNat = 32 || c.toNat = 0x85 || c.toNat = 0xA0 || c.toNat = 0x1680 ||
  (0x2000 ≤ c.toNat && c.toNat ≤ 0x200A) || c.toNat = 0x2028 || c.toNat = 0x2029 ||
  c.toNat = 0x202F || c.toNat = 0x205F || c.toNat = 0x3000

/-- Go `strings.TrimSpace`: leading and trailing white space removed. -/
def TrimSpace (s : String) : String :=
  String.mk ((s.data.dropWhile isSpace).reverse.dropWhile isSpace).reverse

/-- What `html.EscapeString` writes for one character. -/
def escapeChar (c : Char) : List Char :=
  if c = '&' then "&amp;".data
  else if c = Char.ofNat 39 then "&#39;".data
  else if c = '<' then "&lt;".data
  else if c = '>' then "&gt;".data
  else if c = Char.ofNat 34 then "&#34;".data
  else [c]

/-- The loop of `html.EscapeString` over the characters. -/
def escapeChars : List Char → List Char
  | [] => []
  | c :: cs => escapeChar c ++ escapeChars cs

/-- Go `html.EscapeString`. -/
def EscapeString (s : String) : String := String.mk (escapeChars s.data)

/-- The characters the pattern `[\x00-\x08\x0B\x0C\x0E-\x1F\x7F]` matches. -/
def isControl (c : Char) : Bool :=
  c.toNat ≤ 8 || c.toNat = 11 || c.toNat = 12 || (14 ≤ c.toNat && c.toNat ≤ 31) ||
  c.toNat = 127

/-- Go `SanitizeInput`: trim white space, escape for HTML, remove null bytes,
remove the control characters. -/
def SanitizeInput (input : String) : String :=
  let input := TrimSpace input
  let input := EscapeString input
  let input := String.mk (input.data.filter (fun c => c.toNat ≠ 0))
  let input := String.mk (input.data.filter (fun c => !isControl c))
  input

/-- The patterns `ValidateSearchQuery` looks for. -/
def sqlPatterns : List String :=
  [String.mk [Char.ofNat 39], String.mk [Char.ofNat 34], ";", "--", "/*", "*/", "xp_", "sp_",
   "union", "select", "insert", "update", "delete", "drop", "create", "alter", "exec",
   "execute"]

/-- Go `ValidateSearchQuery`; `len(query)` is the length in bytes. -/
def ValidateSearchQuery (lower : String → String) (query : String) : Option Error :=
  if query.utf8ByteSize = 0 then some (.errorf "search query cannot be empty")
  else if query.utf8ByteSize > 1000 then some (.errorf "search query too long")
  else if sqlPatterns.any (fun pattern => Contains (lower query) pattern) then
    some (.errorf "invalid characters in search query")
  else none

/-- Go `ValidateURL`. -/
def ValidateURL (url : String) : Option Error :=
  if url = "" then some (.errorf "URL cannot be empty")
  else if !"http://".data.isPrefixOf url.data && !"https://".data.isPrefixOf url.data then
    some (.errorf "URL must start with http:// or https://")
  else if url.utf8ByteSize > 2048 then some (.errorf "URL too long")
  else none

/-- Go `SafeError`: the message shown to the user and the error behind it. -/
structure SafeError where
  Message : String
  Err : Error
deriving DecidableEq, Repr

/-- Go `HandleErrorWithMessage` (the log line is left out). -/
def HandleErrorWithMessage (_operation : String) (err : Error) (userMessage : String) :
    SafeError :=
  ⟨userMessage, err⟩

/-- Go `HandleDatabaseError`; `errorText` is `err.Error()`. -/
def HandleDatabaseError (errorText : Error → String) (_operation : String) (err : Error) :
    SafeError :=
  if Contains (errorText err) "no such table" then
    ⟨"Database not properly initialized. Please restart the application.", err⟩
  else if Contains (errorText err) "database is locked" then
    ⟨"Database is currently in use. Please try again in a moment.", err⟩
  else if Contains (errorText err) "disk I/O error" then
    ⟨"Storage error occurred. Please check your disk space and permissions.", err⟩
  else ⟨"Database operation failed. Please try again.", err⟩

/-- Go `HandleNetworkError`; `errorText` is `err.Error()`. -/
def HandleNetworkError (errorText : Error → String) (_operation : String) (err : Error) :
    SafeError :=
  if Contains (errorText err) "timeout" then
    ⟨"Request timed out. Please check your internet connection and try again.", err⟩
  else if Contains (errorText err) "connection refused" then
    ⟨"Unable to connect to server. Please check your internet connection.", err⟩
  else if Contains (errorText err) "no such host" then
    ⟨"Server not found. Please check your internet connection.", err⟩
  else ⟨"Network error occurred. Please check your internet connection and try again.", err⟩

/-- A request to the lyrics provider: the base URL and the four search fields. -/
structure SearchRequest where
  baseURL : String
  title : String
  artist : String
  album : String
  query : String
deriving DecidableEq, Repr

/-- What a call of `App.SearchLyrics` gives: the returned value and the
requests it sent to the provider. -/
structure SearchOutcome (α : Type) where
  result : Except SafeError α
  requests : List SearchRequest

/-- Go `App.SearchLyrics`; `provider` is the lyrics provider answering a
request (`lrclib.SearchLyrics` with the base URL set). -/
def SearchLyrics {α : Type} (lower : String → String) (errorText : Error → String)
    (now : Nat) (provider : SearchRequest → Except Error α) (s : Store)
    (title artist album query : String) : SearchOutcome α :=
  let title := SanitizeInput title
  let artist := SanitizeInput artist
  let album := SanitizeInput album
  let query := SanitizeInput query
  match ValidateSearchQuery lower query with
  | some err => ⟨.error (HandleErrorWithMessage "SearchLyrics" err "Invalid search query"), []⟩
  | none =>
    match GetConfig now s with
    | .error err => ⟨.error (HandleDatabaseError errorText "GetConfig" err), []⟩
    | .ok config =>
      match ValidateURL config.LrclibInstance with
      | some err =>
        ⟨.error (HandleErrorWithMessage "SearchLyrics" err "Invalid LRCLIB URL configuration"),
         []⟩
      | none =>
        let request : SearchRequest := ⟨config.LrclibInstance, title, artist, album, query⟩
        match provider request with
        | .error err => ⟨.error (HandleNetworkError errorText "SearchLyrics" err), [request]⟩
        | .ok response => ⟨.ok response, [request]⟩

/-! ## The proof-of-work challenge (lrclib/challenge.go) -/

/-- The loop of `verifyNonce` from index `i`, with `n` iterations left. -/
def verifyNonceLoop (result target : List Nat) : Nat → Nat → Bool
  | 0, _ => true
  | n + 1, i =>
    if result.getD i 0 > target.getD i 0 then false
    else if result.getD i 0 < target.getD i 0 then true
    else verifyNonceLoop result target n (i + 1)

/-- Go `verifyNonce` on two byte strings (lists of numbers below 256): the
loop runs over the indices `0 .. len(result) - 2`. -/
def verifyNonce (result target : List Nat) : Bool :=
  if result.length ≠ target.length then false
  else verifyNonceLoop result target (result.length - 1) 0

/-- Lexicographic order on byte strings: `a` is at most `b`. -/
def bytesLe : List Nat → List Nat → Bool
  | [], _ => true
  | _ :: _, [] => false
  | a :: as, b :: bs => if a < b then true else if b < a then false else bytesLe as bs

/-- The stores on which every statement of `migrateToVersion5` can run: the
tables it alters exist and lack the columns it adds, the tables it clears and
the `library_data` table with its `init` column exist, and neither of the two
indexes it creates exists. -/
def readyForVersion5 (s : Store) : Bool :=
  (match s.tables "tracks" with
   | some t => !t.hasCol "track_number"
   | none => false) &&
  (match s.tables "albums" with
   | some t => !t.hasCol "album_artist_name" && !t.hasCol "album_artist_name_lower"
   | none => false) &&
  (match s.tables "config_data" with
   | some t => !t.hasCol "theme_mode" && !t.hasCol "lrclib_instance"
   | none => false) &&
  (s.tables "artists").isSome &&
  (match s.tables "library_data" with
   | some t => t.hasCol "init"
   | none => false) &&
  !s.indexes.contains "idx_albums_album_artist_name_lower" &&
  !s.indexes.contains "idx_tracks_track_number"

/-! ## Stores and files used in concrete runs -/

/-- The fresh store after `AddTrack` of the first scenario track. -/
def oneTrackStore : Store :=
  (AddTrack asciiLower 1 freshStore (candidate "Artist X" "Album Y" "one")).2

/-- The track `GetTrackByID 1` reads back from `oneTrackStore`. -/
def oneTrack : PersistentTrack :=
  { candidate "Artist X" "Album Y" "one" with
    ID := 1, AlbumID := 1, ArtistID := 1, TitleLower := some "one",
    CreatedAt := 1, UpdatedAt := 1 }

/-- A database at version 7 that holds the artists and albums tables but no
tracks table; `Migrate` leaves it as it is. -/
def noTracksDatabase : Store :=
  ((do
    let s ← createTable currentBlankDatabase "artists"
      [col "id", col "name", col "name_lower", colNow "created_at", colNow "updated_at"]
    createTable s "albums"
      [col "id", col "name", col "artist_id", col "image_path", col "artist_name",
       col "album_artist_name", col "name_lower", col "album_artist_name_lower",
       colNow "created_at", colNow "updated_at"]) : Option Store).getD currentBlankDatabase

/-- A file system with one music directory: two audio files that can be read,
one whose tags cannot, and a picture. -/
def demoFS : FileSystem where
  walk := fun root =>
    if root = "/music" then
      [⟨"/music", true, none⟩, ⟨"/music/a.mp3", false, none⟩, ⟨"/music/b.MP3", false, none⟩,
       ⟨"/music/cover.jpg", false, none⟩, ⟨"/music/sub", true, none⟩,
       ⟨"/music/sub/c.flac", false, none⟩]
    else [⟨root, false, some (.errorf "no such file or directory")⟩]
  openFile := fun _ => none
  readTags := fun path =>
    if path = "/music/b.MP3" then .error (.errorf "no tags found")
    else if path = "/music/a.mp3" then .ok ⟨"Song", "Album Y", "Artist X", "", 3⟩
    else .ok ⟨"", "", "", "", 0⟩
  readFile := fun _ => none
  dir := fun path => String.mk ((path.data.reverse.dropWhile (fun c => c ≠ '/')).drop 1).reverse
  join := fun a b => a ++ "/" ++ b

/-- The fresh store with the music directory of `demoFS` configured. -/
def musicStore : Store := (SetDirectories 1 freshStore ["/music"]).2

/-- The configuration `GetConfig` reads from the fresh store. -/
def freshConfig : PersistentConfig :=
  { ID := 1, SkipTracksWithSyncedLyrics := true, SkipTracksWithPlainLyrics := false,
    ShowLineCount := true, TryEmbedLyrics := false, ThemeMode := "system",
    LrclibInstance := "https://lrclib.net", CreatedAt := 0, UpdatedAt := 0 }

/-- A store at version 4 with the schema of `migrateToVersion1`: the store
with one track, marked initialized, its version set to 4. -/
def staleVersion4Store : Store :=
  { (SetInit 1 oneTrackStore true).2 with user_version := 4 }

/-- A store at version 4 with a schema that lacks the columns
`migrateToVersion5` adds; it holds an artist, an album and a track and is
marked initialized. -/
def legacyVersion4Store : Store :=
  ((do
    let s ← createTable { blankDatabase with user_version := 4 } "artists"
      [col "id", col "name", col "name_lower"]
    let s ← createTable s "albums"
      [col "id", col "name", col "artist_id", col "image_path", col "name_lower"]
    let s ← createTable s "tracks"
      [col "id", col "file_path", col "file_name", col "title", col "album_id",
       col "artist_id", col "duration", col "lrc_lyrics", col "txt_lyrics",
       col "instrumental", col "title_lower"]
    let s ← createTable s "library_data" [col "id", col "init"]
    let s ← createTable s "config_data"
      [col "id", col "skip_not_needed_tracks", col "try_embed_lyrics"]
    let (_, s) ← insertInto s "artists" 1 [("name", .text "A"), ("name_lower", .text "a")]
    let (_, s) ← insertInto s "albums" 1
      [("name", .text "Hits"), ("artist_id", .int 1), ("name_lower", .text "hits")]
    let (_, s) ← insertInto s "tracks" 1
      [("file_path", .text "/music/first.mp3"), ("file_name", .text "first.mp3"),
       ("title", .text "first"), ("album_id", .int 1), ("artist_id", .int 1),
       ("duration", .real 0), ("instrumental", .int 0), ("title_lower", .text "first")]
    let (_, s) ← insertInto s "library_data" 1 [("init", .int 1)]
    let (_, s) ← insertInto s "config_data" 1
      [("skip_not_needed_tracks", .int 1), ("try_embed_lyrics", .int 0)]
    pure s) : Option Store).getD blankDatabase

/-! ## Concurrent calls of `AddTrack` (tracks.go, connection.go) -/

/-- Where a goroutine that called `AddTrack` stands, statement by statement,
with `getOrCreateArtist` and `getOrCreateAlbum` inlined: before
`c.mu.Lock()`, before `SELECT id FROM artists`, before `INSERT INTO artists`,
before `SELECT id FROM albums`, before `INSERT INTO albums`, before `INSERT
INTO tracks`, and returned (the deferred `c.mu.Unlock()` done). -/
inductive AddTrackPc where
  | start
  | locked
  | artistMissing
  | haveArtist (artistID : Int)
  | albumMissing (artistID : Int)
  | haveAlbum (artistID albumID : Int)
  | returned (err : Option Error)
deriving DecidableEq

/-- The positions between `c.mu.Lock()` and the deferred `c.mu.Unlock()`. -/
def AddTrackPc.holdsLock : AddTrackPc → Bool
  | .locked => true
  | .artistMissing => true
  | .haveArtist _ => true
  | .albumMissing _ => true
  | .haveAlbum _ _ => true
  | _ => false

/-- The call has returned. -/
def AddTrackPc.isReturned : AddTrackPc → Bool
  | .returned _ => true
  | _ => false

/-- The positions after `getOrCreateArtist` has returned an id. -/
def AddTrackPc.pastArtist : AddTrackPc → Bool
  | .haveArtist _ => true
  | .albumMissing _ => true
  | .haveAlbum _ _ => true
  | .returned _ => true
  | _ => false

/-- The largest number of steps the call can still take. -/
def AddTrackPc.stepsLeft : AddTrackPc → Nat
  | .start => 6
  | .locked => 5
  | .artistMissing => 4
  | .haveArtist _ => 3
  | .albumMissing _ => 2
  | .haveAlbum _ _ => 1
  | .returned _ => 0

/-- One step of the goroutine `i` running `AddTrack track` at position `pc`,
on the database `db` with the write lock `mu` (the goroutine holding it, if
any).  `Lock` goes ahead only when no goroutine holds the lock, otherwise the
goroutine stays where it is; every `return` releases the lock. -/
def stepAddTrack (lower : String → String) (now : Nat) (i : Nat) (track : PersistentTrack)
    (db : Store) (mu : Option Nat) : AddTrackPc → Store × Option Nat × AddTrackPc
  | .start => if mu = none then (db, some i, .locked) else (db, mu, .start)
  | .locked =>
    match selectWhere db "artists" ["id", "name"]
        (fun r => sqlEq (r.get "name") (.text track.ArtistName)) with
    | none => (db, none, .returned (some (.wrap "failed to get or create artist"
        (.wrap "failed to query artist" .engine))))
    | some (r :: _) => (db, mu, .haveArtist r.id)
    | some [] => (db, mu, .artistMissing)
  | .artistMissing =>
    let nameLower := lower track.ArtistName
    match insertInto db "artists" now
        [("name", .text track.ArtistName), ("name_lower", .text nameLower),
         ("created_at", .time now), ("updated_at", .time now)] with
    | none => (db, none, .returned (some (.wrap "failed to get or create artist"
        (.wrap "failed to create artist" .engine))))
    | some (artistID, db1) => (db1, mu, .haveArtist artistID)
  | .haveArtist artistID =>
    match selectWhere db "albums" ["id", "name", "artist_id"]
        (fun r => sqlEq (r.get "name") (.text track.AlbumName) &&
                  sqlEq (r.get "artist_id") (.int artistID)) with
    | none => (db, none, .returned (some (.wrap "failed to get or create album"
        (.wrap "failed to query album" .engine))))
    | some (r :: _) => (db, mu, .haveAlbum artistID r.id)
    | some [] => (db, mu, .albumMissing artistID)
  | .albumMissing artistID =>
    let nameLower := lower track.AlbumName
    let albumArtistNameLower : Option String :=
      match track.AlbumArtistName with
      | some a => some (lower a)
      | none => none
    match insertInto db "albums" now
        [("name", .text track.AlbumName), ("name_lower", .text nameLower),
         ("artist_name", .text ""), ("album_artist_name", ofStringPtr track.AlbumArtistName),
         ("album_artist_name_lower", ofStringPtr albumArtistNameLower),
         ("image_path", ofStringPtr track.ImagePath),
         ("created_at", .time now), ("updated_at", .time now)] with
    | none => (db, none, .returned (some (.wrap "failed to get or create album"
        (.wrap "failed to create album" .engine))))
    | some (albumID, db1) => (db1, mu, .haveAlbum artistID albumID)
  | .haveAlbum artistID albumID =>
    let titleLower := lower track.Title
    match insertInto db "tracks" now
        [("file_path", .text track.FilePath), ("file_name", .text track.FileName),
         ("title", .text track.Title), ("album_name", .text track.AlbumName),
         ("album_artist_name", ofStringPtr track.AlbumArtistName),
         ("album_id", .int albumID), ("artist_name", .text track.ArtistName),
         ("artist_id", .int artistID), ("image_path", ofStringPtr track.ImagePath),
         ("track_number", ofIntPtr track.TrackNumber),
         ("txt_lyrics", ofStringPtr track.TxtLyrics),
         ("lrc_lyrics", ofStringPtr track.LrcLyrics),
         ("duration", ofFloat64 track.Duration), ("instrumental", ofBool track.Instrumental),
         ("title_lower", .text titleLower),
         ("created_at", .time now), ("updated_at", .time now)] with
    | none => (db, none, .returned (some (.wrap "failed to insert track" .engine)))
    | some (_, db1) => (db1, none, .returned none)
  | .returned err => (db, mu, .returned err)

/-- A goroutine that called `AddTrack`: its argument and where it stands. -/
structure Goroutine where
  track : PersistentTrack
  pc : AddTrackPc

/-- A `Connection` shared by goroutines calling `AddTrack`: the database, the
holder of the write lock `mu`, and the goroutines. -/
structure Shared where
  db : Store
  mu : Option Nat
  calls : List Goroutine

/-- The scheduler lets goroutine `i` take its next step at clock reading
`now`. -/
def Shared.step (lower : String → String) (c : Shared) (i now : Nat) : Shared :=
  match c.calls[i]? with
  | none => c
  | some g =>
    match stepAddTrack lower now i g.track c.db c.mu g.pc with
    | (db, mu, pc) => ⟨db, mu, c.calls.set i { g with pc := pc }⟩

/-- A schedule: which goroutine steps next, and the clock reading then. -/
def Shared.run (lower : String → String) : Shared → List (Nat × Nat) → Shared
  | c, [] => c
  | c, (i, now) :: rest => Shared.run lower (c.step lower i now) rest

/-- One goroutine per track, each about to call `AddTrack`, the lock free. -/
def Shared.begin (db : Store) (tracks : List PersistentTrack) : Shared :=
  ⟨db, none, tracks.map (fun t => ⟨t, .start⟩)⟩

/-- Every call has returned. -/
def Shared.allReturned (c : Shared) : Bool := c.calls.all (fun g => g.pc.isReturned)

/-- The Artist rows with the given name. -/
def artistRows (a : String) (s : Store) : List Row :=
  (s.rowsOf "artists").filter (fun r => decide (r.get "name" = .text a))

/-- The tables `AddTrack` uses exist with the columns it names. -/
def addTrackSchema (s : Store) : Bool :=
  s.hasColumns "artists" ["id", "name", "name_lower", "created_at", "updated_at"] &&
  s.hasColumns "albums" ["id", "name", "artist_id", "name_lower", "artist_name",
    "album_artist_name", "album_artist_name_lower", "image_path", "created_at",
    "updated_at"] &&
  s.hasColumns "tracks" ["file_path", "file_name", "title", "album_name",
    "album_artist_name", "album_id", "artist_name", "artist_id", "image_path",
    "track_number", "txt_lyrics", "lrc_lyrics", "duration", "instrumental", "title_lower",
    "created_at", "updated_at"]

/-- What holds between the steps of `n` concurrent `AddTrack` calls for tracks
of the artist `a` on a database that held `n0` Track rows: the schema is
there, exactly the holder of the lock is between `Lock` and `Unlock`, at
most one Artist row has the name, none while the holder is about to insert
it and one once a call has got the artist id, no call has returned an
error, and every returned call has added one Track row. -/
structure Shared.Inv (a : String) (n0 n : Nat) (c : Shared) : Prop where
  schema : addTrackSchema c.db = true
  len : c.calls.length = n
  names : ∀ (j : Nat) (g : Goroutine), c.calls[j]? = some g → g.track.ArtistName = a
  lock : ∀ (j : Nat) (g : Goroutine), c.calls[j]? = some g → (g.pc.holdsLock = true ↔ c.mu = some j)
  holder : ∀ j, c.mu = some j → j < c.calls.length
  le : (artistRows a c.db).length ≤ 1
  missing : ∀ (j : Nat) (g : Goroutine), c.calls[j]? = some g → g.pc = .artistMissing → artistRows a c.db = []
  past : ∀ (j : Nat) (g : Goroutine), c.calls[j]? = some g → g.pc.pastArtist = true →
    (artistRows a c.db).length = 1
  noError : ∀ (j : Nat) (g : Goroutine) (e : Option Error), c.calls[j]? = some g → g.pc = .returned e → e = none
  tracks : (c.db.rowsOf "tracks").length =
    n0 + (c.calls.map (fun g => if g.pc.isReturned then 1 else 0)).sum

/-- The steps the calls can still take, summed. -/
def Shared.stepsLeft (c : Shared) : Nat := (c.calls.map (fun g => g.pc.stepsLeft)).sum

/-- The shared connection after the goroutines, one per track, have run
`AddTrack` under the given schedule. -/
def concurrentAddTracks (lower : String → String) (s0 : Store) (tracks : List PersistentTrack)
    (schedule : List (Nat × Nat)) : Shared :=
  Shared.run lower (Shared.begin s0 tracks) schedule

/-- Three tracks of one artist and one album. -/
def threeTracks : List PersistentTrack :=
  [candidate "Test Artist" "Test Album" "Test Song 0",
   candidate "Test Artist" "Test Album" "Test Song 1",
   candidate "Test Artist" "Test Album" "Test Song 2"]

/-- A schedule for three goroutines in which goroutine 1 takes the lock first
while the other two keep trying, then goroutine 2, then goroutine 0. -/
def interleaved : List (Nat × Nat) :=
  [(1, 1), (0, 1), (2, 1), (1, 2), (0, 2), (1, 3), (2, 2), (1, 4), (0, 3), (1, 5), (1, 6),
   (2, 7), (0, 7), (2, 8), (0, 8), (2, 9), (2, 10), (2, 11), (1, 12),
   (0, 13), (0, 14), (0, 15), (2, 15), (0, 16), (0, 17)]

/-! ## The order of the track listings -/

/-- What `AddTrack` keeps true of the rows: Artist rows have pairwise distinct
ids, no Album row carries an artist id, every Track row names an Artist row
by id and carries that row's name, names an Album row by id, and no two Track
rows name the same album. -/
structure ListingInv (s : Store) : Prop where
  artistIds : (s.rowsOf "artists").Pairwise (fun a a1 => a.id ≠ a1.id)
  albumNull : ∀ b ∈ s.rowsOf "albums", b.get "artist_id" = .null
  trackArtist : ∀ r ∈ s.rowsOf "tracks", ∃ a ∈ s.rowsOf "artists",
    r.get "artist_id" = .int a.id ∧ r.get "artist_name" = a.get "name"
  trackAlbum : ∀ r ∈ s.rowsOf "tracks", ∃ b ∈ s.rowsOf "albums",
    r.get "album_id" = .int b.id
  albumIds : (s.rowsOf "tracks").Pairwise (fun r r1 => r.get "album_id" ≠ r1.get "album_id")

/-- An Album row inserted without an artist id gets `NULL` there. -/
def albumsArtistIdNull (s : Store) : Prop :=
  ∀ t, s.tables "albums" = some t → ∀ now, t.defaultOf now "artist_id" = .null

/-- The albums table declares no default for `artist_id`, as in the schema of
`migrateToVersion1`. -/
def albumsArtistIdNoDefault (s : Store) : Bool :=
  match s.tables "albums" with
  | none => true
  | some t =>
    match t.cols.find? (fun k => k.name == "artist_id") with
    | none => true
    | some k => decide (k.dflt = .none)

/-- The cells of a track that the listings are ordered by, as a row. -/
def keyRow (t : PersistentTrack) : Row :=
  ⟨t.ID, fun c =>
    if c = "artist_name" then .text t.ArtistName
    else if c = "album_name" then .text t.AlbumName
    else if c = "track_number" then ofIntPtr t.TrackNumber
    else .null⟩

/-- Whether track `t` comes before or with track `t1` in the order by artist
name, then album name, then track number. -/
def listingLe (t t1 : PersistentTrack) : Bool :=
  orderBy ["artist_name", "album_name", "track_number"] (keyRow t) (keyRow t1)

/-- The two stores declare the same columns in every table. -/
def sameSchema (s s1 : Store) : Prop :=
  ∀ m, (s1.tables m).map (fun t => t.cols) = (s.tables m).map (fun t => t.cols)

/-- Four tracks scanned in no particular order: three of artist "B" on two
albums and one of artist "A". -/
def listedTracks : List PersistentTrack :=
  [{ candidate "B" "Zeta" "z2" with TrackNumber := some 2 },
   { candidate "B" "Zeta" "z1" with TrackNumber := some 1 },
   { candidate "A" "Hits" "h1" with TrackNumber := some 1 },
   { candidate "B" "Alpha" "a1" with TrackNumber := some 1 }]

/-- The fresh store after `AddTrack` of the four tracks. -/
def listedStore : Store := addTracks asciiLower 2 freshStore listedTracks

/-! ## Theorems: migrations -/

/-- C1: a single `Migrate` on a database at version 0 prints and runs only
migration step 1 and leaves the persisted version at 1, which is not
`CurrentDBVersion`: the first branch of `upgradeDatabase` returns. -/
theorem Migrate_blank_runs_only_step_one (now : Nat) :
    (Migrate now blankDatabase).err = none ∧
    (Migrate now blankDatabase).out =
      ["Existing database version: 0", "Migrate database version 1..."] ∧
    (Migrate now blankDatabase).store.user_version = 1 ∧
    (Migrate now blankDatabase).store.user_version ≠ CurrentDBVersion := by
  refine ⟨rfl, rfl, rfl, ?_⟩
  show (1 : Int) ≠ 7
  decide

/-- C2: on a store whose persisted version is at least `CurrentDBVersion`,
`Migrate` returns no error, prints nothing (no migration step runs) and
leaves the whole store, version and tables, as it was. -/
theorem Migrate_up_to_date_noop (now : Nat) (s : Store)
    (h : CurrentDBVersion ≤ s.user_version) :
    (Migrate now s).err = none ∧ (Migrate now s).out = [] ∧ (Migrate now s).store = s := by
  have hlt : ¬ s.user_version < CurrentDBVersion := not_lt.mpr h
  simp [Migrate, hlt]

/-- Witness for C2: a database at version 7. -/
theorem Migrate_up_to_date_noop_witness :
    CurrentDBVersion ≤ currentBlankDatabase.user_version ∧
    (Migrate 0 currentBlankDatabase).err = none ∧
    (Migrate 0 currentBlankDatabase).out = [] ∧
    (Migrate 0 currentBlankDatabase).store = currentBlankDatabase :=
  ⟨by decide, Migrate_up_to_date_noop 0 currentBlankDatabase (by decide)⟩

/-- C3: of four successive `NewConnection` calls on an empty data directory
the first three succeed (versions 1, 2, 3) and the fourth fails in `Migrate`:
`migrateToVersion4` adds `tracks.title_lower`, which the schema of
`migrateToVersion1` already contains. -/
theorem reopen_fourth_time_fails (now : Nat) :
    reopen now 4 none =
      [none, none, none,
       some (.wrap "failed to migrate database"
         (.wrap "failed to add title_lower column" .engine))] := by
  rfl

/-! ## Lemmas on the relational model -/

theorem maxId_ge (m : Int) (rs : List Row) : m ≤ maxId m rs := by
  induction rs generalizing m with
  | nil => simp [maxId]
  | cons r rs ih => exact le_trans (le_max_left m r.id) (ih (max m r.id))

theorem maxId_mem (m : Int) (rs : List Row) (r : Row) (h : r ∈ rs) : r.id ≤ maxId m rs := by
  induction rs generalizing m with
  | nil => cases h
  | cons x rs ih =>
    rcases List.mem_cons.mp h with rfl | h
    · exact le_trans (le_max_right m r.id) (maxId_ge _ rs)
    · exact ih _ h

theorem lt_nextId (rs : List Row) (r : Row) (h : r ∈ rs) : r.id < nextId rs := by
  cases rs with
  | nil => cases h
  | cons x rs =>
    simp only [nextId]
    rcases List.mem_cons.mp h with rfl | h
    · exact Int.lt_add_one_iff.mpr (maxId_ge _ rs)
    · exact Int.lt_add_one_iff.mpr (maxId_mem _ rs r h)

@[simp] theorem tables_setTable_same (s : Store) (n : String) (t : Table) :
    (s.setTable n t).tables n = some t := by
  simp [Store.setTable]

theorem tables_setTable_other (s : Store) (n m : String) (t : Table) (h : m ≠ n) :
    (s.setTable n t).tables m = s.tables m := by
  simp [Store.setTable, h]

@[simp] theorem rowsOf_setTable_same (s : Store) (n : String) (t : Table) :
    (s.setTable n t).rowsOf n = t.rows := by
  simp [Store.rowsOf]

theorem rowsOf_setTable_other (s : Store) (n m : String) (t : Table) (h : m ≠ n) :
    (s.setTable n t).rowsOf m = s.rowsOf m := by
  simp [Store.rowsOf, tables_setTable_other s n m t h]

theorem insertInto_eq_some (s : Store) (table : String) (now : Nat)
    (vals : List (String × Value)) (id : Int) (s1 : Store)
    (h : insertInto s table now vals = some (id, s1)) :
    ∃ t, s.tables table = some t ∧ vals.all (fun p => t.hasCol p.1) = true ∧
      id = nextId t.rows ∧
      s1 = s.setTable table { t with rows := t.rows ++ [insertedRow t now vals] } := by
  unfold insertInto at h
  cases ht : s.tables table with
  | none => simp [ht] at h
  | some t =>
    simp only [ht] at h
    split at h
    · rename_i hc
      simp only [Option.some.injEq, Prod.mk.injEq] at h
      exact ⟨t, rfl, hc, h.1.symm, h.2.symm⟩
    · cases h

theorem insertInto_of_cols (s : Store) (table : String) (now : Nat)
    (vals : List (String × Value)) (t : Table) (ht : s.tables table = some t)
    (hc : vals.all (fun p => t.hasCol p.1) = true) :
    insertInto s table now vals =
      some (nextId t.rows,
        s.setTable table { t with rows := t.rows ++ [insertedRow t now vals] }) := by
  simp [insertInto, ht, hc, insertedRow]

theorem insertInto_eq_none (s : Store) (table : String) (now now1 : Nat)
    (vals vals1 : List (String × Value)) (hv : vals.map Prod.fst = vals1.map Prod.fst)
    (h : insertInto s table now vals = none) : insertInto s table now1 vals1 = none := by
  unfold insertInto at h ⊢
  cases ht : s.tables table with
  | none => rfl
  | some t =>
    simp only [ht] at h ⊢
    have e : vals1.all (fun p => t.hasCol p.1) = vals.all (fun p => t.hasCol p.1) := by
      have e1 : ∀ l : List (String × Value),
          l.all (fun p => t.hasCol p.1) = (l.map Prod.fst).all t.hasCol := by
        intro l
        induction l with
        | nil => rfl
        | cons a l ih => simp [List.all_cons, ih]
      rw [e1, e1, hv]
    rw [e]
    split at h
    · cases h
    · rename_i hc
      simp [hc]

theorem selectWhere_eq_some (s : Store) (table : String) (columns : List String)
    (p : Row → Bool) (l : List Row) (h : selectWhere s table columns p = some l) :
    ∃ t, s.tables table = some t ∧ columns.all t.hasCol = true ∧ l = t.rows.filter p := by
  unfold selectWhere at h
  cases ht : s.tables table with
  | none => simp [ht] at h
  | some t =>
    simp only [ht] at h
    split at h
    · rename_i hc
      exact ⟨t, rfl, hc, (Option.some.inj h).symm⟩
    · cases h

theorem selectWhere_of_cols (s : Store) (table : String) (columns : List String)
    (p : Row → Bool) (t : Table) (ht : s.tables table = some t)
    (hc : columns.all t.hasCol = true) :
    selectWhere s table columns p = some (t.rows.filter p) := by
  simp [selectWhere, ht, hc]

/-! ## Theorems: artists, albums, tracks -/

theorem sqlEq_text_self (n : String) : sqlEq (.text n) (.text n) = true := by
  simp [sqlEq]

theorem sqlEq_eq_true (a b : Value) (h : sqlEq a b = true) : a = b := by
  unfold sqlEq at h
  split at h
  · cases h
  · cases h
  · exact of_decide_eq_true h

theorem insertedRow_get (t : Table) (now : Nat) (vals : List (String × Value)) (c : String)
    (v : Value) (h : vals.lookup c = some v) : (insertedRow t now vals).get c = v := by
  simp [insertedRow, h]

@[simp] theorem insertedRow_id (t : Table) (now : Nat) (vals : List (String × Value)) :
    (insertedRow t now vals).id = nextId t.rows := rfl

/-- C4: two successive `getOrCreateArtist` calls for one name return the same
result (the same id), and the second call leaves the store as the first one
left it: it adds no Artist row. -/
theorem getOrCreateArtist_twice (lower : String → String) (now1 now2 : Nat) (s : Store)
    (n : String) :
    (getOrCreateArtist lower now2 (getOrCreateArtist lower now1 s n).2 n).1 =
      (getOrCreateArtist lower now1 s n).1 ∧
    (getOrCreateArtist lower now2 (getOrCreateArtist lower now1 s n).2 n).2 =
      (getOrCreateArtist lower now1 s n).2 := by
  cases hsel : selectWhere s "artists" ["id", "name"]
      (fun r => sqlEq (r.get "name") (.text n)) with
  | none =>
    have e : ∀ now, getOrCreateArtist lower now s n =
        (.error (.wrap "failed to query artist" .engine), s) := by
      intro now
      simp [getOrCreateArtist, hsel]
    simp [e]
  | some l =>
    cases l with
    | cons r rest =>
      have e : ∀ now, getOrCreateArtist lower now s n = (.ok r.id, s) := by
        intro now
        simp [getOrCreateArtist, hsel]
      simp [e]
    | nil =>
      cases hins : insertInto s "artists" now1
          [("name", .text n), ("name_lower", .text (lower n)),
           ("created_at", .time now1), ("updated_at", .time now1)] with
      | none =>
        have hins2 := insertInto_eq_none s "artists" now1 now2
          [("name", .text n), ("name_lower", .text (lower n)),
           ("created_at", .time now1), ("updated_at", .time now1)]
          [("name", .text n), ("name_lower", .text (lower n)),
           ("created_at", .time now2), ("updated_at", .time now2)] (by rfl) hins
        have e1 : getOrCreateArtist lower now1 s n =
            (.error (.wrap "failed to create artist" .engine), s) := by
          simp [getOrCreateArtist, hsel, hins]
        have e2 : getOrCreateArtist lower now2 s n =
            (.error (.wrap "failed to create artist" .engine), s) := by
          simp [getOrCreateArtist, hsel, hins2]
        simp [e1, e2]
      | some q =>
        obtain ⟨id, s1⟩ := q
        have e1 : getOrCreateArtist lower now1 s n = (.ok id, s1) := by
          simp [getOrCreateArtist, hsel, hins]
        obtain ⟨t, ht, hc, hid, hs1⟩ := insertInto_eq_some _ _ _ _ _ _ hins
        obtain ⟨t0, ht0, hc0, hl⟩ := selectWhere_eq_some _ _ _ _ _ hsel
        rw [ht] at ht0
        cases ht0
        generalize hv : [("name", Value.text n), ("name_lower", Value.text (lower n)),
           ("created_at", Value.time now1), ("updated_at", Value.time now1)] = vals at *
        have hrow : sqlEq ((insertedRow t now1 vals).get "name") (.text n) = true := by
          rw [insertedRow_get t now1 vals "name" (.text n) (by rw [← hv]; rfl)]
          exact sqlEq_text_self n
        have hsel1 : selectWhere s1 "artists" ["id", "name"]
            (fun r => sqlEq (r.get "name") (.text n)) = some [insertedRow t now1 vals] := by
          rw [selectWhere_of_cols s1 "artists" _ _
            { t with rows := t.rows ++ [insertedRow t now1 vals] } (by rw [hs1]; simp) hc0]
          simp [List.filter_append, ← hl, List.filter_cons, hrow]
        have e2 : getOrCreateArtist lower now2 s1 n = (.ok id, s1) := by
          simp [getOrCreateArtist, hsel1, hid]
        simp [e1, e2]

/-- C5: on a fresh store with artist 1, two successive `getOrCreateAlbum` calls
for ("Album Y", artist 1) return the ids 1 and 2 and leave two Album rows: the
row the first call inserts has no `artist_id`, so the lookup by (name,
artist id) of the second call does not find it. -/
theorem getOrCreateAlbum_twice_two_rows :
    (getOrCreateArtist asciiLower 1 freshStore "Artist X").1 = .ok 1 ∧
    (getOrCreateAlbum asciiLower 2 artistXStore "Album Y" none none 1).1 = .ok 1 ∧
    (getOrCreateAlbum asciiLower 3
      (getOrCreateAlbum asciiLower 2 artistXStore "Album Y" none none 1).2
      "Album Y" none none 1).1 = .ok 2 ∧
    ((getOrCreateAlbum asciiLower 3
      (getOrCreateAlbum asciiLower 2 artistXStore "Album Y" none none 1).2
      "Album Y" none none 1).2.rowsOf "albums").map (fun r => (r.id, r.get "artist_id")) =
      [(1, .null), (2, .null)] := by
  refine ⟨rfl, rfl, rfl, ?_⟩
  decide

/-- C6: the end-to-end scenario leaves 3 Track rows and 2 Artist rows, sets
the initialized flag, and leaves 3 Album rows named "Album Y" (one per track,
not one per artist). -/
theorem scenario_three_albums :
    (scenarioStore.rowsOf "tracks").length = 3 ∧
    (scenarioStore.rowsOf "artists").length = 2 ∧
    GetInit scenarioStore = .ok true ∧
    (scenarioStore.rowsOf "albums").map (fun r => r.get "name") =
      [.text "Album Y", .text "Album Y", .text "Album Y"] ∧
    (scenarioStore.rowsOf "tracks").map (fun r => (r.get "artist_id", r.get "album_id")) =
      [(.int 1, .int 1), (.int 1, .int 2), (.int 2, .int 3)] := by
  refine ⟨by decide, by decide, rfl, by decide, by decide⟩

theorem rowsOf_eq_of_tables (s s1 : Store) (m : String) (h : s1.tables m = s.tables m) :
    s1.rowsOf m = s.rowsOf m := by
  simp [Store.rowsOf, h]

theorem rowsOf_of_tables (s : Store) (m : String) (t : Table) (h : s.tables m = some t) :
    s.rowsOf m = t.rows := by
  simp [Store.rowsOf, h]

/-- What `getOrCreateArtist` does to the store: it appends at most one Artist
row, which carries the name and its lower-cased shadow, touches no other
table, and a returned id is the id of an Artist row. -/
theorem getOrCreateArtist_effect (lower : String → String) (now : Nat) (s : Store)
    (n : String) :
    ∃ new : List Row,
      (getOrCreateArtist lower now s n).2.rowsOf "artists" = s.rowsOf "artists" ++ new ∧
      (∀ m, m ≠ "artists" → (getOrCreateArtist lower now s n).2.tables m = s.tables m) ∧
      (∀ a ∈ new, a.get "name" = .text n ∧ a.get "name_lower" = .text (lower n)) ∧
      (∀ id, (getOrCreateArtist lower now s n).1 = .ok id →
        ∃ a ∈ (getOrCreateArtist lower now s n).2.rowsOf "artists", a.id = id) := by
  cases hsel : selectWhere s "artists" ["id", "name"]
      (fun r => sqlEq (r.get "name") (.text n)) with
  | none =>
    have e : getOrCreateArtist lower now s n =
        (.error (.wrap "failed to query artist" .engine), s) := by
      simp [getOrCreateArtist, hsel]
    refine ⟨[], ?_, ?_, ?_, ?_⟩ <;> simp [e]
  | some l =>
    obtain ⟨t, ht, hc, hl⟩ := selectWhere_eq_some _ _ _ _ _ hsel
    cases l with
    | cons r rest =>
      have e : getOrCreateArtist lower now s n = (.ok r.id, s) := by
        simp [getOrCreateArtist, hsel]
      have hr : r ∈ t.rows := by
        have : r ∈ List.filter (fun r => sqlEq (r.get "name") (.text n)) t.rows := by
          rw [← hl]; exact List.mem_cons_self _ _
        exact (List.mem_filter.mp this).1
      refine ⟨[], ?_, ?_, ?_, ?_⟩
      · simp [e]
      · simp [e]
      · simp
      · intro id hid
        rw [e] at hid ⊢
        simp only [Except.ok.injEq] at hid
        exact ⟨r, by rw [rowsOf_of_tables s _ t ht]; exact hr, hid⟩
    | nil =>
      cases hins : insertInto s "artists" now
          [("name", .text n), ("name_lower", .text (lower n)),
           ("created_at", .time now), ("updated_at", .time now)] with
      | none =>
        have e : getOrCreateArtist lower now s n =
            (.error (.wrap "failed to create artist" .engine), s) := by
          simp [getOrCreateArtist, hsel, hins]
        refine ⟨[], ?_, ?_, ?_, ?_⟩ <;> simp [e]
      | some q =>
        obtain ⟨id, s1⟩ := q
        have e : getOrCreateArtist lower now s n = (.ok id, s1) := by
          simp [getOrCreateArtist, hsel, hins]
        obtain ⟨t1, ht1, -, hid, hs1⟩ := insertInto_eq_some _ _ _ _ _ _ hins
        rw [ht] at ht1
        cases ht1
        generalize hv : [("name", Value.text n), ("name_lower", Value.text (lower n)),
           ("created_at", Value.time now), ("updated_at", Value.time now)] = vals at *
        have hrows : s1.rowsOf "artists" = s.rowsOf "artists" ++ [insertedRow t now vals] := by
          rw [hs1, rowsOf_setTable_same, rowsOf_of_tables s _ t ht]
        refine ⟨[insertedRow t now vals], ?_, ?_, ?_, ?_⟩
        · rw [e]; exact hrows
        · intro m hm
          rw [e, hs1]
          exact tables_setTable_other s _ m _ hm
        · intro a ha
          rw [List.mem_singleton] at ha
          subst ha
          exact ⟨insertedRow_get t now vals _ _ (by rw [← hv]; rfl),
                 insertedRow_get t now vals _ _ (by rw [← hv]; rfl)⟩
        · intro id1 hid1
          rw [e] at hid1 ⊢
          simp only [Except.ok.injEq] at hid1
          refine ⟨insertedRow t now vals, ?_, ?_⟩
          · show insertedRow t now vals ∈ s1.rowsOf "artists"
            rw [hrows]; simp
          · rw [insertedRow_id, ← hid, hid1]

/-- What `getOrCreateAlbum` does to the store: it appends at most one Album
row, with the name, the album artist and their lower-cased shadows and the
empty string as `artist_name`; it touches no other table, and a returned id is
the id of an Album row. -/
theorem getOrCreateAlbum_effect (lower : String → String) (now : Nat) (s : Store)
    (n : String) (aan ip : Option String) (a : Int) (res : Except Error Int) (s1 : Store)
    (h : getOrCreateAlbum lower now s n aan ip a = (res, s1)) :
    ∃ new : List Row,
      s1.rowsOf "albums" = s.rowsOf "albums" ++ new ∧
      (∀ m, m ≠ "albums" → s1.tables m = s.tables m) ∧
      (∀ b ∈ new, b.get "name" = .text n ∧ b.get "name_lower" = .text (lower n) ∧
        b.get "album_artist_name" = ofStringPtr aan ∧
        b.get "album_artist_name_lower" = ofStringPtr (aan.map lower) ∧
        b.get "artist_name" = .text "") ∧
      (∀ id, res = .ok id → ∃ b ∈ s1.rowsOf "albums", b.id = id) := by
  unfold getOrCreateAlbum at h
  split at h
  · simp only [Prod.mk.injEq] at h
    obtain ⟨h1, h2⟩ := h
    subst h1 h2
    exact ⟨[], by simp, by simp, by simp, by simp⟩
  · rename_i r rest hsel
    simp only [Prod.mk.injEq] at h
    obtain ⟨h1, h2⟩ := h
    subst h1 h2
    obtain ⟨t, ht, hc, hl⟩ := selectWhere_eq_some _ _ _ _ _ hsel
    have hr : r ∈ t.rows := by
      have : r ∈ List.filter (fun r => sqlEq (r.get "name") (.text n) &&
          sqlEq (r.get "artist_id") (.int a)) t.rows := by
        rw [← hl]; exact List.mem_cons_self _ _
      exact (List.mem_filter.mp this).1
    refine ⟨[], by simp, by simp, by simp, ?_⟩
    intro id hid
    simp only [Except.ok.injEq] at hid
    exact ⟨r, by rw [rowsOf_of_tables s _ t ht]; exact hr, hid⟩
  · rename_i hsel
    dsimp only at h
    split at h
    · simp only [Prod.mk.injEq] at h
      obtain ⟨h1, h2⟩ := h
      subst h1 h2
      exact ⟨[], by simp, by simp, by simp, by simp⟩
    · rename_i id s2 hins
      simp only [Prod.mk.injEq] at h
      obtain ⟨h1, h2⟩ := h
      subst h1 h2
      obtain ⟨t, ht, -, hid, hs1⟩ := insertInto_eq_some _ _ _ _ _ _ hins
      replace hs1 : s2 = s.setTable "albums" { t with rows := t.rows ++ [insertedRow t now
          [("name", Value.text n), ("name_lower", Value.text (lower n)),
           ("artist_name", Value.text ""), ("album_artist_name", ofStringPtr aan),
           ("album_artist_name_lower", ofStringPtr (aan.map lower)),
           ("image_path", ofStringPtr ip),
           ("created_at", Value.time now), ("updated_at", Value.time now)]] } := by
        rw [hs1]; cases aan <;> rfl
      clear hins
      generalize hv : [("name", Value.text n), ("name_lower", Value.text (lower n)),
        ("artist_name", Value.text ""), ("album_artist_name", ofStringPtr aan),
        ("album_artist_name_lower", ofStringPtr (aan.map lower)),
        ("image_path", ofStringPtr ip),
        ("created_at", Value.time now), ("updated_at", Value.time now)] = vals at *
      have hrows : s2.rowsOf "albums" = s.rowsOf "albums" ++ [insertedRow t now vals] := by
        rw [hs1, rowsOf_setTable_same, rowsOf_of_tables s _ t ht]
      refine ⟨[insertedRow t now vals], hrows, ?_, ?_, ?_⟩
      · intro m hm
        rw [hs1]
        exact tables_setTable_other s _ m _ hm
      · intro b hb
        rw [List.mem_singleton] at hb
        subst hb
        exact ⟨insertedRow_get t now vals _ _ (by rw [← hv]; rfl),
               insertedRow_get t now vals _ _ (by rw [← hv]; rfl),
               insertedRow_get t now vals _ _ (by rw [← hv]; rfl),
               insertedRow_get t now vals _ _ (by rw [← hv]; rfl),
               insertedRow_get t now vals _ _ (by rw [← hv]; rfl)⟩
      · intro id1 hid1
        simp only [Except.ok.injEq] at hid1
        refine ⟨insertedRow t now vals, ?_, ?_⟩
        · rw [hrows]; simp
        · rw [insertedRow_id, ← hid, hid1]

/-- What `AddTrack` does to the store, whether or not it returns an error: it
appends rows to the three tables; new Artist, Album and Track rows have their
shadow columns in sync, and a new Track row refers to rows that exist. -/
theorem AddTrack_effect (lower : String → String) (now : Nat) (s : Store)
    (track : PersistentTrack) :
    ∃ newA newB newT : List Row,
      (AddTrack lower now s track).2.rowsOf "artists" = s.rowsOf "artists" ++ newA ∧
      (AddTrack lower now s track).2.rowsOf "albums" = s.rowsOf "albums" ++ newB ∧
      (AddTrack lower now s track).2.rowsOf "tracks" = s.rowsOf "tracks" ++ newT ∧
      (∀ a ∈ newA, ArtistInSync lower a) ∧
      (∀ b ∈ newB, AlbumInSync lower b) ∧
      (∀ r ∈ newT, TrackInSync lower r ∧
        (∃ a ∈ (AddTrack lower now s track).2.rowsOf "artists", r.get "artist_id" = .int a.id) ∧
        (∃ b ∈ (AddTrack lower now s track).2.rowsOf "albums", r.get "album_id" = .int b.id)) := by
  obtain ⟨newA, hA1, hA2, hA3, hA4⟩ := getOrCreateArtist_effect lower now s track.ArtistName
  have hA3' : ∀ a ∈ newA, ArtistInSync lower a := fun a ha => ⟨_, hA3 a ha⟩
  unfold AddTrack
  cases hgA : getOrCreateArtist lower now s track.ArtistName with
  | mk rA s1 =>
    rw [hgA] at hA1 hA2 hA4
    simp only at hA1 hA2 hA4
    cases rA with
    | error e =>
      refine ⟨newA, [], [], hA1, ?_, ?_, hA3', by simp, by simp⟩
      · simp [rowsOf_eq_of_tables s s1 "albums" (hA2 _ (by decide))]
      · simp [rowsOf_eq_of_tables s s1 "tracks" (hA2 _ (by decide))]
    | ok artistID =>
      obtain ⟨ar, har, harid⟩ := hA4 artistID rfl
      dsimp only
      cases hgB : getOrCreateAlbum lower now s1 track.AlbumName track.AlbumArtistName
          track.ImagePath artistID with
      | mk rB s2 =>
        obtain ⟨newB, hB1, hB2, hB3, hB4⟩ := getOrCreateAlbum_effect _ _ _ _ _ _ _ _ _ hgB
        have hB3' : ∀ b ∈ newB, AlbumInSync lower b :=
          fun b hb => ⟨⟨_, (hB3 b hb).1, (hB3 b hb).2.1⟩, ⟨_, (hB3 b hb).2.2.1, (hB3 b hb).2.2.2.1⟩⟩
        have hart2 : s2.rowsOf "artists" = s.rowsOf "artists" ++ newA := by
          rw [rowsOf_eq_of_tables s1 s2 "artists" (hB2 _ (by decide)), hA1]
        have halb2 : s2.rowsOf "albums" = s.rowsOf "albums" ++ newB := by
          rw [hB1, rowsOf_eq_of_tables s s1 "albums" (hA2 _ (by decide))]
        have htr2 : s2.rowsOf "tracks" = s.rowsOf "tracks" := by
          rw [rowsOf_eq_of_tables s1 s2 "tracks" (hB2 _ (by decide)),
            rowsOf_eq_of_tables s s1 "tracks" (hA2 _ (by decide))]
        cases rB with
        | error e =>
          exact ⟨newA, newB, [], hart2, halb2, by simp [htr2], hA3', hB3', by simp⟩
        | ok albumID =>
          obtain ⟨al, hal, halid⟩ := hB4 albumID rfl
          dsimp only
          split
          · exact ⟨newA, newB, [], hart2, halb2, by simp [htr2], hA3', hB3', by simp⟩
          · rename_i trackID s3 hins
            obtain ⟨t, ht, -, hid, hs3⟩ := insertInto_eq_some _ _ _ _ _ _ hins
            clear hins
            generalize hv : [("file_path", Value.text track.FilePath),
              ("file_name", Value.text track.FileName),
              ("title", Value.text track.Title), ("album_name", Value.text track.AlbumName),
              ("album_artist_name", ofStringPtr track.AlbumArtistName),
              ("album_id", Value.int albumID), ("artist_name", Value.text track.ArtistName),
              ("artist_id", Value.int artistID), ("image_path", ofStringPtr track.ImagePath),
              ("track_number", ofIntPtr track.TrackNumber),
              ("txt_lyrics", ofStringPtr track.TxtLyrics),
              ("lrc_lyrics", ofStringPtr track.LrcLyrics),
              ("duration", ofFloat64 track.Duration),
              ("instrumental", ofBool track.Instrumental),
              ("title_lower", Value.text (lower track.Title)),
              ("created_at", Value.time now), ("updated_at", Value.time now)] = vals at *
            have hart3 : s3.rowsOf "artists" = s2.rowsOf "artists" := by
              rw [hs3]; exact rowsOf_setTable_other s2 _ _ _ (by decide)
            have halb3 : s3.rowsOf "albums" = s2.rowsOf "albums" := by
              rw [hs3]; exact rowsOf_setTable_other s2 _ _ _ (by decide)
            have htr3 : s3.rowsOf "tracks" = s2.rowsOf "tracks" ++ [insertedRow t now vals] := by
              rw [hs3, rowsOf_setTable_same, rowsOf_of_tables s2 _ t ht]
            refine ⟨newA, newB, [insertedRow t now vals], by rw [hart3, hart2],
              by rw [halb3, halb2], by rw [htr3, htr2], hA3', hB3', ?_⟩
            intro r hr
            rw [List.mem_singleton] at hr
            subst hr
            refine ⟨⟨track.Title, insertedRow_get t now vals _ _ (by rw [← hv]; rfl),
              insertedRow_get t now vals _ _ (by rw [← hv]; rfl)⟩, ?_, ?_⟩
            · refine ⟨ar, ?_, ?_⟩
              · show ar ∈ s3.rowsOf "artists"
                rw [hart3, rowsOf_eq_of_tables s1 s2 "artists" (hB2 _ (by decide))]
                exact har
              · rw [insertedRow_get t now vals "artist_id" (.int artistID) (by rw [← hv]; rfl),
                  harid]
            · refine ⟨al, ?_, ?_⟩
              · show al ∈ s3.rowsOf "albums"
                rw [halb3]
                exact hal
              · rw [insertedRow_get t now vals "album_id" (.int albumID) (by rw [← hv]; rfl),
                  halid]

theorem hasColumns_eq_true (s : Store) (table : String) (columns : List String)
    (h : s.hasColumns table columns = true) :
    ∃ t, s.tables table = some t ∧ columns.all t.hasCol = true := by
  unfold Store.hasColumns at h
  cases ht : s.tables table with
  | none => simp [ht] at h
  | some t =>
    simp only [ht] at h
    exact ⟨t, rfl, h⟩

/-- When no Artist row has the name, `getOrCreateArtist` appends the row
`insertedRow` builds and returns its id. -/
theorem getOrCreateArtist_create (lower : String → String) (now : Nat) (s : Store)
    (n : String) (t : Table) (ht : s.tables "artists" = some t)
    (hc : ["id", "name", "name_lower", "created_at", "updated_at"].all t.hasCol = true)
    (hno : ∀ r ∈ t.rows, r.get "name" ≠ .text n) :
    getOrCreateArtist lower now s n =
      (.ok (nextId t.rows),
       s.setTable "artists" { t with rows := t.rows ++ [insertedRow t now
         [("name", .text n), ("name_lower", .text (lower n)),
          ("created_at", .time now), ("updated_at", .time now)]] }) := by
  simp only [List.all_cons, List.all_nil, Bool.and_true, Bool.and_eq_true] at hc
  obtain ⟨c1, c2, c3, c4, c5⟩ := hc
  have hf : t.rows.filter (fun r => sqlEq (r.get "name") (.text n)) = [] := by
    rw [List.filter_eq_nil_iff]
    intro r hr hq
    exact hno r hr (sqlEq_eq_true _ _ hq)
  have hsel := selectWhere_of_cols s "artists" ["id", "name"]
    (fun r => sqlEq (r.get "name") (.text n)) t ht (by simp [c1, c2])
  rw [hf] at hsel
  have hins := insertInto_of_cols s "artists" now
    [("name", .text n), ("name_lower", .text (lower n)),
     ("created_at", .time now), ("updated_at", .time now)] t ht (by simp [c2, c3, c4, c5])
  simp only [getOrCreateArtist, hsel, hins]

/-- C7: on a store whose artists table has its columns and holds no artist
named `n1` or `n2`, where `n1` and `n2` differ but have the same lower-cased
form, `getOrCreateArtist n1` and then `getOrCreateArtist n2` both succeed,
return two different ids, and append two Artist rows that carry the two names
and the same `name_lower`, equal to `lower n1`. -/
theorem getOrCreateArtist_case_variants (lower : String → String) (now1 now2 : Nat)
    (s : Store) (n1 n2 : String)
    (hcols : s.hasColumns "artists"
      ["id", "name", "name_lower", "created_at", "updated_at"] = true)
    (hne : n1 ≠ n2) (hl : lower n1 = lower n2)
    (h1 : ∀ r ∈ s.rowsOf "artists", r.get "name" ≠ .text n1)
    (h2 : ∀ r ∈ s.rowsOf "artists", r.get "name" ≠ .text n2) :
    ∃ id1 id2 s1 s2 r1 r2,
      getOrCreateArtist lower now1 s n1 = (.ok id1, s1) ∧
      getOrCreateArtist lower now2 s1 n2 = (.ok id2, s2) ∧
      id1 ≠ id2 ∧
      s2.rowsOf "artists" = s.rowsOf "artists" ++ [r1, r2] ∧
      r1.id = id1 ∧ r1.get "name" = .text n1 ∧ r1.get "name_lower" = .text (lower n1) ∧
      r2.id = id2 ∧ r2.get "name" = .text n2 ∧ r2.get "name_lower" = .text (lower n1) := by
  obtain ⟨t, ht, hc⟩ := hasColumns_eq_true _ _ _ hcols
  rw [rowsOf_of_tables s _ t ht] at h1 h2
  generalize hv1 : [("name", Value.text n1), ("name_lower", Value.text (lower n1)),
    ("created_at", Value.time now1), ("updated_at", Value.time now1)] = vals1
  generalize hv2 : [("name", Value.text n2), ("name_lower", Value.text (lower n2)),
    ("created_at", Value.time now2), ("updated_at", Value.time now2)] = vals2
  have e1 := getOrCreateArtist_create lower now1 s n1 t ht hc h1
  rw [hv1] at e1
  have hr1n : (insertedRow t now1 vals1).get "name" = .text n1 :=
    insertedRow_get t now1 vals1 _ _ (by rw [← hv1]; rfl)
  have hno2 : ∀ r ∈ t.rows ++ [insertedRow t now1 vals1], r.get "name" ≠ .text n2 := by
    intro r hr
    rcases List.mem_append.mp hr with hr | hr
    · exact h2 r hr
    · rw [List.mem_singleton] at hr
      subst hr
      rw [hr1n]
      intro hq
      exact hne (Value.text.inj hq)
  have e2 := getOrCreateArtist_create lower now2
    (s.setTable "artists" { t with rows := t.rows ++ [insertedRow t now1 vals1] }) n2
    { t with rows := t.rows ++ [insertedRow t now1 vals1] } (by simp) hc hno2
  rw [hv2] at e2
  refine ⟨_, _, _, _, insertedRow t now1 vals1,
    insertedRow { t with rows := t.rows ++ [insertedRow t now1 vals1] } now2 vals2,
    e1, e2, ?_, ?_, rfl, hr1n, ?_, rfl, ?_, ?_⟩
  · have hlt : (insertedRow t now1 vals1).id <
        nextId (t.rows ++ [insertedRow t now1 vals1]) :=
      lt_nextId _ _ (by simp)
    rw [insertedRow_id] at hlt
    exact ne_of_lt hlt
  · simp [Store.setTable, Store.rowsOf, ht]
  · exact insertedRow_get t now1 vals1 _ _ (by rw [← hv1]; rfl)
  · exact insertedRow_get _ now2 vals2 _ _ (by rw [← hv2]; rfl)
  · rw [hl]
    exact insertedRow_get _ now2 vals2 _ _ (by rw [← hv2]; rfl)

/-- Witness for C7: "A" and "a" on the fresh store. -/
theorem getOrCreateArtist_case_variants_witness :
    ∃ id1 id2 s1 s2 r1 r2,
      getOrCreateArtist asciiLower 1 freshStore "A" = (.ok id1, s1) ∧
      getOrCreateArtist asciiLower 2 s1 "a" = (.ok id2, s2) ∧
      id1 ≠ id2 ∧
      s2.rowsOf "artists" = freshStore.rowsOf "artists" ++ [r1, r2] ∧
      r1.id = id1 ∧ r1.get "name" = .text "A" ∧ r1.get "name_lower" = .text (asciiLower "A") ∧
      r2.id = id2 ∧ r2.get "name" = .text "a" ∧ r2.get "name_lower" = .text (asciiLower "A") :=
  getOrCreateArtist_case_variants asciiLower 1 2 freshStore "A" "a" (by decide) (by decide)
    (by decide) (by intro r hr; cases hr) (by intro r hr; cases hr)

/-- C8: in every store reachable from an empty store by `AddTrack` calls,
every Track row's `artist_id` is the id of an existing Artist row and its
`album_id` is the id of an existing Album row. -/
theorem reachable_referential_integrity (lower : String → String) (s : Store)
    (h : Reachable lower s) : RefIntegrity s := by
  induction h with
  | empty s h =>
    intro r hr
    rw [h.1] at hr
    cases hr
  | addTrack s now track _ ih =>
    obtain ⟨newA, newB, newT, hA, hB, hT, -, -, hnew⟩ := AddTrack_effect lower now s track
    intro r hr
    rw [hT] at hr
    rcases List.mem_append.mp hr with hr | hr
    · obtain ⟨⟨a, ha, hae⟩, ⟨b, hb, hbe⟩⟩ := ih r hr
      refine ⟨⟨a, ?_, hae⟩, ⟨b, ?_, hbe⟩⟩
      · rw [hA]; exact List.mem_append_left _ ha
      · rw [hB]; exact List.mem_append_left _ hb
    · exact (hnew r hr).2

/-- Witness for C8: the fresh store after one `AddTrack`, which holds a track. -/
theorem reachable_referential_integrity_witness :
    Reachable asciiLower
      (AddTrack asciiLower 1 freshStore (candidate "Artist X" "Album Y" "one")).2 ∧
    ((AddTrack asciiLower 1 freshStore (candidate "Artist X" "Album Y" "one")).2.rowsOf
      "tracks").length = 1 ∧
    RefIntegrity (AddTrack asciiLower 1 freshStore (candidate "Artist X" "Album Y" "one")).2 :=
  ⟨.addTrack _ _ _ (.empty _ ⟨rfl, rfl, rfl⟩), by decide,
   reachable_referential_integrity asciiLower _ (.addTrack _ _ _ (.empty _ ⟨rfl, rfl, rfl⟩))⟩

/-- C9: in every store reachable from an empty store by `AddTrack` calls,
every Track row has `title_lower = lower title` (the `TitleLower` of the
track passed in is not used), every Artist row has `name_lower = lower name`,
and every Album row has `name_lower = lower name` and
`album_artist_name_lower = lower album_artist_name`, `NULL` exactly when
`album_artist_name` is `NULL`. -/
theorem reachable_shadow_columns_in_sync (lower : String → String) (s : Store)
    (h : Reachable lower s) :
    (∀ r ∈ s.rowsOf "tracks", TrackInSync lower r) ∧
    (∀ a ∈ s.rowsOf "artists", ArtistInSync lower a) ∧
    (∀ b ∈ s.rowsOf "albums", AlbumInSync lower b) := by
  induction h with
  | empty s h =>
    obtain ⟨h1, h2, h3⟩ := h
    refine ⟨?_, ?_, ?_⟩ <;> intro r hr
    · rw [h1] at hr; cases hr
    · rw [h3] at hr; cases hr
    · rw [h2] at hr; cases hr
  | addTrack s now track _ ih =>
    obtain ⟨newA, newB, newT, hA, hB, hT, hnA, hnB, hnT⟩ := AddTrack_effect lower now s track
    obtain ⟨ihT, ihA, ihB⟩ := ih
    refine ⟨?_, ?_, ?_⟩ <;> intro r hr
    · rw [hT] at hr
      rcases List.mem_append.mp hr with hr | hr
      · exact ihT r hr
      · exact (hnT r hr).1
    · rw [hA] at hr
      rcases List.mem_append.mp hr with hr | hr
      · exact ihA r hr
      · exact hnA r hr
    · rw [hB] at hr
      rcases List.mem_append.mp hr with hr | hr
      · exact ihB r hr
      · exact hnB r hr

/-- Witness for C9: the end-to-end scenario after its three `AddTrack` calls. -/
theorem reachable_shadow_columns_in_sync_witness :
    Reachable asciiLower (addTracks asciiLower 2 freshStore scenarioTracks) ∧
    ((∀ r ∈ (addTracks asciiLower 2 freshStore scenarioTracks).rowsOf "tracks",
        TrackInSync asciiLower r) ∧
     (∀ a ∈ (addTracks asciiLower 2 freshStore scenarioTracks).rowsOf "artists",
        ArtistInSync asciiLower a) ∧
     (∀ b ∈ (addTracks asciiLower 2 freshStore scenarioTracks).rowsOf "albums",
        AlbumInSync asciiLower b)) :=
  ⟨.addTrack _ _ _ (.addTrack _ _ _ (.addTrack _ _ _ (.empty _ ⟨rfl, rfl, rfl⟩))),
   reachable_shadow_columns_in_sync asciiLower _
     (.addTrack _ _ _ (.addTrack _ _ _ (.addTrack _ _ _ (.empty _ ⟨rfl, rfl, rfl⟩))))⟩

/-! ## Theorems: directories -/

theorem lexLe_total : ∀ a b : List Char, lexLe a b = true ∨ lexLe b a = true
  | [], _ => by simp [lexLe]
  | _ :: _, [] => by simp [lexLe]
  | a :: as, b :: bs => by
    have ih := lexLe_total as bs
    simp only [lexLe]
    by_cases h1 : a.toNat < b.toNat
    · simp [h1]
    · by_cases h2 : b.toNat < a.toNat
      · simp [h2]
      · simpa [h1, h2] using ih

theorem lexLe_trans : ∀ a b c : List Char, lexLe a b = true → lexLe b c = true →
    lexLe a c = true
  | [], _, _ => by simp [lexLe]
  | _ :: _, [], _ => by simp [lexLe]
  | _ :: _, _ :: _, [] => by simp [lexLe]
  | a :: as, b :: bs, c :: cs => by
    have ih := lexLe_trans as bs cs
    simp only [lexLe]
    intro hab hbc
    by_cases h1 : a.toNat < b.toNat
    · by_cases h3 : b.toNat < c.toNat
      · have : a.toNat < c.toNat := by omega
        simp [this]
      · by_cases h4 : c.toNat < b.toNat
        · simp [h3, h4] at hbc
        · have : a.toNat < c.toNat := by omega
          simp [this]
    · by_cases h2 : b.toNat < a.toNat
      · simp [h1, h2] at hab
      · simp only [h1, h2, if_false] at hab
        by_cases h3 : b.toNat < c.toNat
        · have : a.toNat < c.toNat := by omega
          simp [this]
        · by_cases h4 : c.toNat < b.toNat
          · simp [h3, h4] at hbc
          · simp only [h3, h4, if_false] at hbc
            have e1 : ¬ a.toNat < c.toNat := by omega
            have e2 : ¬ c.toNat < a.toNat := by omega
            simp only [e1, e2, if_false]
            exact ih hab hbc

theorem setTable_setTable (s : Store) (n : String) (t1 t2 : Table) :
    (s.setTable n t1).setTable n t2 = s.setTable n t2 := by
  simp only [Store.setTable]
  congr 1
  funext m
  by_cases h : m = n <;> simp [h]

theorem setTable_self (s : Store) (n : String) (t : Table) (h : s.tables n = some t) :
    s.setTable n t = s := by
  cases s with
  | mk v w tb ix =>
    simp only [Store.setTable, Store.mk.injEq, true_and, and_true]
    funext m
    by_cases hm : m = n
    · subst hm
      simp only [if_true]
      exact h.symm
    · simp [hm]

theorem insertDirectories_spec (now : Nat) (b : List String) :
    ∀ (s : Store) (t : Table), s.tables "directories" = some t →
      ["path", "created_at", "updated_at"].all t.hasCol = true →
      ∃ rows, insertDirectories now s b =
          .ok (s.setTable "directories" { t with rows := t.rows ++ rows }) ∧
        rows.map (fun r => r.get "path") = b.map Value.text := by
  induction b with
  | nil =>
    intro s t ht _
    refine ⟨[], ?_, rfl⟩
    simp [insertDirectories, setTable_self s _ t ht]
  | cons p rest ih =>
    intro s t ht hc
    have hc1 : [("path", Value.text p), ("created_at", Value.time now),
        ("updated_at", Value.time now)].all (fun q => t.hasCol q.1) = true := by
      simpa using hc
    have hins := insertInto_of_cols s "directories" now _ t ht hc1
    generalize hv : [("path", Value.text p), ("created_at", Value.time now),
        ("updated_at", Value.time now)] = vals at hins
    obtain ⟨rows, hrows, hmap⟩ := ih
      (s.setTable "directories" { t with rows := t.rows ++ [insertedRow t now vals] })
      { t with rows := t.rows ++ [insertedRow t now vals] } (by simp) hc
    refine ⟨insertedRow t now vals :: rows, ?_, ?_⟩
    · simp only [insertDirectories, hv, hins, hrows, setTable_setTable, List.append_assoc,
        List.singleton_append]
    · simp only [List.map_cons, hmap]
      rw [insertedRow_get t now vals "path" (.text p) (by rw [← hv]; rfl)]

theorem SetDirectories_spec (now : Nat) (s : Store) (b : List String) (t : Table)
    (ht : s.tables "directories" = some t)
    (hc : ["path", "created_at", "updated_at"].all t.hasCol = true) :
    ∃ rows, SetDirectories now s b = (none, s.setTable "directories" ⟨t.cols, rows⟩) ∧
      rows.map (fun r => r.get "path") = b.map Value.text := by
  obtain ⟨rows, hrows, hmap⟩ := insertDirectories_spec now b
    (s.setTable "directories" { t with rows := [] }) { t with rows := [] } (by simp) hc
  refine ⟨rows, ?_, hmap⟩
  simp [SetDirectories, transaction, exec, deleteAll, ht, bind, Except.bind, hrows,
    setTable_setTable]

theorem scanPaths_of_text : ∀ rows : List Row,
    (∀ r ∈ rows, ∃ p, r.get "path" = Value.text p) →
    scanPaths rows = .ok (rows.map pathText)
  | [], _ => rfl
  | r :: rs, h => by
    obtain ⟨p, hp⟩ := h r (List.mem_cons_self _ _)
    have ih := scanPaths_of_text rs (fun x hx => h x (List.mem_cons_of_mem _ hx))
    simp [scanPaths, scanString, hp, ih, pathText]

theorem GetDirectories_spec (s : Store) (b : List String) (cols : List Column)
    (rows : List Row) (ht : s.tables "directories" = some ⟨cols, rows⟩)
    (hc : (Table.mk cols rows).hasCol "path" = true)
    (hmap : rows.map (fun r => r.get "path") = b.map Value.text) :
    GetDirectories s = .ok (b.insertionSort (fun x y => strLe x y = true)) := by
  have htext : ∀ r ∈ rows, ∃ p, r.get "path" = Value.text p := by
    intro r hr
    have : r.get "path" ∈ b.map Value.text := by
      rw [← hmap]; exact List.mem_map_of_mem (fun r => r.get "path") hr
    obtain ⟨p, -, hp⟩ := List.mem_map.mp this
    exact ⟨p, hp.symm⟩
  have hb : rows.map pathText = b := by
    have e : rows.map pathText = (rows.map (fun r => r.get "path")).map
        (fun v => match v with
          | .text p => p
          | _ => "") := by
      rw [List.map_map]; rfl
    rw [e, hmap, List.map_map]
    exact List.map_id _
  have hsel := selectWhere_of_cols s "directories" ["path"] (fun _ => true) _ ht
    (by simpa using hc)
  have hsort : (rows.insertionSort
      (fun a b => Value.le (a.get "path") (b.get "path") = true)).map pathText =
      (rows.map pathText).insertionSort (fun x y => strLe x y = true) := by
    apply List.map_insertionSort
    intro x hx y hy
    obtain ⟨px, hpx⟩ := htext x hx
    obtain ⟨py, hpy⟩ := htext y hy
    simp [hpx, hpy, pathText, Value.le]
  unfold GetDirectories
  rw [hsel]
  simp only [List.filter_true]
  rw [scanPaths_of_text _ (fun r hr => htext r ((List.mem_insertionSort _).mp hr)), hsort, hb]

/-- C10: on a store whose directories table has its columns,
`SetDirectories a` and then `SetDirectories b` (with `b` duplicate-free) both
succeed, and `GetDirectories` then returns exactly the paths of `b`: a
permutation of `b`, each path once, in strictly ascending order, of the same
length as `b`, and containing no path of `a` that is not in `b`. -/
theorem SetDirectories_replaces (now1 now2 : Nat) (s : Store) (a b : List String)
    (hcols : s.hasColumns "directories" ["path", "created_at", "updated_at"] = true)
    (hb : b.Nodup) :
    (SetDirectories now1 s a).1 = none ∧
    (SetDirectories now2 (SetDirectories now1 s a).2 b).1 = none ∧
    ∃ r, GetDirectories (SetDirectories now2 (SetDirectories now1 s a).2 b).2 = .ok r ∧
      r.Perm b ∧ r.Pairwise (fun x y => strLe x y = true ∧ x ≠ y) ∧
      r.length = b.length ∧ ∀ p ∈ a, p ∉ b → p ∉ r := by
  obtain ⟨t, ht, hc⟩ := hasColumns_eq_true _ _ _ hcols
  obtain ⟨rowsA, hA, -⟩ := SetDirectories_spec now1 s a t ht hc
  obtain ⟨rowsB, hB, hmapB⟩ := SetDirectories_spec now2
    (s.setTable "directories" ⟨t.cols, rowsA⟩) b ⟨t.cols, rowsA⟩ (by simp) hc
  rw [setTable_setTable] at hB
  have hpath : (Table.mk t.cols rowsB).hasCol "path" = true := by
    simp only [List.all_cons, List.all_nil, Bool.and_true, Bool.and_eq_true] at hc
    exact hc.1
  have hG := GetDirectories_spec (s.setTable "directories" ⟨t.cols, rowsB⟩) b t.cols rowsB
    (by simp) hpath hmapB
  rw [hA]
  simp only [hB]
  refine ⟨trivial, trivial, _, hG, ?_, ?_, ?_, ?_⟩
  · exact List.perm_insertionSort _ b
  · haveI : IsTotal String (fun x y => strLe x y = true) := ⟨fun x y => lexLe_total _ _⟩
    haveI : IsTrans String (fun x y => strLe x y = true) :=
      ⟨fun x y z => lexLe_trans _ _ _⟩
    have hs : List.Pairwise (fun x y => strLe x y = true)
        (b.insertionSort (fun x y => strLe x y = true)) :=
      List.sorted_insertionSort (fun x y => strLe x y = true) b
    have hn : (b.insertionSort (fun x y => strLe x y = true)).Nodup :=
      (List.perm_insertionSort _ b).nodup_iff.mpr hb
    exact hs.and hn
  · exact List.length_insertionSort _ b
  · intro p _ hpb hpr
    exact hpb ((List.mem_insertionSort _).mp hpr)

/-- Witness for C10: the directory scenario of the spec on the fresh store. -/
theorem SetDirectories_replaces_witness :
    (SetDirectories 1 freshStore ["/a", "/b"]).1 = none ∧
    (SetDirectories 2 (SetDirectories 1 freshStore ["/a", "/b"]).2 ["/c"]).1 = none ∧
    ∃ r, GetDirectories
        (SetDirectories 2 (SetDirectories 1 freshStore ["/a", "/b"]).2 ["/c"]).2 = .ok r ∧
      r.Perm ["/c"] ∧ r.Pairwise (fun x y => strLe x y = true ∧ x ≠ y) ∧
      r.length = ["/c"].length ∧ ∀ p ∈ ["/a", "/b"], p ∉ ["/c"] → p ∉ r :=
  SetDirectories_replaces 1 2 freshStore ["/a", "/b"] ["/c"] (by decide) (by decide)

/-! ## Theorems: reading and updating tracks -/

theorem bind_eq_ok {ε α β : Type} (x : Except ε α) (f : α → Except ε β) (b : β) :
    (x >>= f) = .ok b ↔ ∃ a, x = .ok a ∧ f a = .ok b := by
  cases x <;> simp [bind, Except.bind]

theorem scanString_eq_ok (v : Value) (x : String) : scanString v = .ok x ↔ v = .text x := by
  cases v <;> simp [scanString]

theorem scanStringPtr_eq_ok (v : Value) (x : Option String) :
    scanStringPtr v = .ok x ↔ v = ofStringPtr x := by
  cases v <;> cases x <;> simp [scanStringPtr, ofStringPtr]

theorem scanInt_eq_ok (v : Value) (x : Int) : scanInt v = .ok x ↔ v = .int x := by
  cases v <;> simp [scanInt]

theorem scanIntPtr_eq_ok (v : Value) (x : Option Int) :
    scanIntPtr v = .ok x ↔ v = ofIntPtr x := by
  cases v <;> cases x <;> simp [scanIntPtr, ofIntPtr]

theorem scanFloat_eq_ok (v : Value) (x : Nat) : scanFloat v = .ok x ↔ v = .real x := by
  cases v <;> simp [scanFloat]

theorem scanTime_eq_ok (v : Value) (x : Nat) : scanTime v = .ok x ↔ v = .time x := by
  cases v <;> simp [scanTime]

theorem scanBool_eq_ok (v : Value) (x : Bool) : scanBool v = .ok x ↔ v = ofBool x := by
  constructor
  · intro h
    unfold scanBool at h
    split at h
    · cases h; rfl
    · cases h; rfl
    · cases h
  · intro h
    subst h
    cases x <;> rfl

/-- A row scans into the track `tr` exactly when its id and its cells are
those of `tr`. -/
theorem scanTrack_eq_ok (r : Row) (tr : PersistentTrack) :
    scanTrack r = .ok tr ↔
      (r.id = tr.ID ∧ r.get "file_path" = .text tr.FilePath ∧
       r.get "file_name" = .text tr.FileName ∧ r.get "title" = .text tr.Title ∧
       r.get "album_name" = .text tr.AlbumName ∧
       r.get "album_artist_name" = ofStringPtr tr.AlbumArtistName ∧
       r.get "album_id" = .int tr.AlbumID ∧ r.get "artist_name" = .text tr.ArtistName ∧
       r.get "artist_id" = .int tr.ArtistID ∧ r.get "image_path" = ofStringPtr tr.ImagePath ∧
       r.get "track_number" = ofIntPtr tr.TrackNumber ∧
       r.get "txt_lyrics" = ofStringPtr tr.TxtLyrics ∧
       r.get "lrc_lyrics" = ofStringPtr tr.LrcLyrics ∧ r.get "duration" = .real tr.Duration ∧
       r.get "instrumental" = ofBool tr.Instrumental ∧
       r.get "title_lower" = ofStringPtr tr.TitleLower ∧
       r.get "created_at" = .time tr.CreatedAt ∧ r.get "updated_at" = .time tr.UpdatedAt) := by
  cases tr
  simp only [scanTrack, bind_eq_ok, scanString_eq_ok, scanStringPtr_eq_ok, scanInt_eq_ok,
    scanIntPtr_eq_ok, scanFloat_eq_ok, scanTime_eq_ok, scanBool_eq_ok, pure, Except.pure,
    Except.ok.injEq, PersistentTrack.mk.injEq]
  constructor
  · rintro ⟨_, h1, _, h2, _, h3, _, h4, _, h5, _, h6, _, h7, _, h8, _, h9, _, h10, _, h11,
      _, h12, _, h13, _, h14, _, h15, _, h16, _, h17, e⟩
    obtain ⟨e0, e1, e2, e3, e4, e5, e6, e7, e8, e9, e10, e11, e12, e13, e14, e15, e16, e17⟩ := e
    subst e1 e2 e3 e4 e5 e6 e7 e8 e9 e10 e11 e12 e13 e14 e15 e16 e17
    exact ⟨e0, h1, h2, h3, h4, h5, h6, h7, h8, h9, h10, h11, h12, h13, h14, h15, h16, h17⟩
  · rintro ⟨e0, h1, h2, h3, h4, h5, h6, h7, h8, h9, h10, h11, h12, h13, h14, h15, h16, h17⟩
    exact ⟨_, h1, _, h2, _, h3, _, h4, _, h5, _, h6, _, h7, _, h8, _, h9, _, h10, _, h11,
      _, h12, _, h13, _, h14, _, h15, _, h16, _, h17,
      e0, rfl, rfl, rfl, rfl, rfl, rfl, rfl, rfl, rfl, rfl, rfl, rfl, rfl, rfl, rfl, rfl, rfl⟩

theorem updateWhere_of_cols (s : Store) (table : String) (columns : List String)
    (sets : List (String × (Row → Value))) (p : Row → Bool) (t : Table)
    (ht : s.tables table = some t) (hc : columns.all t.hasCol = true)
    (hs : sets.all (fun q => t.hasCol q.1) = true) :
    updateWhere s table columns sets p =
      some (s.setTable table
        { t with rows := t.rows.map (fun r =>
            if p r then
              { r with get := fun c => match sets.lookup c with
                                       | some e => e r
                                       | none => r.get c }
            else r) }) := by
  simp [updateWhere, ht, hc, hs]

/-- What a successful `GetTrackByID` says about the store. -/
theorem GetTrackByID_eq_ok (s : Store) (id : Int) (tr : PersistentTrack)
    (h : GetTrackByID s id = .ok tr) :
    ∃ t r rest, s.tables "tracks" = some t ∧ trackColumns.all t.hasCol = true ∧
      t.rows.filter (fun r => decide (r.id = id)) = r :: rest ∧ scanTrack r = .ok tr := by
  unfold GetTrackByID at h
  split at h
  · cases h
  · cases h
  · rename_i r rest hsel
    obtain ⟨t, ht, hc, hl⟩ := selectWhere_eq_some _ _ _ _ _ hsel
    refine ⟨t, r, rest, ht, hc, hl.symm, ?_⟩
    split at h
    · rename_i tr1 hscan
      rw [hscan]
      exact h
    · cases h

/-- `GetTrackByID` returns the scan of the first row with the id. -/
theorem GetTrackByID_of_rows (s : Store) (id : Int) (t : Table) (r : Row) (rest : List Row)
    (tr : PersistentTrack) (ht : s.tables "tracks" = some t)
    (hc : trackColumns.all t.hasCol = true)
    (hf : t.rows.filter (fun r => decide (r.id = id)) = r :: rest)
    (hscan : scanTrack r = .ok tr) : GetTrackByID s id = .ok tr := by
  have hsel := selectWhere_of_cols s "tracks" trackColumns (fun r => decide (r.id = id)) t ht hc
  rw [hf] at hsel
  simp only [GetTrackByID, hsel, hscan]

/-- C11: when `GetTrackByID t` returns the track `tr`, the call
`UpdateTrackSyncedLyrics t syn pl` succeeds, and afterwards `GetTrackByID t`
returns `tr` with `LrcLyrics = syn`, `TxtLyrics = pl` and the new `UpdatedAt`,
every other field (the instrumental flag among them) as before; no table
other than tracks changes, and in the tracks table a row with another id is
left as it was and no row changes outside `lrc_lyrics`, `txt_lyrics` and
`updated_at`. -/
theorem UpdateTrackSyncedLyrics_frame (now : Nat) (s : Store) (t : Int) (syn pl : String)
    (tr : PersistentTrack) (h : GetTrackByID s t = .ok tr) :
    (UpdateTrackSyncedLyrics now s t syn pl).1 = none ∧
    GetTrackByID (UpdateTrackSyncedLyrics now s t syn pl).2 t =
      .ok { tr with LrcLyrics := some syn, TxtLyrics := some pl, UpdatedAt := now } ∧
    (∀ m, m ≠ "tracks" → (UpdateTrackSyncedLyrics now s t syn pl).2.tables m = s.tables m) ∧
    List.Forall₂
      (fun r r1 => r1.id = r.id ∧ (r.id ≠ t → r1 = r) ∧
        ∀ c, c ≠ "lrc_lyrics" → c ≠ "txt_lyrics" → c ≠ "updated_at" → r1.get c = r.get c)
      (s.rowsOf "tracks") ((UpdateTrackSyncedLyrics now s t syn pl).2.rowsOf "tracks") := by
  obtain ⟨tb, r, rest, ht, hc, hf, hscan⟩ := GetTrackByID_eq_ok s t tr h
  have hc1 : ["id"].all tb.hasCol = true := by
    simp only [trackColumns, List.all_cons, List.all_nil, Bool.and_true, Bool.and_eq_true] at hc
    simp [hc.1]
  have hc2 : [("lrc_lyrics", fun (_ : Row) => Value.text syn),
      ("txt_lyrics", fun (_ : Row) => Value.text pl),
      ("updated_at", fun (_ : Row) => Value.time now)].all (fun q => tb.hasCol q.1) = true := by
    simp only [trackColumns, List.all_cons, List.all_nil, Bool.and_true, Bool.and_eq_true] at hc
    simp [hc]
  have hupd := updateWhere_of_cols s "tracks" ["id"] _ (fun r => decide (r.id = t)) tb ht hc1 hc2
  have e : UpdateTrackSyncedLyrics now s t syn pl = (none, s.setTable "tracks"
      { tb with rows := tb.rows.map (fun r =>
          if decide (r.id = t) then
            { r with get := fun c => match [("lrc_lyrics", fun (_ : Row) => Value.text syn),
                ("txt_lyrics", fun (_ : Row) => Value.text pl),
                ("updated_at", fun (_ : Row) => Value.time now)].lookup c with
                                     | some e => e r
                                     | none => r.get c }
          else r) }) := by
    simp only [UpdateTrackSyncedLyrics, hupd]
  rw [e]
  generalize hu : (fun (r : Row) =>
          if decide (r.id = t) then
            ({ r with get := fun c => match [("lrc_lyrics", fun (_ : Row) => Value.text syn),
                ("txt_lyrics", fun (_ : Row) => Value.text pl),
                ("updated_at", fun (_ : Row) => Value.time now)].lookup c with
                                     | some e => e r
                                     | none => r.get c } : Row)
          else r) = upd
  have hid : ∀ r, (upd r).id = r.id := by
    intro r
    rw [← hu]
    by_cases hr : r.id = t <;> simp [hr]
  have hrest : ∀ r c, c ≠ "lrc_lyrics" → c ≠ "txt_lyrics" → c ≠ "updated_at" →
      (upd r).get c = r.get c := by
    intro r c h1 h2 h3
    rw [← hu]
    have b1 : (c == "lrc_lyrics") = false := beq_eq_false_iff_ne.mpr h1
    have b2 : (c == "txt_lyrics") = false := beq_eq_false_iff_ne.mpr h2
    have b3 : (c == "updated_at") = false := beq_eq_false_iff_ne.mpr h3
    by_cases hr : r.id = t
    · simp [hr, List.lookup, b1, b2, b3]
    · simp [hr]
  have hother : ∀ r, r.id ≠ t → upd r = r := by
    intro r hr
    rw [← hu]
    simp [hr]
  have hrt : r.id = t := by
    have : r ∈ tb.rows.filter (fun r => decide (r.id = t)) := by
      rw [hf]; exact List.mem_cons_self _ _
    simpa using (List.mem_filter.mp this).2
  refine ⟨rfl, ?_, ?_, ?_⟩
  · have hf1 : (tb.rows.map upd).filter (fun r => decide (r.id = t)) =
        upd r :: rest.map upd := by
      have : (tb.rows.map upd).filter (fun r => decide (r.id = t)) =
          (tb.rows.filter (fun r => decide (r.id = t))).map upd := by
        rw [List.filter_map]
        congr 1
        apply List.filter_congr
        intro x _
        simp [hid x]
      rw [this, hf, List.map_cons]
    refine GetTrackByID_of_rows _ t { tb with rows := tb.rows.map upd } (upd r)
      (rest.map upd) _ (by simp) hc hf1 ?_
    rw [scanTrack_eq_ok] at hscan ⊢
    obtain ⟨e0, h1, h2, h3, h4, h5, h6, h7, h8, h9, h10, h11, h12, h13, h14, h15, h16, h17⟩ :=
      hscan
    have hl : (upd r).get "lrc_lyrics" = .text syn := by
      rw [← hu]; simp [hrt, List.lookup]
    have htx : (upd r).get "txt_lyrics" = .text pl := by
      rw [← hu]; simp [hrt, List.lookup]
    have hup : (upd r).get "updated_at" = .time now := by
      rw [← hu]; simp [hrt, List.lookup]
    refine ⟨by rw [hid]; exact e0, ?_, ?_, ?_, ?_, ?_, ?_, ?_, ?_, ?_, ?_, htx, hl, ?_, ?_, ?_,
      ?_, hup⟩
    all_goals (rw [hrest r _ (by decide) (by decide) (by decide)]; assumption)
  · intro m hm
    exact tables_setTable_other s _ m _ hm
  · rw [rowsOf_setTable_same, rowsOf_of_tables s _ tb ht]
    show List.Forall₂ _ tb.rows (tb.rows.map upd)
    rw [List.forall₂_map_right_iff, List.forall₂_same]
    intro x _
    exact ⟨hid x, hother x, hrest x⟩

/-- What a successful `AddTrack` did: after the artist and the album were
resolved, it appended one row to the tracks table and returned the track
with that row's id. -/
theorem AddTrack_eq_ok (lower : String → String) (now : Nat) (s : Store)
    (track tr1 : PersistentTrack) (s1 : Store)
    (h : AddTrack lower now s track = (.ok tr1, s1)) :
    ∃ (artistID albumID : Int) (s2 : Store) (tb : Table),
      s2.tables "tracks" = some tb ∧ s2.tables "tracks" = s.tables "tracks" ∧
      s1 = s2.setTable "tracks" { tb with rows := tb.rows ++ [insertedRow tb now
        [("file_path", .text track.FilePath), ("file_name", .text track.FileName),
         ("title", .text track.Title), ("album_name", .text track.AlbumName),
         ("album_artist_name", ofStringPtr track.AlbumArtistName),
         ("album_id", .int albumID), ("artist_name", .text track.ArtistName),
         ("artist_id", .int artistID), ("image_path", ofStringPtr track.ImagePath),
         ("track_number", ofIntPtr track.TrackNumber),
         ("txt_lyrics", ofStringPtr track.TxtLyrics),
         ("lrc_lyrics", ofStringPtr track.LrcLyrics),
         ("duration", ofFloat64 track.Duration), ("instrumental", ofBool track.Instrumental),
         ("title_lower", .text (lower track.Title)),
         ("created_at", .time now), ("updated_at", .time now)]] } ∧
      tr1 = { track with ID := nextId tb.rows, AlbumID := albumID, ArtistID := artistID,
                         CreatedAt := now, UpdatedAt := now } := by
  obtain ⟨-, -, hA2, -, -⟩ := getOrCreateArtist_effect lower now s track.ArtistName
  unfold AddTrack at h
  cases hgA : getOrCreateArtist lower now s track.ArtistName with
  | mk rA sA =>
    rw [hgA] at h hA2
    simp only at hA2
    cases rA with
    | error e => simp at h
    | ok artistID =>
      dsimp only at h
      cases hgB : getOrCreateAlbum lower now sA track.AlbumName track.AlbumArtistName
          track.ImagePath artistID with
      | mk rB sB =>
        obtain ⟨-, -, hB2, -, -⟩ := getOrCreateAlbum_effect _ _ _ _ _ _ _ _ _ hgB
        rw [hgB] at h
        cases rB with
        | error e => simp at h
        | ok albumID =>
          dsimp only at h
          revert h
          split
          · intro h
            simp at h
          · intro h
            rename_i trackID s3 hins
            simp only [Prod.mk.injEq, Except.ok.injEq] at h
            obtain ⟨h1, h2⟩ := h
            obtain ⟨tb, htb, -, hid, hs3⟩ := insertInto_eq_some _ _ _ _ _ _ hins
            refine ⟨artistID, albumID, sB, tb, htb, ?_, ?_, ?_⟩
            · rw [hB2 _ (by decide), hA2 _ (by decide)]
            · rw [← h2, hs3]
            · rw [← h1, hid]

theorem selectWhere_eq_none_of (s : Store) (table : String) (columns : List String)
    (p : Row → Bool) (h : s.hasColumns table columns = false) :
    selectWhere s table columns p = none := by
  unfold Store.hasColumns at h
  unfold selectWhere
  cases ht : s.tables table with
  | none => rfl
  | some t =>
    simp only [ht] at h
    simp [h]

/-- C12: on a store whose tracks table has its columns, `GetTrackByID id`
returns the scan of the first Track row with that id when there is one, and
the error "track with ID id not found" when there is none; that error is not
the one returned when the query itself fails (on a store without the table
or a column), which wraps the engine's error in "failed to get track": every
error of `GetTrackByID` is one or the other, and the not-found error is only
returned when no row has the id.  After a successful `AddTrack track` whose
duration is a number, `GetTrackByID` of the returned id returns a track with
the title added; when the duration is a NaN the engine has stored `NULL`, the
row does not scan, and `GetTrackByID` returns the "failed to get track"
error, not the not-found one. -/
theorem GetTrackByID_found_or_not_found (lower : String → String) (now : Nat) (s : Store)
    (id : Int) (track : PersistentTrack)
    (hcols : s.hasColumns "tracks" trackColumns = true) :
    (∀ r rest tr, (s.rowsOf "tracks").filter (fun r => decide (r.id = id)) = r :: rest →
      scanTrack r = .ok tr → GetTrackByID s id = .ok tr) ∧
    ((∀ r ∈ s.rowsOf "tracks", r.id ≠ id) →
      GetTrackByID s id = .error (.errorf ("track with ID " ++ toString id ++ " not found"))) ∧
    (∀ s0 : Store, s0.hasColumns "tracks" trackColumns = false →
      GetTrackByID s0 id = .error (.wrap "failed to get track" .engine)) ∧
    (∀ (s0 : Store) (e : Error), GetTrackByID s0 id = .error e →
      (e = .errorf ("track with ID " ++ toString id ++ " not found") ∧
        ∀ r ∈ s0.rowsOf "tracks", r.id ≠ id) ∨
      ∃ inner, e = .wrap "failed to get track" inner) ∧
    (∀ inner, Error.wrap "failed to get track" inner ≠
      .errorf ("track with ID " ++ toString id ++ " not found")) ∧
    (∀ tr1 s1, isNaN track.Duration = false → AddTrack lower now s track = (.ok tr1, s1) →
      ∃ tr2, GetTrackByID s1 tr1.ID = .ok tr2 ∧ tr2.ID = tr1.ID ∧ tr2.Title = track.Title) ∧
    (∀ tr1 s1, isNaN track.Duration = true → AddTrack lower now s track = (.ok tr1, s1) →
      GetTrackByID s1 tr1.ID = .error (.wrap "failed to get track" .engine)) := by
  obtain ⟨tb, htb, hc⟩ := hasColumns_eq_true _ _ _ hcols
  have hrows := rowsOf_of_tables s _ tb htb
  refine ⟨?_, ?_, ?_, ?_, ?_, ?_, ?_⟩
  · intro r rest tr hf hscan
    rw [hrows] at hf
    exact GetTrackByID_of_rows s id tb r rest tr htb hc hf hscan
  · intro hno
    rw [hrows] at hno
    have hf : tb.rows.filter (fun r => decide (r.id = id)) = [] := by
      rw [List.filter_eq_nil_iff]
      intro r hr
      simpa using hno r hr
    have hsel := selectWhere_of_cols s "tracks" trackColumns (fun r => decide (r.id = id))
      tb htb hc
    rw [hf] at hsel
    simp only [GetTrackByID, hsel]
  · intro s0 h0
    simp only [GetTrackByID, selectWhere_eq_none_of s0 _ _ _ h0]
  · intro s0 e h0
    unfold GetTrackByID at h0
    split at h0
    · right
      exact ⟨.engine, by simpa using h0.symm⟩
    · rename_i hsel
      left
      obtain ⟨t0, ht0, -, hl⟩ := selectWhere_eq_some _ _ _ _ _ hsel
      refine ⟨by simpa using h0.symm, ?_⟩
      intro r hr hid
      rw [rowsOf_of_tables s0 _ t0 ht0] at hr
      have : r ∈ t0.rows.filter (fun r => decide (r.id = id)) :=
        List.mem_filter.mpr ⟨hr, by simpa using hid⟩
      rw [← hl] at this
      cases this
    · right
      split at h0
      · cases h0
      · rename_i e1 _
        exact ⟨e1, by simpa using h0.symm⟩
  · intro inner h0
    cases h0
  · intro tr1 s1 hnan hadd
    obtain ⟨artistID, albumID, s2, tb2, htb2, hsame, hs1, htr1⟩ :=
      AddTrack_eq_ok lower now s track tr1 s1 hadd
    rw [hsame, htb] at htb2
    cases htb2
    generalize hv : [("file_path", Value.text track.FilePath),
      ("file_name", Value.text track.FileName),
      ("title", Value.text track.Title), ("album_name", Value.text track.AlbumName),
      ("album_artist_name", ofStringPtr track.AlbumArtistName),
      ("album_id", Value.int albumID), ("artist_name", Value.text track.ArtistName),
      ("artist_id", Value.int artistID), ("image_path", ofStringPtr track.ImagePath),
      ("track_number", ofIntPtr track.TrackNumber),
      ("txt_lyrics", ofStringPtr track.TxtLyrics),
      ("lrc_lyrics", ofStringPtr track.LrcLyrics),
      ("duration", ofFloat64 track.Duration),
      ("instrumental", ofBool track.Instrumental),
      ("title_lower", Value.text (lower track.Title)),
      ("created_at", Value.time now), ("updated_at", Value.time now)] = vals at hs1
    have hid1 : tr1.ID = nextId tb.rows := by rw [htr1]
    have hf : (tb.rows ++ [insertedRow tb now vals]).filter
        (fun r => decide (r.id = tr1.ID)) = [insertedRow tb now vals] := by
      rw [List.filter_append]
      have hold : tb.rows.filter (fun r => decide (r.id = tr1.ID)) = [] := by
        rw [List.filter_eq_nil_iff]
        intro r hr
        have := lt_nextId tb.rows r hr
        simp only [decide_eq_true_eq, hid1]
        exact ne_of_lt this
      rw [hold]
      simp [List.filter_cons, hid1]
    refine ⟨{ track with ID := nextId tb.rows, AlbumID := albumID, ArtistID := artistID,
                         Duration := if track.Duration = 2 ^ 63 then 0 else track.Duration,
                         TitleLower := some (lower track.Title),
                         CreatedAt := now, UpdatedAt := now }, ?_, hid1.symm, rfl⟩
    refine GetTrackByID_of_rows s1 tr1.ID
      { tb with rows := tb.rows ++ [insertedRow tb now vals] } (insertedRow tb now vals) []
      _ (by rw [hs1]; simp) hc hf ?_
    have hdur : (insertedRow tb now vals).get "duration" =
        .real (if track.Duration = 2 ^ 63 then 0 else track.Duration) := by
      rw [insertedRow_get tb now vals "duration" (ofFloat64 track.Duration)
        (by rw [← hv]; rfl)]
      unfold ofFloat64
      simp only [hnan, Bool.false_eq_true, if_false]
      by_cases h63 : track.Duration = 2 ^ 63
      · simp only [h63, if_true]
      · simp only [h63, if_false]
    rw [scanTrack_eq_ok]
    refine ⟨rfl, ?_, ?_, ?_, ?_, ?_, ?_, ?_, ?_, ?_, ?_, ?_, ?_, hdur, ?_, ?_, ?_, ?_⟩
    all_goals exact insertedRow_get tb now vals _ _ (by rw [← hv]; rfl)
  · intro tr1 s1 hnan hadd
    obtain ⟨artistID, albumID, s2, tb2, htb2, hsame, hs1, htr1⟩ :=
      AddTrack_eq_ok lower now s track tr1 s1 hadd
    rw [hsame, htb] at htb2
    cases htb2
    generalize hv : [("file_path", Value.text track.FilePath),
      ("file_name", Value.text track.FileName),
      ("title", Value.text track.Title), ("album_name", Value.text track.AlbumName),
      ("album_artist_name", ofStringPtr track.AlbumArtistName),
      ("album_id", Value.int albumID), ("artist_name", Value.text track.ArtistName),
      ("artist_id", Value.int artistID), ("image_path", ofStringPtr track.ImagePath),
      ("track_number", ofIntPtr track.TrackNumber),
      ("txt_lyrics", ofStringPtr track.TxtLyrics),
      ("lrc_lyrics", ofStringPtr track.LrcLyrics),
      ("duration", ofFloat64 track.Duration),
      ("instrumental", ofBool track.Instrumental),
      ("title_lower", Value.text (lower track.Title)),
      ("created_at", Value.time now), ("updated_at", Value.time now)] = vals at hs1
    have hid1 : tr1.ID = nextId tb.rows := by rw [htr1]
    have hf : (tb.rows ++ [insertedRow tb now vals]).filter
        (fun r => decide (r.id = tr1.ID)) = [insertedRow tb now vals] := by
      rw [List.filter_append]
      have hold : tb.rows.filter (fun r => decide (r.id = tr1.ID)) = [] := by
        rw [List.filter_eq_nil_iff]
        intro r hr
        have := lt_nextId tb.rows r hr
        simp only [decide_eq_true_eq, hid1]
        exact ne_of_lt this
      rw [hold]
      simp [List.filter_cons, hid1]
    have hsel := selectWhere_of_cols s1 "tracks" trackColumns
      (fun r => decide (r.id = tr1.ID))
      { tb with rows := tb.rows ++ [insertedRow tb now vals] } (by rw [hs1]; simp) hc
    rw [hf] at hsel
    have hg : ∀ c v, vals.lookup c = some v → (insertedRow tb now vals).get c = v :=
      fun c v h => insertedRow_get tb now vals c v h
    have hscan : scanTrack (insertedRow tb now vals) = .error .engine := by
      unfold scanTrack
      rw [hg "file_path" _ (by rw [← hv]; rfl), hg "file_name" _ (by rw [← hv]; rfl),
        hg "title" _ (by rw [← hv]; rfl), hg "album_name" _ (by rw [← hv]; rfl),
        hg "album_artist_name" _ (by rw [← hv]; rfl), hg "album_id" _ (by rw [← hv]; rfl),
        hg "artist_name" _ (by rw [← hv]; rfl), hg "artist_id" _ (by rw [← hv]; rfl),
        hg "image_path" _ (by rw [← hv]; rfl), hg "track_number" _ (by rw [← hv]; rfl),
        hg "txt_lyrics" _ (by rw [← hv]; rfl), hg "lrc_lyrics" _ (by rw [← hv]; rfl),
        hg "duration" _ (by rw [← hv]; rfl)]
      have e1 : ∀ x, scanStringPtr (ofStringPtr x) = .ok x := by
        intro x; cases x <;> rfl
      have e2 : ∀ x, scanIntPtr (ofIntPtr x) = .ok x := by
        intro x; cases x <;> rfl
      simp only [scanString, scanInt, e1, e2, ofFloat64, hnan, if_true, scanFloat, bind,
        Except.bind]
    simp only [GetTrackByID, hsel, hscan]

/-- Witness for C11: the track of `oneTrackStore` gets synced lyrics. -/
theorem UpdateTrackSyncedLyrics_frame_witness :
    GetTrackByID oneTrackStore 1 = .ok oneTrack ∧
    ((UpdateTrackSyncedLyrics 9 oneTrackStore 1 "[00:01.00]la" "la").1 = none ∧
     GetTrackByID (UpdateTrackSyncedLyrics 9 oneTrackStore 1 "[00:01.00]la" "la").2 1 =
       .ok { oneTrack with LrcLyrics := some "[00:01.00]la", TxtLyrics := some "la",
                           UpdatedAt := 9 } ∧
     (∀ m, m ≠ "tracks" →
       (UpdateTrackSyncedLyrics 9 oneTrackStore 1 "[00:01.00]la" "la").2.tables m =
         oneTrackStore.tables m) ∧
     List.Forall₂
       (fun r r1 => r1.id = r.id ∧ (r.id ≠ 1 → r1 = r) ∧
         ∀ c, c ≠ "lrc_lyrics" → c ≠ "txt_lyrics" → c ≠ "updated_at" → r1.get c = r.get c)
       (oneTrackStore.rowsOf "tracks")
       ((UpdateTrackSyncedLyrics 9 oneTrackStore 1 "[00:01.00]la" "la").2.rowsOf "tracks")) :=
  ⟨rfl, UpdateTrackSyncedLyrics_frame 9 oneTrackStore 1 "[00:01.00]la" "la" oneTrack rfl⟩

/-- Witness for C12: the fresh store, id 1 and the first scenario track. -/
theorem GetTrackByID_found_or_not_found_witness :
    freshStore.hasColumns "tracks" trackColumns = true ∧
    ((∀ r rest tr, (freshStore.rowsOf "tracks").filter (fun r => decide (r.id = 1)) = r :: rest →
      scanTrack r = .ok tr → GetTrackByID freshStore 1 = .ok tr) ∧
    ((∀ r ∈ freshStore.rowsOf "tracks", r.id ≠ 1) →
      GetTrackByID freshStore 1 =
        .error (.errorf ("track with ID " ++ toString (1 : Int) ++ " not found"))) ∧
    (∀ s0 : Store, s0.hasColumns "tracks" trackColumns = false →
      GetTrackByID s0 1 = .error (.wrap "failed to get track" .engine)) ∧
    (∀ (s0 : Store) (e : Error), GetTrackByID s0 1 = .error e →
      (e = .errorf ("track with ID " ++ toString (1 : Int) ++ " not found") ∧
        ∀ r ∈ s0.rowsOf "tracks", r.id ≠ 1) ∨
      ∃ inner, e = .wrap "failed to get track" inner) ∧
    (∀ inner, Error.wrap "failed to get track" inner ≠
      .errorf ("track with ID " ++ toString (1 : Int) ++ " not found")) ∧
    (∀ tr1 s1, isNaN (candidate "Artist X" "Album Y" "one").Duration = false →
      AddTrack asciiLower 1 freshStore (candidate "Artist X" "Album Y" "one") =
        (.ok tr1, s1) →
      ∃ tr2, GetTrackByID s1 tr1.ID = .ok tr2 ∧ tr2.ID = tr1.ID ∧
        tr2.Title = (candidate "Artist X" "Album Y" "one").Title) ∧
    (∀ tr1 s1, isNaN (candidate "Artist X" "Album Y" "one").Duration = true →
      AddTrack asciiLower 1 freshStore (candidate "Artist X" "Album Y" "one") =
        (.ok tr1, s1) →
      GetTrackByID s1 tr1.ID = .error (.wrap "failed to get track" .engine))) ∧
    isNaN (candidate "Artist X" "Album Y" "one").Duration = false ∧
    (AddTrack asciiLower 1 freshStore (candidate "Artist X" "Album Y" "one")).1.toOption.map
      (fun t => (t.ID, t.Title)) = some (1, "one") ∧
    (GetTrackByID (AddTrack asciiLower 1 freshStore
      (candidate "Artist X" "Album Y" "one")).2 1).toOption.map
      (fun t => (t.ID, t.Title, t.Duration)) = some (1, "one", 0) ∧
    GetTrackByID freshStore 1 =
      .error (.errorf ("track with ID " ++ toString (1 : Int) ++ " not found")) ∧
    isNaN 9221120237041090561 = true ∧
    (AddTrack asciiLower 1 freshStore
      { candidate "Artist X" "Album Y" "one" with Duration := 9221120237041090561 }).1.toOption.map
      (fun t => t.ID) = some 1 ∧
    GetTrackByID (AddTrack asciiLower 1 freshStore
      { candidate "Artist X" "Album Y" "one" with Duration := 9221120237041090561 }).2 1 =
      .error (.wrap "failed to get track" .engine) :=
  ⟨by decide, GetTrackByID_found_or_not_found asciiLower 1 freshStore 1
    (candidate "Artist X" "Album Y" "one") (by decide),
   by decide, by decide, by decide, rfl, by decide, by decide, rfl⟩

/-- C13: on a store that has the artists and albums tables but no tracks
table, `AddTrack` returns the error of the track insert, and the Artist row
and the Album row it created before remain in the store: the three steps
are not wrapped in a transaction. -/
theorem AddTrack_failure_leaves_rows :
    noTracksDatabase.rowsOf "artists" = [] ∧ noTracksDatabase.rowsOf "albums" = [] ∧
    (AddTrack asciiLower 1 noTracksDatabase (candidate "Artist X" "Album Y" "one")).1 =
      .error (.wrap "failed to insert track" .engine) ∧
    ((AddTrack asciiLower 1 noTracksDatabase (candidate "Artist X" "Album Y" "one")).2.rowsOf
      "artists").map (fun r => r.get "name") = [.text "Artist X"] ∧
    ((AddTrack asciiLower 1 noTracksDatabase (candidate "Artist X" "Album Y" "one")).2.rowsOf
      "albums").map (fun r => r.get "name") = [.text "Album Y"] := by
  refine ⟨rfl, rfl, rfl, by decide, by decide⟩

/-! ## Theorems: library initialization and the provider's response -/

/-- C19 fails as stated: on a store without a directories table
`GetDirectories` returns an error, and `InitializeLibrary` still returns `nil`
to its caller. -/
theorem InitializeLibrary_hides_store_error :
    GetDirectories currentBlankDatabase =
      .error (.wrap "failed to query directories" .engine) ∧
    (InitializeLibrary asciiLower 1 (fun _ => .ok scenarioTracks) currentBlankDatabase).1 =
      none := by
  exact ⟨rfl, rfl⟩

/-- C19, amended: `InitializeLibrary` reports success (`nil`) to its caller
whatever the store and the scanner do while its goroutine runs. -/
theorem InitializeLibrary_returns_nil (lower : String → String) (now : Nat)
    (scan : List String → Except Error (List PersistentTrack)) (s : Store) :
    (InitializeLibrary lower now scan s).1 = none := rfl

/-- C20: `convertResponse` returns `SyncedLyrics` with the synced text, and
with the provider's plain text when it is present (otherwise with
`stripTimestamp` of the synced text), if `syncedLyrics` is present; otherwise
`UnsyncedLyrics` with the plain text if `plainLyrics` is present; otherwise
`Instrumental` if the instrumental flag is true; otherwise `None`. -/
theorem convertResponse_variants (raw : RawResponse) :
    (∀ syn, raw.SyncedLyrics = some syn →
      (∀ p, raw.PlainLyrics = some p → convertResponse raw = .SyncedLyrics syn p) ∧
      (raw.PlainLyrics = none →
        convertResponse raw = .SyncedLyrics syn (stripTimestamp syn))) ∧
    (raw.SyncedLyrics = none →
      (∀ p, raw.PlainLyrics = some p → convertResponse raw = .UnsyncedLyrics p) ∧
      (raw.PlainLyrics = none → raw.Instrumental = true →
        convertResponse raw = .Instrumental) ∧
      (raw.PlainLyrics = none → raw.Instrumental = false → convertResponse raw = .None)) := by
  refine ⟨?_, ?_⟩
  · intro syn hs
    refine ⟨?_, ?_⟩
    · intro p hp
      simp [convertResponse, hs, hp]
    · intro hp
      simp [convertResponse, hs, hp]
  · intro hs
    refine ⟨?_, ?_, ?_⟩
    · intro p hp
      simp [convertResponse, hs, hp]
    · intro hp hi
      simp [convertResponse, hs, hp, hi]
    · intro hp hi
      simp [convertResponse, hs, hp, hi]

/-! ## Theorems: the scanner -/

theorem extAux_final (e rest acc : List Char) (he : ∀ c ∈ e, c ≠ '.' ∧ c ≠ '/') :
    extAux (e ++ '.' :: rest) acc = String.mk ('.' :: (e.reverse ++ acc)) := by
  induction e generalizing acc with
  | nil => simp [extAux]
  | cons c e ih =>
    have hc := he c (List.mem_cons_self _ _)
    have := ih (c :: acc) (fun x hx => he x (List.mem_cons_of_mem _ hx))
    simp [extAux, hc.1, hc.2, this]

/-- C16: `isAudioFile path` is true exactly when the lower-cased extension of
the path is one of the eight audio extensions, where the extension of a path
that ends in a dot followed by `e` (without dot or slash) is that dot and `e`;
so two paths whose extensions differ only in letter case get the same answer. -/
theorem isAudioFile_iff (lower : String → String) :
    (∀ path, isAudioFile lower path = true ↔
      lower (Ext path) ∈
        [".mp3", ".m4a", ".flac", ".ogg", ".opus", ".wav", ".aac", ".wma"]) ∧
    (∀ stem e : List Char, (∀ c ∈ e, c ≠ '.' ∧ c ≠ '/') →
      Ext (String.mk (stem ++ '.' :: e)) = String.mk ('.' :: e)) ∧
    (∀ p q, lower (Ext p) = lower (Ext q) → isAudioFile lower p = isAudioFile lower q) := by
  refine ⟨?_, ?_, ?_⟩
  · intro path
    simp [isAudioFile, audioExtensions]
  · intro stem e he
    have h := extAux_final e.reverse stem.reverse []
      (fun c hc => he c (List.mem_reverse.mp hc))
    simpa [Ext] using h
  · intro p q h
    simp [isAudioFile, h]

theorem takeWhile_append_cons (p : Char → Bool) (l r : List Char) (x : Char)
    (hl : ∀ c ∈ l, p c = true) (hx : p x = false) : (l ++ x :: r).takeWhile p = l := by
  induction l with
  | nil => simp [List.takeWhile_cons, hx]
  | cons c l ih =>
    have hc := hl c (List.mem_cons_self _ _)
    simp [List.takeWhile_cons, hc, ih (fun y hy => hl y (List.mem_cons_of_mem _ hy))]

theorem takeWhile_all (p : Char → Bool) (l : List Char) (hl : ∀ c ∈ l, p c = true) :
    l.takeWhile p = l := by
  induction l with
  | nil => rfl
  | cons c l ih =>
    have hc := hl c (List.mem_cons_self _ _)
    simp [List.takeWhile_cons, hc, ih (fun y hy => hl y (List.mem_cons_of_mem _ hy))]

theorem dropWhile_of_head (p : Char → Bool) (l : List Char) (hl : ∀ c, l.head? = some c → p c = false) :
    l.dropWhile p = l := by
  cases l with
  | nil => rfl
  | cons c t =>
    have := hl c rfl
    simp [List.dropWhile_cons, this]

/-- The last element of a path: what follows the last slash, when that is not
empty. -/
theorem Base_of_name (dir name : List Char) (hne : name ≠ []) (hname : ∀ c ∈ name, c ≠ '/') :
    Base (String.mk (dir ++ '/' :: name)) = String.mk name ∧
    Base (String.mk name) = String.mk name := by
  have hhead : ∀ (t : List Char) (c : Char), (name.reverse ++ t).head? = some c →
      decide (c = '/') = false := by
    intro t c hc
    have hmem : c ∈ name := by
      cases hr : name.reverse with
      | nil => exact absurd (List.reverse_eq_nil_iff.mp hr) hne
      | cons x xs =>
        rw [hr] at hc
        simp only [List.cons_append, List.head?_cons, Option.some.injEq] at hc
        subst hc
        exact List.mem_reverse.mp (by rw [hr]; exact List.mem_cons_self _ _)
    simpa using hname c hmem
  have hall : ∀ c ∈ name.reverse, decide (c ≠ '/') = true := by
    intro c hc
    simpa using hname c (List.mem_reverse.mp hc)
  constructor
  · unfold Base
    have h1 : (String.mk (dir ++ '/' :: name)) ≠ "" := by
      intro h
      have := congrArg String.data h
      simp at this
    simp only [h1, if_false, List.reverse_append, List.reverse_cons, List.append_assoc,
      List.singleton_append]
    rw [dropWhile_of_head _ _ (hhead _), takeWhile_append_cons _ _ _ _ hall (by simp)]
    simp [hne]
  · unfold Base
    have h1 : (String.mk name) ≠ "" := by
      intro h
      have := congrArg String.data h
      exact hne this
    simp only [h1, if_false]
    have e := hhead [] 
    simp only [List.append_nil] at e
    rw [dropWhile_of_head _ _ e, takeWhile_all _ _ hall]
    simp [hne]

theorem TrimSuffix_append (stem suffix : List Char) :
    TrimSuffix (String.mk (stem ++ suffix)) (String.mk suffix) = String.mk stem := by
  unfold TrimSuffix
  have h : suffix.isSuffixOf (stem ++ suffix) = true := by
    rw [List.isSuffixOf_iff_suffix]
    exact List.suffix_append _ _
  simp [h]

/-- The file name without its extension: for a path that ends in a slash, a
stem without slash, a dot and an extension without dot or slash, it is the
stem; for a last element without dot it is that element. -/
theorem fileName_without_extension (dir stem e : List Char)
    (hstem : ∀ c ∈ stem, c ≠ '/') (he : ∀ c ∈ e, c ≠ '.' ∧ c ≠ '/') :
    TrimSuffix (Base (String.mk (dir ++ '/' :: (stem ++ '.' :: e))))
      (Ext (String.mk (dir ++ '/' :: (stem ++ '.' :: e)))) = String.mk stem := by
  have hb := (Base_of_name dir (stem ++ '.' :: e) (by simp) (by
    intro c hc
    rcases List.mem_append.mp hc with h | h
    · exact hstem c h
    · rcases List.mem_cons.mp h with h | h
      · subst h; decide
      · exact (he c h).2)).1
  have hx : Ext (String.mk (dir ++ '/' :: (stem ++ '.' :: e))) = String.mk ('.' :: e) := by
    have h := extAux_final e.reverse (stem.reverse ++ '/' :: dir.reverse) []
      (fun c hc => he c (List.mem_reverse.mp hc))
    simpa [Ext] using h
  rw [hb, hx]
  exact TrimSuffix_append stem ('.' :: e)

theorem extAux_no_dot (l rest acc : List Char) (hl : ∀ c ∈ l, c ≠ '.' ∧ c ≠ '/') :
    extAux (l ++ '/' :: rest) acc = "" := by
  induction l generalizing acc with
  | nil => simp [extAux]
  | cons c l ih =>
    have hc := hl c (List.mem_cons_self _ _)
    have := ih (c :: acc) (fun x hx => hl x (List.mem_cons_of_mem _ hx))
    simp [extAux, hc.1, hc.2, this]

/-- A last element without a dot has no extension and is the file name
without its extension. -/
theorem fileName_no_extension (dir name : List Char) (hne : name ≠ [])
    (hname : ∀ c ∈ name, c ≠ '.' ∧ c ≠ '/') :
    TrimSuffix (Base (String.mk (dir ++ '/' :: name)))
      (Ext (String.mk (dir ++ '/' :: name))) = String.mk name := by
  have hb := (Base_of_name dir name hne (fun c hc => (hname c hc).2)).1
  have hx : Ext (String.mk (dir ++ '/' :: name)) = "" := by
    have h := extAux_no_dot name.reverse dir.reverse []
      (fun c hc => hname c (List.mem_reverse.mp hc))
    simpa [Ext] using h
  rw [hb, hx]
  have := TrimSuffix_append name []
  simpa using this


/-- C17: for a file that opens and whose tags can be read, `extractMetadata`
returns a track whose title is the tag title, or the file name without its
extension when the tag title is empty (for a path ending in a slash, a stem, a
dot and an extension it is the stem; for a last element without dot it is
that element); whose album is the tag album, or "Unknown Album"; whose artist
is the tag artist, or "Unknown Artist"; and whose album artist is the tag
album artist, or that artist when it is empty. -/
theorem extractMetadata_fallbacks (lower : String → String) (now : Nat) (fs : FileSystem)
    (filePath : String) (tags : Tags) (hopen : fs.openFile filePath = none)
    (htags : fs.readTags filePath = .ok tags) :
    ∃ track, extractMetadata lower now fs filePath = .ok track ∧
      track.Title = (if tags.Title = "" then TrimSuffix (Base filePath) (Ext filePath)
                     else tags.Title) ∧
      (∀ dir stem e : List Char, (∀ c ∈ stem, c ≠ '/') → (∀ c ∈ e, c ≠ '.' ∧ c ≠ '/') →
        filePath = String.mk (dir ++ '/' :: (stem ++ '.' :: e)) → tags.Title = "" →
        track.Title = String.mk stem) ∧
      (∀ dir name : List Char, name ≠ [] → (∀ c ∈ name, c ≠ '.' ∧ c ≠ '/') →
        filePath = String.mk (dir ++ '/' :: name) → tags.Title = "" →
        track.Title = String.mk name) ∧
      track.AlbumName = (if tags.Album = "" then "Unknown Album" else tags.Album) ∧
      track.ArtistName = (if tags.Artist = "" then "Unknown Artist" else tags.Artist) ∧
      track.AlbumArtistName =
        some (if tags.AlbumArtist = "" then track.ArtistName else tags.AlbumArtist) := by
  simp only [extractMetadata, hopen, htags]
  refine ⟨_, rfl, rfl, ?_, ?_, rfl, rfl, rfl⟩
  · intro dir stem e hstem he hp ht
    simp only [ht, if_true]
    rw [hp]
    exact fileName_without_extension dir stem e hstem he
  · intro dir name hne hname hp ht
    simp only [ht, if_true]
    rw [hp]
    exact fileName_no_extension dir name hne hname

/-- Witness for C17: a file of `demoFS` without any tag; its title is "c". -/
theorem extractMetadata_fallbacks_witness :
    demoFS.openFile "/music/sub/c.flac" = none ∧
    demoFS.readTags "/music/sub/c.flac" = .ok ⟨"", "", "", "", 0⟩ ∧
    (extractMetadata asciiLower 1 demoFS "/music/sub/c.flac").toOption.map
      (fun t => (t.Title, t.AlbumName, t.ArtistName, t.AlbumArtistName)) =
      some ("c", "Unknown Album", "Unknown Artist", some "Unknown Artist") ∧
    TrimSuffix (Base "/music/sub/c.flac") (Ext "/music/sub/c.flac") = "c" ∧
    TrimSuffix (Base "/music/a.b.mp3") (Ext "/music/a.b.mp3") = "a.b" ∧
    TrimSuffix (Base "/music/README") (Ext "/music/README") = "README" ∧
    ∃ track, extractMetadata asciiLower 1 demoFS "/music/sub/c.flac" = .ok track ∧
      track.Title = (if (⟨"", "", "", "", 0⟩ : Tags).Title = "" then
          TrimSuffix (Base "/music/sub/c.flac") (Ext "/music/sub/c.flac")
        else (⟨"", "", "", "", 0⟩ : Tags).Title) ∧
      (∀ dir stem e : List Char, (∀ c ∈ stem, c ≠ '/') → (∀ c ∈ e, c ≠ '.' ∧ c ≠ '/') →
        "/music/sub/c.flac" = String.mk (dir ++ '/' :: (stem ++ '.' :: e)) →
        (⟨"", "", "", "", 0⟩ : Tags).Title = "" → track.Title = String.mk stem) ∧
      (∀ dir name : List Char, name ≠ [] → (∀ c ∈ name, c ≠ '.' ∧ c ≠ '/') →
        "/music/sub/c.flac" = String.mk (dir ++ '/' :: name) →
        (⟨"", "", "", "", 0⟩ : Tags).Title = "" → track.Title = String.mk name) ∧
      track.AlbumName = (if (⟨"", "", "", "", 0⟩ : Tags).Album = "" then "Unknown Album"
        else (⟨"", "", "", "", 0⟩ : Tags).Album) ∧
      track.ArtistName = (if (⟨"", "", "", "", 0⟩ : Tags).Artist = "" then "Unknown Artist"
        else (⟨"", "", "", "", 0⟩ : Tags).Artist) ∧
      track.AlbumArtistName =
        some (if (⟨"", "", "", "", 0⟩ : Tags).AlbumArtist = "" then track.ArtistName
          else (⟨"", "", "", "", 0⟩ : Tags).AlbumArtist) :=
  ⟨rfl, rfl, by decide, by decide, by decide, by decide,
   extractMetadata_fallbacks asciiLower 1 demoFS "/music/sub/c.flac"
    ⟨"", "", "", "", 0⟩ rfl rfl⟩

theorem scanVisits_ok (lower : String → String) (now : Nat) (fs : FileSystem) :
    ∀ (vs : List Visit) (tracks : List PersistentTrack), (∀ v ∈ vs, v.err = none) →
      scanVisits lower now fs vs tracks =
        .ok (tracks ++ ((vs.filter (fun v => !v.isDir && isAudioFile lower v.path)).map
          (fun v => v.path)).filterMap (extracted lower now fs))
  | [], tracks, _ => by simp [scanVisits]
  | v :: vs, tracks, h => by
    have hv := h v (List.mem_cons_self _ _)
    have ih := fun acc => scanVisits_ok lower now fs vs acc
      (fun x hx => h x (List.mem_cons_of_mem _ hx))
    unfold scanVisits
    rw [hv]
    by_cases hd : v.isDir = true
    · simp [hd, ih, List.filter_cons]
    · by_cases ha : isAudioFile lower v.path = true
      · cases he : extractMetadata lower now fs v.path with
        | error e => simp [hd, ha, ih, List.filter_cons, extracted, he]
        | ok t => simp [hd, ha, ih, List.filter_cons, extracted, he]
      · simp [hd, ha, ih, List.filter_cons]

theorem countVisits_ok (lower : String → String) :
    ∀ (vs : List Visit) (count : Int), (∀ v ∈ vs, v.err = none) →
      countVisits lower vs count =
        .ok (count + ((vs.filter (fun v => !v.isDir && isAudioFile lower v.path)).map
          (fun v => v.path)).length)
  | [], count, _ => by simp [countVisits]
  | v :: vs, count, h => by
    have hv := h v (List.mem_cons_self _ _)
    have ih := fun c => countVisits_ok lower vs c
      (fun x hx => h x (List.mem_cons_of_mem _ hx))
    unfold countVisits
    rw [hv]
    by_cases hd : v.isDir = true
    · simp [hd, ih, List.filter_cons]
    · by_cases ha : isAudioFile lower v.path = true
      · simp [hd, ha, ih, List.filter_cons]
        omega
      · simp [hd, ha, ih, List.filter_cons]

theorem scanDirectoriesLoop_ok (lower : String → String) (now : Nat) (fs : FileSystem) :
    ∀ (dirs : List String) (allTracks : List PersistentTrack),
      (∀ d ∈ dirs, ∀ v ∈ fs.walk d, v.err = none) →
      scanDirectoriesLoop lower now fs dirs allTracks =
        .ok (allTracks ++ (audioFiles lower fs dirs).filterMap (extracted lower now fs))
  | [], allTracks, _ => by simp [scanDirectoriesLoop, audioFiles]
  | d :: dirs, allTracks, h => by
    have hd := h d (List.mem_cons_self _ _)
    have ih := fun acc => scanDirectoriesLoop_ok lower now fs dirs acc
      (fun x hx => h x (List.mem_cons_of_mem _ hx))
    simp [scanDirectoriesLoop, scanDirectory, scanVisits_ok lower now fs _ [] hd, ih,
      audioFiles, List.filterMap_append]

theorem countFilesLoop_ok (lower : String → String) (fs : FileSystem) :
    ∀ (dirs : List String) (count : Int),
      (∀ d ∈ dirs, ∀ v ∈ fs.walk d, v.err = none) →
      countFilesLoop lower fs dirs count = .ok (count + (audioFiles lower fs dirs).length)
  | [], count, _ => by simp [countFilesLoop, audioFiles]
  | d :: dirs, count, h => by
    have hd := h d (List.mem_cons_self _ _)
    have ih := fun c => countFilesLoop_ok lower fs dirs c
      (fun x hx => h x (List.mem_cons_of_mem _ hx))
    simp [countFilesLoop, countVisits_ok lower _ count hd, ih, audioFiles]
    omega

/-- When every directory can be walked, `ScanDirectories` returns the tracks
of the audio files whose extraction succeeds, in traversal order. -/
theorem ScanDirectories_ok (lower : String → String) (now : Nat) (fs : FileSystem)
    (dirs : List String) (hwalk : ∀ d ∈ dirs, ∀ v ∈ fs.walk d, v.err = none) :
    ScanDirectories lower now fs dirs =
      .ok ((audioFiles lower fs dirs).filterMap (extracted lower now fs)) := by
  simp [ScanDirectories, scanDirectoriesLoop_ok lower now fs dirs [] hwalk]

theorem length_filterMap_add {α β : Type} (f : α → Option β) (l : List α) :
    (l.filterMap f).length + (l.filter (fun x => (f x).isNone)).length = l.length := by
  induction l with
  | nil => rfl
  | cons a l ih =>
    cases h : f a with
    | none => simp [List.filterMap_cons, List.filter_cons, h]; omega
    | some b => simp [List.filterMap_cons, List.filter_cons, h]; omega

/-- C15: when the walk of every configured directory meets no error,
`ScanDirectories` returns no error and returns, in traversal order, the track
of each audio file whose extraction succeeds; `CountFiles` returns the number
N of audio files, and with M of them failing extraction the result has N - M
tracks. -/
theorem ScanDirectories_skips_failed_files (lower : String → String) (now : Nat)
    (fs : FileSystem) (dirs : List String)
    (hwalk : ∀ d ∈ dirs, ∀ v ∈ fs.walk d, v.err = none) :
    ∃ (tracks : List PersistentTrack) (n : Nat),
      ScanDirectories lower now fs dirs = .ok tracks ∧
      CountFiles lower fs dirs = .ok (n : Int) ∧
      tracks = (audioFiles lower fs dirs).filterMap (extracted lower now fs) ∧
      n = (audioFiles lower fs dirs).length ∧
      tracks.length =
        n - ((audioFiles lower fs dirs).filter
          (fun path => (extracted lower now fs path).isNone)).length := by
  refine ⟨_, _, ScanDirectories_ok lower now fs dirs hwalk, ?_, rfl, rfl, ?_⟩
  · simp [CountFiles, countFilesLoop_ok lower fs dirs 0 hwalk]
  · have := length_filterMap_add (extracted lower now fs) (audioFiles lower fs dirs)
    omega

/-- Witness for C15: the music directory of `demoFS`, with three audio files of
which one cannot be read. -/
theorem ScanDirectories_skips_failed_files_witness :
    (∀ d ∈ ["/music"], ∀ v ∈ demoFS.walk d, v.err = none) ∧
    ∃ (tracks : List PersistentTrack) (n : Nat),
      ScanDirectories asciiLower 1 demoFS ["/music"] = .ok tracks ∧
      CountFiles asciiLower demoFS ["/music"] = .ok (n : Int) ∧
      tracks = (audioFiles asciiLower demoFS ["/music"]).filterMap
        (extracted asciiLower 1 demoFS) ∧
      n = (audioFiles asciiLower demoFS ["/music"]).length ∧
      tracks.length =
        n - ((audioFiles asciiLower demoFS ["/music"]).filter
          (fun path => (extracted asciiLower 1 demoFS path).isNone)).length :=
  ⟨by decide, ScanDirectories_skips_failed_files asciiLower 1 demoFS ["/music"] (by decide)⟩

/-- `AddTrack` touches no table other than artists, albums and tracks. -/
theorem AddTrack_tables_other (lower : String → String) (now : Nat) (s : Store)
    (track : PersistentTrack) (m : String) (h1 : m ≠ "artists") (h2 : m ≠ "albums")
    (h3 : m ≠ "tracks") : (AddTrack lower now s track).2.tables m = s.tables m := by
  obtain ⟨-, -, hA2, -, -⟩ := getOrCreateArtist_effect lower now s track.ArtistName
  unfold AddTrack
  cases hgA : getOrCreateArtist lower now s track.ArtistName with
  | mk rA sA =>
    rw [hgA] at hA2
    simp only at hA2
    cases rA with
    | error e => exact hA2 m h1
    | ok artistID =>
      dsimp only
      cases hgB : getOrCreateAlbum lower now sA track.AlbumName track.AlbumArtistName
          track.ImagePath artistID with
      | mk rB sB =>
        obtain ⟨-, -, hB2, -, -⟩ := getOrCreateAlbum_effect _ _ _ _ _ _ _ _ _ hgB
        cases rB with
        | error e =>
          dsimp only
          rw [hB2 m h2, hA2 m h1]
        | ok albumID =>
          dsimp only
          split
          · dsimp only
            rw [hB2 m h2, hA2 m h1]
          · rename_i trackID s3 hins
            obtain ⟨tb, -, -, -, hs3⟩ := insertInto_eq_some _ _ _ _ _ _ hins
            dsimp only
            rw [hs3, tables_setTable_other _ _ m _ h3, hB2 m h2, hA2 m h1]

theorem addTracks_tables_other (lower : String → String) (now : Nat) (m : String)
    (h1 : m ≠ "artists") (h2 : m ≠ "albums") (h3 : m ≠ "tracks") :
    ∀ (tracks : List PersistentTrack) (s : Store),
      (addTracks lower now s tracks).tables m = s.tables m
  | [], _ => rfl
  | t :: ts, s => by
    rw [addTracks, addTracks_tables_other lower now m h1 h2 h3 ts,
      AddTrack_tables_other lower now s t m h1 h2 h3]

theorem filter_id_map (upd : Row → Row) (hid : ∀ r, (upd r).id = r.id) (rows : List Row)
    (t : Int) :
    (rows.map upd).filter (fun r => decide (r.id = t)) =
      (rows.filter (fun r => decide (r.id = t))).map upd := by
  rw [List.filter_map]
  congr 1
  apply List.filter_congr
  intro x _
  simp [hid x]

/-- On a store that holds the LibraryState row, `SetInit true` makes `GetInit`
return true. -/
theorem GetInit_SetInit_true (now : Nat) (s : Store)
    (hcols : s.hasColumns "library_data" ["init", "id", "updated_at"] = true)
    (hrow : ∃ r ∈ s.rowsOf "library_data", r.id = 1) :
    GetInit (SetInit now s true).2 = .ok true := by
  obtain ⟨tb, htb, hc⟩ := hasColumns_eq_true _ _ _ hcols
  rw [rowsOf_of_tables s _ tb htb] at hrow
  simp only [List.all_cons, List.all_nil, Bool.and_true, Bool.and_eq_true] at hc
  obtain ⟨c1, c2, c3⟩ := hc
  have hupd := updateWhere_of_cols s "library_data" ["id"]
    [("init", fun _ => ofBool true), ("updated_at", fun _ => .time now)]
    (fun r => decide (r.id = 1)) tb htb (by simp [c2]) (by simp [c1, c3])
  have e : SetInit now s true = (none, s.setTable "library_data"
      { tb with rows := tb.rows.map (fun r =>
          if decide (r.id = 1) then
            { r with get := fun c => match [("init", fun (_ : Row) => ofBool true),
                ("updated_at", fun (_ : Row) => Value.time now)].lookup c with
                                     | some e => e r
                                     | none => r.get c }
          else r) }) := by
    simp only [SetInit, hupd]
  rw [e]
  generalize hu : (fun (r : Row) =>
          if decide (r.id = 1) then
            ({ r with get := fun c => match [("init", fun (_ : Row) => ofBool true),
                ("updated_at", fun (_ : Row) => Value.time now)].lookup c with
                                     | some e => e r
                                     | none => r.get c } : Row)
          else r) = upd
  have hid : ∀ r, (upd r).id = r.id := by
    intro r
    rw [← hu]
    by_cases hr : r.id = 1 <;> simp [hr]
  obtain ⟨r0, hr0, hr0id⟩ := hrow
  have hne : tb.rows.filter (fun r => decide (r.id = 1)) ≠ [] := by
    intro hnil
    have : r0 ∈ tb.rows.filter (fun r => decide (r.id = 1)) :=
      List.mem_filter.mpr ⟨hr0, by simpa using hr0id⟩
    rw [hnil] at this
    cases this
  cases hf : tb.rows.filter (fun r => decide (r.id = 1)) with
  | nil => exact absurd hf hne
  | cons r1 rest =>
    have hr1 : r1.id = 1 := by
      have : r1 ∈ tb.rows.filter (fun r => decide (r.id = 1)) := by
        rw [hf]; exact List.mem_cons_self _ _
      simpa using (List.mem_filter.mp this).2
    have hsel := selectWhere_of_cols (s.setTable "library_data"
      { tb with rows := tb.rows.map upd }) "library_data" ["init", "id"]
      (fun r => decide (r.id = 1)) { tb with rows := tb.rows.map upd } (by simp)
      (by simp only [List.all_cons, List.all_nil, Bool.and_true, Bool.and_eq_true]
          exact ⟨c1, c2⟩)
    simp only [filter_id_map upd hid, hf, List.map_cons] at hsel
    have hinit : (upd r1).get "init" = .int 1 := by
      rw [← hu]; simp [hr1, List.lookup, ofBool]
    simp only [GetInit, hsel, hinit, scanBool]

/-- C18: on a store that holds the LibraryState row with the flag false, the
body of `InitializeLibrary` leaves the flag true when `GetDirectories` and the
scan return without error (for `ScanDirectories`: whenever every directory can
be walked, whatever files fail extraction), and leaves it false when
`GetDirectories` or the scan returns an error. -/
theorem initializeLibraryBody_flag (lower : String → String) (now : Nat)
    (scan : List String → Except Error (List PersistentTrack)) (fs : FileSystem) (s : Store)
    (hcols : s.hasColumns "library_data" ["init", "id", "updated_at"] = true)
    (hrow : ∃ r ∈ s.rowsOf "library_data", r.id = 1)
    (h0 : GetInit s = .ok false) :
    (∀ dirs tracks, GetDirectories s = .ok dirs → scan dirs = .ok tracks →
      GetInit (initializeLibraryBody lower now scan s) = .ok true) ∧
    (∀ dirs, GetDirectories s = .ok dirs → (∀ d ∈ dirs, ∀ v ∈ fs.walk d, v.err = none) →
      GetInit (initializeLibraryBody lower now (ScanDirectories lower now fs) s) = .ok true) ∧
    (∀ e, GetDirectories s = .error e →
      GetInit (initializeLibraryBody lower now scan s) = .ok false) ∧
    (∀ dirs e, GetDirectories s = .ok dirs → scan dirs = .error e →
      GetInit (initializeLibraryBody lower now scan s) = .ok false) := by
  have key : ∀ (sc : List String → Except Error (List PersistentTrack)) dirs tracks,
      GetDirectories s = .ok dirs → sc dirs = .ok tracks →
      GetInit (initializeLibraryBody lower now sc s) = .ok true := by
    intro sc dirs tracks hd hs
    have ht := addTracks_tables_other lower now "library_data" (by decide) (by decide)
      (by decide) tracks s
    simp only [initializeLibraryBody, hd, hs]
    apply GetInit_SetInit_true
    · simpa [Store.hasColumns, ht] using hcols
    · simpa [Store.rowsOf, ht] using hrow
  refine ⟨key scan, ?_, ?_, ?_⟩
  · intro dirs hd hwalk
    exact key _ dirs _ hd (ScanDirectories_ok lower now fs dirs hwalk)
  · intro e hd
    simp only [initializeLibraryBody, hd, h0]
  · intro dirs e hd hs
    simp only [initializeLibraryBody, hd, hs, h0]

/-- Witness for C18: the fresh store with the music directory of `demoFS`. -/
theorem initializeLibraryBody_flag_witness :
    musicStore.hasColumns "library_data" ["init", "id", "updated_at"] = true ∧
    (∃ r ∈ musicStore.rowsOf "library_data", r.id = 1) ∧
    GetInit musicStore = .ok false ∧
    ((∀ dirs tracks, GetDirectories musicStore = .ok dirs →
      ScanDirectories asciiLower 2 demoFS dirs = .ok tracks →
      GetInit (initializeLibraryBody asciiLower 2 (ScanDirectories asciiLower 2 demoFS)
        musicStore) = .ok true) ∧
    (∀ dirs, GetDirectories musicStore = .ok dirs →
      (∀ d ∈ dirs, ∀ v ∈ demoFS.walk d, v.err = none) →
      GetInit (initializeLibraryBody asciiLower 2 (ScanDirectories asciiLower 2 demoFS)
        musicStore) = .ok true) ∧
    (∀ e, GetDirectories musicStore = .error e →
      GetInit (initializeLibraryBody asciiLower 2 (ScanDirectories asciiLower 2 demoFS)
        musicStore) = .ok false) ∧
    (∀ dirs e, GetDirectories musicStore = .ok dirs →
      ScanDirectories asciiLower 2 demoFS dirs = .error e →
      GetInit (initializeLibraryBody asciiLower 2 (ScanDirectories asciiLower 2 demoFS)
        musicStore) = .ok false)) :=
  ⟨by decide, by decide, rfl,
   initializeLibraryBody_flag asciiLower 2 (ScanDirectories asciiLower 2 demoFS) demoFS
     musicStore (by decide) (by decide) rfl⟩

/-! ## Theorems: the track listings -/

theorem Value.le_total (a b : Value) : Value.le a b = true ∨ Value.le b a = true := by
  cases a <;> cases b <;> simp only [Value.le, Value.rank, decide_eq_true_eq] <;>
    first
      | exact le_total _ _
      | exact lexLe_total _ _
      | omega

theorem Value.le_trans (a b c : Value) (h1 : Value.le a b = true) (h2 : Value.le b c = true) :
    Value.le a c = true := by
  cases a <;> cases b <;> cases c <;>
    simp only [Value.le, Value.rank, decide_eq_true_eq] at h1 h2 ⊢ <;>
    first
      | omega
      | exact lexLe_trans _ _ _ h1 h2

theorem orderBy_total (keys : List String) (a b : Row) :
    orderBy keys a b = true ∨ orderBy keys b a = true := by
  induction keys with
  | nil => simp [orderBy]
  | cons k ks ih =>
    simp only [orderBy]
    rcases Value.le_total (a.get k) (b.get k) with h | h
    · by_cases h1 : Value.le (b.get k) (a.get k) = true
      · simpa [h, h1] using ih
      · simp [h, h1]
    · by_cases h1 : Value.le (a.get k) (b.get k) = true
      · simpa [h, h1] using ih
      · simp [h, h1]

theorem orderBy_trans (keys : List String) (a b c : Row) (h1 : orderBy keys a b = true)
    (h2 : orderBy keys b c = true) : orderBy keys a c = true := by
  induction keys with
  | nil => simp [orderBy]
  | cons k ks ih =>
    simp only [orderBy] at h1 h2 ⊢
    have t1 := Value.le_trans (a.get k) (b.get k) (c.get k)
    have t2 := Value.le_trans (c.get k) (a.get k) (b.get k)
    have t3 := Value.le_trans (b.get k) (c.get k) (a.get k)
    by_cases xy : Value.le (a.get k) (b.get k) = true
    · by_cases yz : Value.le (b.get k) (c.get k) = true
      · have xz := t1 xy yz
        by_cases zx : Value.le (c.get k) (a.get k) = true
        · have zy := t2 zx xy
          have yx := t3 yz zx
          simp only [xy, yx, yz, zy, if_true] at h1 h2
          simp only [xz, zx, if_true]
          exact ih h1 h2
        · simp [xz, zx]
      · simp [yz] at h2
    · simp [xy] at h1

theorem scanTracks_eq_ok : ∀ (rs : List Row) (l : List PersistentTrack),
    scanTracks rs = .ok l ↔ List.Forall₂ (fun r t => scanTrack r = .ok t) rs l
  | [], l => by
    cases l <;> simp [scanTracks]
  | r :: rs, l => by
    have ih := scanTracks_eq_ok rs
    unfold scanTracks
    cases hr : scanTrack r with
    | error e =>
      simp only []
      constructor
      · intro h; cases h
      · intro h
        cases h with
        | cons h1 _ => rw [hr] at h1; cases h1
    | ok t =>
      simp only []
      cases hrs : scanTracks rs with
      | error e =>
        simp only []
        constructor
        · intro h; cases h
        · intro h
          cases h with
          | cons _ h2 =>
            rw [← ih, hrs] at h2
            cases h2
      | ok ts =>
        simp only []
        constructor
        · intro h
          simp only [Except.ok.injEq] at h
          subst h
          exact List.Forall₂.cons hr ((ih ts).mp hrs)
        · intro h
          cases h with
          | cons h1 h2 =>
            rw [hr] at h1
            simp only [Except.ok.injEq] at h1
            subst h1
            rw [← ih, hrs] at h2
            simp only [Except.ok.injEq] at h2
            subst h2
            rfl

/-- What a listing returns: the scan of the matching rows sorted by the keys. -/
theorem sorted_listing (keys : List String) (rows : List Row) :
    (rows.insertionSort (fun a b => orderBy keys a b = true)).Perm rows ∧
    (rows.insertionSort (fun a b => orderBy keys a b = true)).Pairwise
      (fun a b => orderBy keys a b = true) := by
  haveI : IsTotal Row (fun a b => orderBy keys a b = true) := ⟨orderBy_total keys⟩
  haveI : IsTrans Row (fun a b => orderBy keys a b = true) := ⟨orderBy_trans keys⟩
  exact ⟨List.perm_insertionSort _ rows, List.sorted_insertionSort _ rows⟩

/-- On a store whose tracks table has its columns, `GetTracks` returns the
scan of all Track rows ordered by artist name, album name and track number;
`GetTracksByAlbumID` the scan of the rows with that album id ordered by track
number and title; `GetTracksByArtistID` the scan of the rows with that artist
id ordered by album name, track number and title.  In each case the rows
scanned are a permutation of the matching rows, and a scan that succeeds
returns one track per row, in the order of the rows. -/
theorem listings_by_their_order (s : Store) (albumID artistID : Int)
    (hcols : s.hasColumns "tracks" trackColumns = true) :
    (∃ rs, rs.Perm (s.rowsOf "tracks") ∧
      rs.Pairwise (fun a b => orderBy ["artist_name", "album_name", "track_number"] a b = true) ∧
      GetTracks s = scanTracks rs) ∧
    (∃ rs, rs.Perm ((s.rowsOf "tracks").filter
        (fun r => sqlEq (r.get "album_id") (.int albumID))) ∧
      rs.Pairwise (fun a b => orderBy ["track_number", "title"] a b = true) ∧
      GetTracksByAlbumID s albumID = scanTracks rs) ∧
    (∃ rs, rs.Perm ((s.rowsOf "tracks").filter
        (fun r => sqlEq (r.get "artist_id") (.int artistID))) ∧
      rs.Pairwise (fun a b => orderBy ["album_name", "track_number", "title"] a b = true) ∧
      GetTracksByArtistID s artistID = scanTracks rs) ∧
    (∀ rs l, scanTracks rs = .ok l ↔ List.Forall₂ (fun r t => scanTrack r = .ok t) rs l) := by
  obtain ⟨tb, htb, hc⟩ := hasColumns_eq_true _ _ _ hcols
  rw [rowsOf_of_tables s _ tb htb]
  refine ⟨?_, ?_, ?_, scanTracks_eq_ok⟩
  · refine ⟨tb.rows.insertionSort
      (fun a b => orderBy ["artist_name", "album_name", "track_number"] a b = true),
      (sorted_listing _ _).1, (sorted_listing _ _).2, ?_⟩
    simp only [GetTracks, selectWhere_of_cols s "tracks" trackColumns _ tb htb hc,
      List.filter_true]
  · refine ⟨_, (sorted_listing _ _).1, (sorted_listing _ _).2, ?_⟩
    simp only [GetTracksByAlbumID, selectWhere_of_cols s "tracks" trackColumns _ tb htb hc]
  · refine ⟨_, (sorted_listing _ _).1, (sorted_listing _ _).2, ?_⟩
    simp only [GetTracksByArtistID, selectWhere_of_cols s "tracks" trackColumns _ tb htb hc]

/-! ## Theorems: input validation -/

theorem IsAbs_ne_empty (p : String) (hp : IsAbs p = true) : p ≠ "" := by
  intro h
  subst h
  simp [IsAbs] at hp

/-- C22: for an absolute path `p`, `ValidateFilePath p` returns nil exactly
when `p` is non-empty and contains none of "..", "~", "//", two backslashes,
"/./" and backslash-dot-backslash; otherwise it returns the first error that
applies, in the order "path cannot be empty", "path traversal not allowed",
"home directory references not allowed", "suspicious path pattern detected";
and `ValidateDirectory p` returns what `ValidateFilePath p` returns. -/
theorem ValidateFilePath_absolute (abs : String → Except Error String) (p : String)
    (hp : IsAbs p = true) :
    (ValidateFilePath abs p = none ↔
      p ≠ "" ∧ Contains p ".." = false ∧ Contains p "~" = false ∧ Contains p "//" = false ∧
      Contains p "\\\\" = false ∧ Contains p "/./" = false ∧ Contains p "\\.\\" = false) ∧
    (Contains p ".." = true →
      ValidateFilePath abs p = some (.errorf "path traversal not allowed")) ∧
    (Contains p ".." = false → Contains p "~" = true →
      ValidateFilePath abs p = some (.errorf "home directory references not allowed")) ∧
    (Contains p ".." = false → Contains p "~" = false →
      (Contains p "//" = true ∨ Contains p "\\\\" = true ∨ Contains p "/./" = true ∨
        Contains p "\\.\\" = true) →
      ValidateFilePath abs p = some (.errorf "suspicious path pattern detected")) ∧
    ValidateFilePath abs "" = some (.errorf "path cannot be empty") ∧
    ValidateDirectory abs p = ValidateFilePath abs p := by
  have hne := IsAbs_ne_empty p hp
  refine ⟨?_, ?_, ?_, ?_, ?_, ?_⟩
  · cases h1 : Contains p ".." <;> cases h2 : Contains p "~" <;>
      cases a : Contains p "//" <;> cases b : Contains p "\\\\" <;>
      cases c : Contains p "/./" <;> cases d : Contains p "\\.\\" <;>
      simp [ValidateFilePath, hne, hp, h1, h2, a, b, c, d]
  · intro h1
    simp [ValidateFilePath, hne, h1]
  · intro h1 h2
    simp [ValidateFilePath, hne, hp, h1, h2]
  · intro h1 h2 h3
    simp only [ValidateFilePath, hne, hp, h1, h2, if_true, if_false, List.any_cons,
      List.any_nil, Bool.or_false, Bool.or_eq_true]
    simp only [Bool.false_eq_true, if_false]
    rw [if_pos]
    rcases h3 with h | h | h | h
    · exact Or.inl h
    · exact Or.inr (Or.inl h)
    · exact Or.inr (Or.inr (Or.inl h))
    · exact Or.inr (Or.inr (Or.inr h))
  · simp [ValidateFilePath]
  · simp only [ValidateDirectory, hp]
    cases ValidateFilePath abs p <;> simp

/-- Witness for C22: the valid path of the test suite. -/
theorem ValidateFilePath_absolute_witness :
    IsAbs "/home/user/music/song.mp3" = true ∧
    ((ValidateFilePath (fun p => .ok p) "/home/user/music/song.mp3" = none ↔
      "/home/user/music/song.mp3" ≠ "" ∧
      Contains "/home/user/music/song.mp3" ".." = false ∧
      Contains "/home/user/music/song.mp3" "~" = false ∧
      Contains "/home/user/music/song.mp3" "//" = false ∧
      Contains "/home/user/music/song.mp3" "\\\\" = false ∧
      Contains "/home/user/music/song.mp3" "/./" = false ∧
      Contains "/home/user/music/song.mp3" "\\.\\" = false) ∧
    (Contains "/home/user/music/song.mp3" ".." = true →
      ValidateFilePath (fun p => .ok p) "/home/user/music/song.mp3" =
        some (.errorf "path traversal not allowed")) ∧
    (Contains "/home/user/music/song.mp3" ".." = false →
      Contains "/home/user/music/song.mp3" "~" = true →
      ValidateFilePath (fun p => .ok p) "/home/user/music/song.mp3" =
        some (.errorf "home directory references not allowed")) ∧
    (Contains "/home/user/music/song.mp3" ".." = false →
      Contains "/home/user/music/song.mp3" "~" = false →
      (Contains "/home/user/music/song.mp3" "//" = true ∨
        Contains "/home/user/music/song.mp3" "\\\\" = true ∨
        Contains "/home/user/music/song.mp3" "/./" = true ∨
        Contains "/home/user/music/song.mp3" "\\.\\" = true) →
      ValidateFilePath (fun p => .ok p) "/home/user/music/song.mp3" =
        some (.errorf "suspicious path pattern detected")) ∧
    ValidateFilePath (fun p => .ok p) "" = some (.errorf "path cannot be empty") ∧
    ValidateDirectory (fun p => .ok p) "/home/user/music/song.mp3" =
      ValidateFilePath (fun p => .ok p) "/home/user/music/song.mp3") :=
  ⟨by decide,
   ValidateFilePath_absolute (fun p => .ok p) "/home/user/music/song.mp3" (by decide)⟩

/-- C23: `ValidateSearchQuery q` returns nil exactly when `q` has between 1 and
1000 bytes and the lower-cased `q` contains none of the patterns; a `q` of no
bytes yields "search query cannot be empty", a `q` of more than 1000 bytes
"search query too long", and every other rejected `q` "invalid characters in
search query". -/
theorem ValidateSearchQuery_spec (lower : String → String) (q : String) :
    (ValidateSearchQuery lower q = none ↔
      1 ≤ q.utf8ByteSize ∧ q.utf8ByteSize ≤ 1000 ∧
      ∀ pattern ∈ sqlPatterns, Contains (lower q) pattern = false) ∧
    (q.utf8ByteSize = 0 →
      ValidateSearchQuery lower q = some (.errorf "search query cannot be empty")) ∧
    ValidateSearchQuery lower "" = some (.errorf "search query cannot be empty") ∧
    (1000 < q.utf8ByteSize →
      ValidateSearchQuery lower q = some (.errorf "search query too long")) ∧
    (1 ≤ q.utf8ByteSize → q.utf8ByteSize ≤ 1000 →
      (∃ pattern ∈ sqlPatterns, Contains (lower q) pattern = true) →
      ValidateSearchQuery lower q = some (.errorf "invalid characters in search query")) := by
  refine ⟨?_, ?_, ?_, ?_, ?_⟩
  · unfold ValidateSearchQuery
    by_cases h0 : q.utf8ByteSize = 0
    · simp [h0]
    · by_cases h1 : q.utf8ByteSize > 1000
      · simp only [h0, h1, if_true, if_false]
        constructor
        · intro h; cases h
        · rintro ⟨-, h, -⟩; omega
      · simp only [h0, h1, if_false]
        by_cases h2 : sqlPatterns.any (fun pattern => Contains (lower q) pattern) = true
        · simp only [h2, if_true]
          constructor
          · intro h; cases h
          · rintro ⟨-, -, h⟩
            rw [List.any_eq_true] at h2
            obtain ⟨pat, hpat, hc⟩ := h2
            rw [h pat hpat] at hc
            cases hc
        · have h2f : sqlPatterns.any (fun pattern => Contains (lower q) pattern) = false := by
            simpa using h2
          rw [h2f]
          simp only [Bool.false_eq_true, if_false, true_iff]
          refine ⟨by omega, by omega, ?_⟩
          intro pat hpat
          rw [List.any_eq_true] at h2
          cases hc : Contains (lower q) pat with
          | false => rfl
          | true => exact absurd ⟨pat, hpat, hc⟩ h2
  · intro h0
    simp [ValidateSearchQuery, h0]
  · rfl
  · intro h1
    have h0 : q.utf8ByteSize ≠ 0 := by omega
    simp [ValidateSearchQuery, h0, h1]
  · intro h0 h1 h2
    have h0' : q.utf8ByteSize ≠ 0 := by omega
    have h1' : ¬ q.utf8ByteSize > 1000 := by omega
    have h2' : sqlPatterns.any (fun pattern => Contains (lower q) pattern) = true := by
      rw [List.any_eq_true]
      exact h2
    simp only [ValidateSearchQuery, h0', h1', h2', if_true, if_false]

/-- C24: `SanitizeInput` of a control character, a space and the letter a
returns the space and the letter: the white space is trimmed before the
control characters are removed, so the result begins with white space. -/
theorem SanitizeInput_leaves_leading_space :
    SanitizeInput (String.mk [Char.ofNat 1, ' ', 'a']) = " a" ∧
    (SanitizeInput (String.mk [Char.ofNat 1, ' ', 'a'])).data.head?.map isSpace = some true ∧
    SanitizeInput (String.mk ['a', ' ', Char.ofNat 1]) = "a " := by
  decide

/-! ## Theorems: lyrics text, album rows, the challenge -/

/-- C27: `stripTimestamp` returns its input unchanged, timestamp tags
included, and so does the plain text `convertResponse` derives from synced
lyrics. -/
theorem stripTimestamp_keeps_timestamps :
    (∀ s, stripTimestamp s = s) ∧
    stripTimestamp "[00:12.34]Hello" = "[00:12.34]Hello" ∧
    Contains (stripTimestamp "[00:12.34]Hello") "[00:12.34]" = true ∧
    convertResponse
      { PlainLyrics := none, SyncedLyrics := some "[00:12.34]Hello", Instrumental := false,
        Lang := none, Isrc := none, SpotifyID := none, Name := none, AlbumName := none,
        ArtistName := none, ReleaseDate := none, Duration := none } =
      .SyncedLyrics "[00:12.34]Hello" "[00:12.34]Hello" := by
  refine ⟨fun _ => rfl, rfl, by decide, by decide⟩

/-- C28: the Album row `AddTrack` creates on the fresh store for a track of
"Artist X" has the empty string as `artist_name`. -/
theorem AddTrack_album_artist_name_empty :
    (candidate "Artist X" "Album Y" "one").ArtistName = "Artist X" ∧
    (oneTrackStore.rowsOf "albums").map (fun r => (r.get "name", r.get "artist_name")) =
      [(.text "Album Y", .text "")] ∧
    (oneTrackStore.rowsOf "tracks").map (fun r => (r.get "artist_name", r.get "album_id")) =
      [(.text "Artist X", .int 1)] := by
  decide

/-- C29: on two byte strings of length 32 that differ only in the last byte,
5 against 3, `verifyNonce` returns true although the first is greater: the
loop stops before the last index. -/
theorem verifyNonce_ignores_last_byte :
    (List.replicate 31 0 ++ [5]).length = (List.replicate 31 0 ++ [3]).length ∧
    verifyNonce (List.replicate 31 0 ++ [5]) (List.replicate 31 0 ++ [3]) = true ∧
    bytesLe (List.replicate 31 0 ++ [5]) (List.replicate 31 0 ++ [3]) = false := by
  decide

/-! ## Theorems: the configuration -/

/-- A row scans into the configuration `c` exactly when its id and its cells
are those of `c`. -/
theorem scanConfig_eq_ok (r : Row) (c : PersistentConfig) :
    scanConfig r = .ok c ↔
      (r.id = c.ID ∧
       r.get "skip_tracks_with_synced_lyrics" = ofBool c.SkipTracksWithSyncedLyrics ∧
       r.get "skip_tracks_with_plain_lyrics" = ofBool c.SkipTracksWithPlainLyrics ∧
       r.get "show_line_count" = ofBool c.ShowLineCount ∧
       r.get "try_embed_lyrics" = ofBool c.TryEmbedLyrics ∧
       r.get "theme_mode" = .text c.ThemeMode ∧
       r.get "lrclib_instance" = .text c.LrclibInstance ∧
       r.get "created_at" = .time c.CreatedAt ∧ r.get "updated_at" = .time c.UpdatedAt) := by
  cases c
  simp only [scanConfig, bind_eq_ok, scanString_eq_ok, scanTime_eq_ok, scanBool_eq_ok, pure,
    Except.pure, Except.ok.injEq, PersistentConfig.mk.injEq]
  constructor
  · rintro ⟨_, h1, _, h2, _, h3, _, h4, _, h5, _, h6, _, h7, _, h8, e⟩
    obtain ⟨e0, e1, e2, e3, e4, e5, e6, e7, e8⟩ := e
    subst e1 e2 e3 e4 e5 e6 e7 e8
    exact ⟨e0, h1, h2, h3, h4, h5, h6, h7, h8⟩
  · rintro ⟨e0, h1, h2, h3, h4, h5, h6, h7, h8⟩
    exact ⟨_, h1, _, h2, _, h3, _, h4, _, h5, _, h6, _, h7, _, h8,
      e0, rfl, rfl, rfl, rfl, rfl, rfl, rfl, rfl⟩

/-- C21: on a store that holds the Config row (id 1) and on which `GetConfig`
succeeds, `UpdateConfig c` with `c.ID = 1` succeeds, and `GetConfig` then
returns `c` with the row's creation time and the time of the update: the
skip-synced, skip-plain, show-line-count, try-embed, theme-mode and
provider-URL fields are those of `c`. -/
theorem UpdateConfig_read_back (now0 now now2 : Nat) (s : Store) (c c0 : PersistentConfig)
    (h0 : GetConfig now0 s = .ok c0)
    (hrow : ∃ r ∈ s.rowsOf "config_data", r.id = 1)
    (hid : c.ID = 1) :
    (UpdateConfig now s c).1 = none ∧
    GetConfig now2 (UpdateConfig now s c).2 =
      .ok { c with CreatedAt := c0.CreatedAt, UpdatedAt := now } := by
  -- what the successful GetConfig says
  unfold GetConfig at h0
  cases hsel : selectWhere s "config_data" configColumns (fun r => decide (r.id = 1)) with
  | none => rw [hsel] at h0; cases h0
  | some l =>
    obtain ⟨tb, htb, hc, hl⟩ := selectWhere_eq_some _ _ _ _ _ hsel
    rw [rowsOf_of_tables s _ tb htb] at hrow
    obtain ⟨r0, hr0, hr0id⟩ := hrow
    have hmem : r0 ∈ l := by
      rw [hl]; exact List.mem_filter.mpr ⟨hr0, by simpa using hr0id⟩
    cases l with
    | nil => cases hmem
    | cons r rest =>
      rw [hsel] at h0
      simp only at h0
      have hscan : scanConfig r = .ok c0 := by
        cases hs : scanConfig r with
        | error e => rw [hs] at h0; cases h0
        | ok c1 => rw [hs] at h0; simpa using h0
      have hr1 : r.id = 1 := by
        have : r ∈ tb.rows.filter (fun r => decide (r.id = 1)) := by
          rw [← hl]; exact List.mem_cons_self _ _
        simpa using (List.mem_filter.mp this).2
      have hcc := hc
      simp only [configColumns, List.all_cons, List.all_nil, Bool.and_true,
        Bool.and_eq_true] at hcc
      obtain ⟨k0, k1, k2, k3, k4, k5, k6, k7, k8⟩ := hcc
      have hupd := updateWhere_of_cols s "config_data" ["id"]
        [("skip_tracks_with_synced_lyrics",
            fun (_ : Row) => ofBool c.SkipTracksWithSyncedLyrics),
         ("skip_tracks_with_plain_lyrics", fun (_ : Row) => ofBool c.SkipTracksWithPlainLyrics),
         ("show_line_count", fun (_ : Row) => ofBool c.ShowLineCount),
         ("try_embed_lyrics", fun (_ : Row) => ofBool c.TryEmbedLyrics),
         ("theme_mode", fun (_ : Row) => Value.text c.ThemeMode),
         ("lrclib_instance", fun (_ : Row) => Value.text c.LrclibInstance),
         ("updated_at", fun (_ : Row) => Value.time now)]
        (fun r => decide (r.id = c.ID)) tb htb (by simp [k0])
        (by simp [k1, k2, k3, k4, k5, k6, k8])
      have e : UpdateConfig now s c = (none, s.setTable "config_data"
          { tb with rows := tb.rows.map (fun r =>
              if decide (r.id = c.ID) then
                { r with get := fun col => match [("skip_tracks_with_synced_lyrics",
                      fun (_ : Row) => ofBool c.SkipTracksWithSyncedLyrics),
                    ("skip_tracks_with_plain_lyrics",
                      fun (_ : Row) => ofBool c.SkipTracksWithPlainLyrics),
                    ("show_line_count", fun (_ : Row) => ofBool c.ShowLineCount),
                    ("try_embed_lyrics", fun (_ : Row) => ofBool c.TryEmbedLyrics),
                    ("theme_mode", fun (_ : Row) => Value.text c.ThemeMode),
                    ("lrclib_instance", fun (_ : Row) => Value.text c.LrclibInstance),
                    ("updated_at", fun (_ : Row) => Value.time now)].lookup col with
                                         | some e => e r
                                         | none => r.get col }
              else r) }) := by
        simp only [UpdateConfig, hupd]
      rw [e]
      generalize hu : (fun (r : Row) =>
              if decide (r.id = c.ID) then
                ({ r with get := fun col => match [("skip_tracks_with_synced_lyrics",
                      fun (_ : Row) => ofBool c.SkipTracksWithSyncedLyrics),
                    ("skip_tracks_with_plain_lyrics",
                      fun (_ : Row) => ofBool c.SkipTracksWithPlainLyrics),
                    ("show_line_count", fun (_ : Row) => ofBool c.ShowLineCount),
                    ("try_embed_lyrics", fun (_ : Row) => ofBool c.TryEmbedLyrics),
                    ("theme_mode", fun (_ : Row) => Value.text c.ThemeMode),
                    ("lrclib_instance", fun (_ : Row) => Value.text c.LrclibInstance),
                    ("updated_at", fun (_ : Row) => Value.time now)].lookup col with
                                         | some e => e r
                                         | none => r.get col } : Row)
              else r) = upd
      have hid1 : ∀ x, (upd x).id = x.id := by
        intro x
        rw [← hu]
        by_cases hx : x.id = c.ID <;> simp [hx]
      have hrc : r.id = c.ID := by rw [hr1, hid]
      refine ⟨rfl, ?_⟩
      have hsel1 := selectWhere_of_cols (s.setTable "config_data"
        { tb with rows := tb.rows.map upd }) "config_data" configColumns
        (fun r => decide (r.id = 1)) { tb with rows := tb.rows.map upd } (by simp) hc
      simp only [filter_id_map upd hid1, ← hl, List.map_cons] at hsel1
      have hscan1 : scanConfig (upd r) =
          .ok { c with CreatedAt := c0.CreatedAt, UpdatedAt := now } := by
        rw [scanConfig_eq_ok] at hscan ⊢
        obtain ⟨-, -, -, -, -, -, -, h7, -⟩ := hscan
        refine ⟨by rw [hid1]; exact hrc, ?_, ?_, ?_, ?_, ?_, ?_, ?_, ?_⟩
        all_goals (rw [← hu]; simp [hrc, List.lookup, h7])
      simp only [GetConfig, hsel1, hscan1]

/-- Witness for C21: the provider URL is changed on the fresh store. -/
theorem UpdateConfig_read_back_witness :
    GetConfig 5 freshStore = .ok freshConfig ∧
    (∃ r ∈ freshStore.rowsOf "config_data", r.id = 1) ∧
    ({ freshConfig with LrclibInstance := "https://test.lrclib.net" } : PersistentConfig).ID
      = 1 ∧
    ((UpdateConfig 7 freshStore
        { freshConfig with LrclibInstance := "https://test.lrclib.net" }).1 = none ∧
     GetConfig 9 (UpdateConfig 7 freshStore
        { freshConfig with LrclibInstance := "https://test.lrclib.net" }).2 =
       .ok { ({ freshConfig with LrclibInstance := "https://test.lrclib.net" } :
               PersistentConfig) with
             CreatedAt := freshConfig.CreatedAt, UpdatedAt := 7 }) :=
  ⟨rfl, by decide, rfl,
   UpdateConfig_read_back 5 7 9 freshStore
     { freshConfig with LrclibInstance := "https://test.lrclib.net" } freshConfig rfl
     (by decide) rfl⟩

/-! ## Theorems: migration step 5 -/

theorem exec_eq_ok (r : Option Store) (msg : String) (s1 : Store) :
    exec r msg = .ok s1 ↔ r = some s1 := by
  cases r <;> simp [exec]

theorem alterTableAdd_frame (s s1 : Store) (table column : String) (v : Value)
    (h : alterTableAdd s table column v = some s1) :
    s1.user_version = s.user_version ∧ ∀ m, m ≠ table → s1.tables m = s.tables m := by
  unfold alterTableAdd at h
  cases ht : s.tables table with
  | none => simp [ht] at h
  | some t =>
    simp only [ht] at h
    split at h
    · cases h
    · simp only [Option.some.injEq] at h
      subst h
      exact ⟨rfl, fun m hm => tables_setTable_other s _ m _ hm⟩

theorem createIndex_frame (s s1 : Store) (idx table column : String)
    (h : createIndex s idx table column = some s1) :
    s1.user_version = s.user_version ∧ ∀ m, s1.tables m = s.tables m := by
  unfold createIndex at h
  split at h
  · cases h
  · cases ht : s.tables table with
    | none => simp [ht] at h
    | some t =>
      simp only [ht] at h
      split at h
      · simp only [Option.some.injEq] at h
        subst h
        exact ⟨rfl, fun _ => rfl⟩
      · cases h

theorem deleteAll_frame (s s1 : Store) (table : String) (h : deleteAll s table = some s1) :
    s1.user_version = s.user_version ∧ (∀ m, m ≠ table → s1.tables m = s.tables m) ∧
    s1.rowsOf table = [] := by
  unfold deleteAll at h
  cases ht : s.tables table with
  | none => simp [ht] at h
  | some t =>
    simp only [ht, Option.some.injEq] at h
    subst h
    exact ⟨rfl, fun m hm => tables_setTable_other s _ m _ hm, by simp⟩

theorem updateWhere_frame (s s1 : Store) (table : String) (columns : List String)
    (sets : List (String × (Row → Value))) (p : Row → Bool)
    (h : updateWhere s table columns sets p = some s1) :
    s1.user_version = s.user_version ∧ (∀ m, m ≠ table → s1.tables m = s.tables m) ∧
    s1.rowsOf table = (s.rowsOf table).map (fun r =>
      if p r then
        { r with get := fun c => match sets.lookup c with
                                 | some e => e r
                                 | none => r.get c }
      else r) := by
  unfold updateWhere at h
  cases ht : s.tables table with
  | none => simp [ht] at h
  | some t =>
    simp only [ht] at h
    split at h
    · simp only [Option.some.injEq] at h
      subst h
      refine ⟨rfl, fun m hm => tables_setTable_other s _ m _ hm, ?_⟩
      rw [rowsOf_setTable_same, rowsOf_of_tables s _ t ht]
    · cases h

/-- C26: `migrateToVersion5` fails on every store whose tracks table already
has the column `track_number`, as the schema that `migrateToVersion1` creates
has: the first `ALTER TABLE` returns its error, the transaction is rolled
back and the store is left as it was.  On such a store at version 4 that
holds a track and is marked initialized, the track, the flag and version 4
remain. -/
theorem migrateToVersion5_fails_on_stale_store :
    (∀ s : Store, s.hasColumns "tracks" ["track_number"] = true →
      migrateToVersion5 s =
        (some (.wrap "failed to add track_number column" .engine), s)) ∧
    (∀ now, (migrateToVersion1 now blankDatabase).2.hasColumns "tracks" ["track_number"] =
      true) ∧
    staleVersion4Store.hasColumns "tracks" ["track_number"] = true ∧
    staleVersion4Store.user_version = 4 ∧
    (staleVersion4Store.rowsOf "tracks").length = 1 ∧
    GetInit staleVersion4Store = .ok true ∧
    (migrateToVersion5 staleVersion4Store).1 =
      some (.wrap "failed to add track_number column" .engine) ∧
    ((migrateToVersion5 staleVersion4Store).2.rowsOf "tracks").length = 1 ∧
    GetInit (migrateToVersion5 staleVersion4Store).2 = .ok true ∧
    (migrateToVersion5 staleVersion4Store).2.user_version = 4 := by
  refine ⟨?_, fun _ => rfl, rfl, rfl, by decide, rfl, rfl, by decide, rfl, rfl⟩
  intro s h
  obtain ⟨t, ht, hc⟩ := hasColumns_eq_true _ _ _ h
  simp only [List.all_cons, List.all_nil, Bool.and_true] at hc
  simp [migrateToVersion5, transaction, exec, pragmaUserVersion, alterTableAdd, ht, hc,
    bind, Except.bind]

/-- Whenever no statement of `migrateToVersion5` fails, the step leaves the
tracks, albums and artists tables empty, sets `init` to 0 in every
LibraryState row, so that `GetInit` cannot return true, and sets the
persisted version to 5. -/
theorem migrateToVersion5_effect (s : Store) (hok : (migrateToVersion5 s).1 = none) :
    (migrateToVersion5 s).2.rowsOf "tracks" = [] ∧
    (migrateToVersion5 s).2.rowsOf "albums" = [] ∧
    (migrateToVersion5 s).2.rowsOf "artists" = [] ∧
    (∀ r ∈ (migrateToVersion5 s).2.rowsOf "library_data", r.get "init" = .int 0) ∧
    (∀ b, GetInit (migrateToVersion5 s).2 = .ok b → b = false) ∧
    (migrateToVersion5 s).2.user_version = 5 := by
  unfold migrateToVersion5 transaction at hok ⊢
  split at hok
  · rename_i s1 hbody
    simp only [bind_eq_ok, exec_eq_ok, pure, Except.pure, Except.ok.injEq] at hbody
    obtain ⟨a1, h1, a2, h2, a3, h3, a4, h4, a5, h5, a6, h6, a7, h7, a8, h8, a9, h9,
      a10, h10, a11, h11, a12, h12, hfin⟩ := hbody
    subst hfin
    have v1 : a1.user_version = 5 := by
      simp only [pragmaUserVersion, Option.some.injEq] at h1
      rw [← h1]
    obtain ⟨v2, -⟩ := alterTableAdd_frame _ _ _ _ _ h2
    obtain ⟨v3, -⟩ := alterTableAdd_frame _ _ _ _ _ h3
    obtain ⟨v4, -⟩ := alterTableAdd_frame _ _ _ _ _ h4
    obtain ⟨v5, -⟩ := alterTableAdd_frame _ _ _ _ _ h5
    obtain ⟨v6, -⟩ := alterTableAdd_frame _ _ _ _ _ h6
    obtain ⟨v7, -⟩ := createIndex_frame _ _ _ _ _ h7
    obtain ⟨v8, -⟩ := createIndex_frame _ _ _ _ _ h8
    obtain ⟨v9, -, r9⟩ := deleteAll_frame _ _ _ h9
    obtain ⟨v10, t10, r10⟩ := deleteAll_frame _ _ _ h10
    obtain ⟨v11, t11, r11⟩ := deleteAll_frame _ _ _ h11
    obtain ⟨v12, t12, r12⟩ := updateWhere_frame _ _ _ _ _ _ h12
    have hinit : ∀ r ∈ a12.rowsOf "library_data", r.get "init" = .int 0 := by
      intro r hr
      rw [r12] at hr
      obtain ⟨r0, -, hr0⟩ := List.mem_map.mp hr
      rw [← hr0]
      simp [List.lookup]
    refine ⟨?_, ?_, ?_, hinit, ?_, ?_⟩
    · show a12.rowsOf "tracks" = []
      rw [rowsOf_eq_of_tables _ _ _ (t12 _ (by decide)),
        rowsOf_eq_of_tables _ _ _ (t11 _ (by decide)),
        rowsOf_eq_of_tables _ _ _ (t10 _ (by decide)), r9]
    · show a12.rowsOf "albums" = []
      rw [rowsOf_eq_of_tables _ _ _ (t12 _ (by decide)),
        rowsOf_eq_of_tables _ _ _ (t11 _ (by decide)), r10]
    · show a12.rowsOf "artists" = []
      rw [rowsOf_eq_of_tables _ _ _ (t12 _ (by decide)), r11]
    · intro b hb
      show b = false
      have hb1 : GetInit a12 = .ok b := hb
      unfold GetInit at hb1
      split at hb1
      · cases hb1
      · simpa using hb1.symm
      · rename_i r rest hsel
        obtain ⟨tb, htb, -, hl⟩ := selectWhere_eq_some _ _ _ _ _ hsel
        have hr : r ∈ a12.rowsOf "library_data" := by
          rw [rowsOf_of_tables _ _ tb htb]
          have : r ∈ tb.rows.filter (fun r => decide (r.id = 1)) := by
            rw [← hl]; exact List.mem_cons_self _ _
          exact (List.mem_filter.mp this).1
        rw [hinit r hr] at hb1
        simpa [scanBool] using hb1.symm
    · show a12.user_version = 5
      rw [v12, v11, v10, v9, v8, v7, v6, v5, v4, v3, v2, v1]
  · cases hok

theorem alterTableAdd_ok (s : Store) (table column : String) (v : Value) (t : Table)
    (ht : s.tables table = some t) (hc : t.hasCol column = false) :
    ∃ s1, alterTableAdd s table column v = some s1 ∧ s1.indexes = s.indexes ∧
      (∀ m, m ≠ table → s1.tables m = s.tables m) ∧
      ∃ t1, s1.tables table = some t1 ∧ ∀ c, t1.hasCol c = (t.hasCol c || column == c) := by
  refine ⟨s.setTable table
      ⟨t.cols ++ [⟨column, .const v⟩],
       t.rows.map (fun r => { r with get := fun c => if c = column then v else r.get c })⟩,
    ?_, rfl, fun m hm => tables_setTable_other _ _ _ _ hm, _, tables_setTable_same _ _ _, ?_⟩
  · simp [alterTableAdd, ht, hc]
  · intro c
    simp [Table.hasCol, List.any_append]

theorem createIndex_ok (s : Store) (idx table column : String) (t : Table)
    (hi : s.indexes.contains idx = false) (ht : s.tables table = some t)
    (hc : t.hasCol column = true) :
    ∃ s1, createIndex s idx table column = some s1 ∧ s1.tables = s.tables ∧
      s1.indexes = s.indexes ++ [idx] := by
  refine ⟨{ s with indexes := s.indexes ++ [idx] }, ?_, rfl, rfl⟩
  simp only [createIndex, hi, ht, hc, Bool.false_eq_true, if_false, if_true]

theorem deleteAll_ok (s : Store) (table : String) (t : Table) (ht : s.tables table = some t) :
    ∃ s1, deleteAll s table = some s1 ∧ ∀ m, m ≠ table → s1.tables m = s.tables m := by
  refine ⟨s.setTable table { t with rows := [] }, ?_,
    fun m hm => tables_setTable_other _ _ _ _ hm⟩
  simp [deleteAll, ht]

theorem migrateToVersion5_ok (s : Store) (h : readyForVersion5 s = true) :
    (migrateToVersion5 s).1 = none := by
  unfold readyForVersion5 at h
  cases h1 : s.tables "tracks" with
  | none => simp [h1] at h
  | some t1 =>
  cases h2 : s.tables "albums" with
  | none => simp [h2] at h
  | some t2 =>
  cases h3 : s.tables "config_data" with
  | none => simp [h3] at h
  | some t3 =>
  cases h4 : s.tables "artists" with
  | none => simp [h4] at h
  | some t4 =>
  cases h5 : s.tables "library_data" with
  | none => simp [h5] at h
  | some t5 =>
  simp only [h1, h2, h3, h4, h5, Option.isSome_some, Bool.and_true, Bool.and_eq_true,
    Bool.not_eq_true', Bool.not_eq_eq_eq_not, Bool.not_true] at h
  obtain ⟨⟨⟨⟨⟨c1, c2, c3⟩, c4, c5⟩, c6⟩, i1⟩, i2⟩ := h
  obtain ⟨a2, e2, x2, o2, u2, p2, q2⟩ :=
    alterTableAdd_ok { s with user_version := 5 } "tracks" "track_number" .null t1 h1 c1
  have h2a : a2.tables "albums" = some t2 := by rw [o2 _ (by decide)]; exact h2
  obtain ⟨a3, e3, x3, o3, u3, p3, q3⟩ :=
    alterTableAdd_ok a2 "albums" "album_artist_name" .null t2 h2a c2
  obtain ⟨a4, e4, x4, o4, u4, p4, q4⟩ :=
    alterTableAdd_ok a3 "albums" "album_artist_name_lower" .null u3 p3
      (by rw [q3, c3]; decide)
  have h3a : a4.tables "config_data" = some t3 := by
    rw [o4 _ (by decide), o3 _ (by decide), o2 _ (by decide)]; exact h3
  obtain ⟨a5, e5, x5, o5, u5, p5, q5⟩ :=
    alterTableAdd_ok a4 "config_data" "theme_mode" (.text "auto") t3 h3a c4
  obtain ⟨a6, e6, x6, o6, u6, p6, q6⟩ :=
    alterTableAdd_ok a5 "config_data" "lrclib_instance" (.text "https://lrclib.net") u5 p5
      (by rw [q5, c5]; decide)
  have h4a : a6.tables "albums" = some u4 := by
    rw [o6 _ (by decide), o5 _ (by decide)]; exact p4
  have hi6 : a6.indexes = s.indexes := by rw [x6, x5, x4, x3, x2]
  obtain ⟨a7, e7, y7, x7⟩ :=
    createIndex_ok a6 "idx_albums_album_artist_name_lower" "albums" "album_artist_name_lower" u4
      (by rw [hi6]; exact i1) h4a (by rw [q4]; simp)
  have h1a : a7.tables "tracks" = some u2 := by
    rw [y7, o6 _ (by decide), o5 _ (by decide), o4 _ (by decide), o3 _ (by decide)]; exact p2
  obtain ⟨a8, e8, y8, x8⟩ :=
    createIndex_ok a7 "idx_tracks_track_number" "tracks" "track_number" u2
      (by rw [x7, hi6]; simpa using i2) h1a (by rw [q2]; simp)
  obtain ⟨a9, e9, o9⟩ := deleteAll_ok a8 "tracks" u2 (by rw [y8]; exact h1a)
  obtain ⟨a10, e10, o10⟩ := deleteAll_ok a9 "albums" u4
    (by rw [o9 _ (by decide), y8, y7]; exact h4a)
  obtain ⟨a11, e11, o11⟩ := deleteAll_ok a10 "artists" t4
    (by rw [o10 _ (by decide), o9 _ (by decide), y8, y7, o6 _ (by decide), o5 _ (by decide),
      o4 _ (by decide), o3 _ (by decide), o2 _ (by decide)]; exact h4)
  have h5a : a11.tables "library_data" = some t5 := by
    rw [o11 _ (by decide), o10 _ (by decide), o9 _ (by decide), y8, y7, o6 _ (by decide),
      o5 _ (by decide), o4 _ (by decide), o3 _ (by decide), o2 _ (by decide)]; exact h5
  have e12 : updateWhere a11 "library_data" [] [("init", fun _ => Value.int 0)]
      (fun _ => true) = some (a11.setTable "library_data"
        { t5 with rows := t5.rows.map (fun r =>
            if (fun _ => true) r then
              { r with get := fun c =>
                  match List.lookup c [("init", fun (_ : Row) => Value.int 0)] with
                  | some e => e r
                  | none => r.get c }
            else r) }) := by
    simp only [updateWhere, h5a, List.all_nil, List.all_cons, c6, Bool.and_true, if_true]
  simp only [migrateToVersion5, transaction, pragmaUserVersion, exec, bind, Except.bind,
    e2, e3, e4, e5, e6, e7, e8, e9, e10, e11, e12, pure, Except.pure]

/-- On every store on which the statements of `migrateToVersion5` can run
(`readyForVersion5`), whatever tracks, albums and artists it holds and
whatever its initialized flag, the step succeeds, leaves
the tracks, albums and artists tables empty, sets `init` to 0 in every
LibraryState row, so that `GetInit` cannot return true, and sets the
persisted version to 5. -/
theorem migrateToVersion5_clears (s : Store) (h : readyForVersion5 s = true) :
    (migrateToVersion5 s).1 = none ∧
    (migrateToVersion5 s).2.rowsOf "tracks" = [] ∧
    (migrateToVersion5 s).2.rowsOf "albums" = [] ∧
    (migrateToVersion5 s).2.rowsOf "artists" = [] ∧
    (∀ r ∈ (migrateToVersion5 s).2.rowsOf "library_data", r.get "init" = .int 0) ∧
    (∀ b, GetInit (migrateToVersion5 s).2 = .ok b → b = false) ∧
    (migrateToVersion5 s).2.user_version = 5 :=
  ⟨migrateToVersion5_ok s h, migrateToVersion5_effect s (migrateToVersion5_ok s h)⟩

/-- The step on a legacy store at version 4 that holds a track and is marked
initialized; afterwards the library reads as not initialized. -/
theorem migrateToVersion5_clears_on_legacy_store :
    readyForVersion5 legacyVersion4Store = true ∧
    legacyVersion4Store.user_version = 4 ∧
    (legacyVersion4Store.rowsOf "tracks").length = 1 ∧
    GetInit legacyVersion4Store = .ok true ∧
    GetInit (migrateToVersion5 legacyVersion4Store).2 = .ok false ∧
    ((migrateToVersion5 legacyVersion4Store).1 = none ∧
     (migrateToVersion5 legacyVersion4Store).2.rowsOf "tracks" = [] ∧
     (migrateToVersion5 legacyVersion4Store).2.rowsOf "albums" = [] ∧
     (migrateToVersion5 legacyVersion4Store).2.rowsOf "artists" = [] ∧
     (∀ r ∈ (migrateToVersion5 legacyVersion4Store).2.rowsOf "library_data",
       r.get "init" = .int 0) ∧
     (∀ b, GetInit (migrateToVersion5 legacyVersion4Store).2 = .ok b → b = false) ∧
     (migrateToVersion5 legacyVersion4Store).2.user_version = 5) :=
  ⟨by decide, rfl, by decide, rfl, rfl, migrateToVersion5_clears legacyVersion4Store (by decide)⟩

/-! ## Theorems: search queries with escaped characters -/

theorem containsChars_singleton (c : Char) (l : List Char) :
    containsChars l [c] = true ↔ c ∈ l := by
  induction l with
  | nil => simp [containsChars]
  | cons d ds ih =>
    simp only [containsChars, Bool.or_eq_true, ih, List.mem_cons]
    constructor
    · rintro (h | h)
      · left
        simpa [List.isPrefixOf] using h
      · exact Or.inr h
    · rintro (h | h)
      · left
        simp [List.isPrefixOf, h]
      · exact Or.inr h

theorem mem_dropWhile_of_false (p : Char → Bool) (c : Char) (l : List Char)
    (hc : c ∈ l) (hp : p c = false) : c ∈ l.dropWhile p := by
  induction l with
  | nil => cases hc
  | cons d ds ih =>
    rw [List.dropWhile_cons]
    split
    · rename_i hd
      rcases List.mem_cons.mp hc with h | h
      · subst h
        rw [hp] at hd
        cases hd
      · exact ih h
    · exact hc

theorem mem_TrimSpace (c : Char) (s : String) (hc : c ∈ s.data) (hp : isSpace c = false) :
    c ∈ (TrimSpace s).data := by
  unfold TrimSpace
  simp only [List.mem_reverse]
  apply mem_dropWhile_of_false _ _ _ _ hp
  rw [List.mem_reverse]
  exact mem_dropWhile_of_false _ _ _ hc hp

theorem semicolon_mem_escapeChars (c : Char) (l : List Char) (hc : c ∈ l)
    (h : c = '&' ∨ c = '<' ∨ c = '>' ∨ c = Char.ofNat 39 ∨ c = Char.ofNat 34) :
    ';' ∈ escapeChars l := by
  induction l with
  | nil => cases hc
  | cons d ds ih =>
    rw [escapeChars, List.mem_append]
    rcases List.mem_cons.mp hc with hd | hd
    · left
      subst hd
      rcases h with h | h | h | h | h <;> subst h <;> decide
    · exact Or.inr (ih hd)

theorem semicolon_mem_SanitizeInput (s : String)
    (hs : ∃ c ∈ s.data, c = '&' ∨ c = '<' ∨ c = '>' ∨ c = Char.ofNat 39 ∨ c = Char.ofNat 34) :
    ';' ∈ (SanitizeInput s).data := by
  obtain ⟨c, hc, h⟩ := hs
  have hsp : isSpace c = false := by
    rcases h with h | h | h | h | h <;> subst h <;> decide
  have h1 := semicolon_mem_escapeChars c _ (mem_TrimSpace c s hc hsp) h
  unfold SanitizeInput EscapeString
  simp only [List.mem_filter]
  exact ⟨⟨h1, by decide⟩, by decide⟩

theorem utf8ByteSize_pos_of_mem (c : Char) (q : String) (h : c ∈ q.data) :
    q.utf8ByteSize ≠ 0 := by
  obtain ⟨l⟩ := q
  cases l with
  | nil => cases h
  | cons d ds =>
    simp only [String.utf8ByteSize, String.utf8ByteSize.go]
    have := Char.utf8Size_pos d
    omega

theorem asciiLower_semicolon (q : String) (h : Contains q ";" = true) :
    Contains (asciiLower q) ";" = true := by
  unfold Contains at h ⊢
  have e : (";" : String).data = [';'] := rfl
  rw [e, containsChars_singleton] at h ⊢
  unfold asciiLower
  exact List.mem_map.mpr ⟨';', h, by decide⟩

/-- C30: when `s` contains one of the characters `&`, `<`, `>`, the apostrophe
or the double quote, `SanitizeInput s` contains a semicolon, so
`ValidateSearchQuery` returns an error for it ("search query too long" or
"invalid characters in search query"), and `App.SearchLyrics` called with the
query `s` returns "Invalid search query" without sending a request to the
provider. `strings.ToLower` is assumed to keep a semicolon. -/
theorem SearchLyrics_rejects_escaped_characters {α : Type} (lower : String → String)
    (errorText : Error → String) (now : Nat) (provider : SearchRequest → Except Error α)
    (st : Store) (title artist album s : String)
    (hlower : ∀ q, Contains q ";" = true → Contains (lower q) ";" = true)
    (hs : ∃ c ∈ s.data,
      c = '&' ∨ c = '<' ∨ c = '>' ∨ c = Char.ofNat 39 ∨ c = Char.ofNat 34) :
    ∃ e, (e = .errorf "search query too long" ∨
          e = .errorf "invalid characters in search query") ∧
      ValidateSearchQuery lower (SanitizeInput s) = some e ∧
      (SearchLyrics lower errorText now provider st title artist album s).result =
        .error ⟨"Invalid search query", e⟩ ∧
      (SearchLyrics lower errorText now provider st title artist album s).requests = [] := by
  have hmem := semicolon_mem_SanitizeInput s hs
  have h0 := utf8ByteSize_pos_of_mem _ _ hmem
  have hc : Contains (lower (SanitizeInput s)) ";" = true := by
    apply hlower
    unfold Contains
    have e : (";" : String).data = [';'] := rfl
    rw [e, containsChars_singleton]
    exact hmem
  have hany : sqlPatterns.any (fun pattern => Contains (lower (SanitizeInput s)) pattern)
      = true := by
    rw [List.any_eq_true]
    exact ⟨";", by decide, hc⟩
  have hv : ∃ e, (e = .errorf "search query too long" ∨
      e = .errorf "invalid characters in search query") ∧
      ValidateSearchQuery lower (SanitizeInput s) = some e := by
    unfold ValidateSearchQuery
    by_cases h1 : (SanitizeInput s).utf8ByteSize > 1000
    · exact ⟨_, Or.inl rfl, by simp only [h0, h1, if_true, if_false]⟩
    · exact ⟨_, Or.inr rfl, by simp only [h0, h1, hany, if_true, if_false]⟩
  obtain ⟨e, he, hv⟩ := hv
  refine ⟨e, he, hv, ?_, ?_⟩
  · simp only [SearchLyrics, hv, HandleErrorWithMessage]
  · simp only [SearchLyrics, hv]

/-- Witness for C30: the query "Simon & Garfunkel" with a provider that
answers every request. -/
theorem SearchLyrics_rejects_escaped_characters_witness :
    (∀ q, Contains q ";" = true → Contains (asciiLower q) ";" = true) ∧
    (∃ c ∈ "Simon & Garfunkel".data,
      c = '&' ∨ c = '<' ∨ c = '>' ∨ c = Char.ofNat 39 ∨ c = Char.ofNat 34) ∧
    SanitizeInput "Simon & Garfunkel" = "Simon &amp; Garfunkel" ∧
    ValidateSearchQuery asciiLower "Simon &amp; Garfunkel" =
      some (.errorf "invalid characters in search query") ∧
    ValidateSearchQuery asciiLower "Simon and Garfunkel" = none ∧
    ∃ e, (e = .errorf "search query too long" ∨
          e = .errorf "invalid characters in search query") ∧
      ValidateSearchQuery asciiLower (SanitizeInput "Simon & Garfunkel") = some e ∧
      (SearchLyrics asciiLower (fun _ => "") 0 (fun r => Except.ok r) freshStore
        "" "" "" "Simon & Garfunkel").result = .error ⟨"Invalid search query", e⟩ ∧
      (SearchLyrics asciiLower (fun _ => "") 0 (fun r => Except.ok r) freshStore
        "" "" "" "Simon & Garfunkel").requests = [] :=
  ⟨asciiLower_semicolon, ⟨'&', by decide, Or.inl rfl⟩, by decide, by decide, by decide,
   SearchLyrics_rejects_escaped_characters asciiLower (fun _ => "") 0 (fun r => Except.ok r)
     freshStore "" "" "" "Simon & Garfunkel" asciiLower_semicolon
     ⟨'&', by decide, Or.inl rfl⟩⟩

/-! ## Theorems: concurrent calls of `AddTrack` -/

theorem sqlEq_text (x : Value) (a : String) : sqlEq x (.text a) = decide (x = .text a) := by
  cases x <;> simp [sqlEq]

theorem hasColumns_setTable_rows (s : Store) (table : String) (t : Table) (rows : List Row)
    (ht : s.tables table = some t) (m : String) (columns : List String) :
    (s.setTable table { t with rows := rows }).hasColumns m columns = s.hasColumns m columns := by
  unfold Store.hasColumns
  by_cases hm : m = table
  · subst hm
    rw [tables_setTable_same, ht]
    rfl
  · rw [tables_setTable_other _ _ _ _ hm]

theorem addTrackSchema_setTable_rows (s : Store) (table : String) (t : Table) (rows : List Row)
    (ht : s.tables table = some t) :
    addTrackSchema (s.setTable table { t with rows := rows }) = addTrackSchema s := by
  unfold addTrackSchema
  simp only [hasColumns_setTable_rows s table t rows ht]

theorem artistRows_setTable_other (a : String) (s : Store) (table : String) (t : Table)
    (h : table ≠ "artists") : artistRows a (s.setTable table t) = artistRows a s := by
  unfold artistRows
  rw [rowsOf_setTable_other _ _ _ _ (Ne.symm h)]

theorem artistRows_insert (a : String) (s : Store) (t : Table) (row : Row)
    (ht : s.tables "artists" = some t) (hrow : row.get "name" = .text a) :
    artistRows a (s.setTable "artists" { t with rows := t.rows ++ [row] }) =
      artistRows a s ++ [row] := by
  unfold artistRows
  rw [rowsOf_setTable_same, rowsOf_of_tables s _ t ht]
  simp [List.filter_append, List.filter_cons, hrow]

theorem stepAddTrack_spec (lower : String → String) (now i : Nat) (track : PersistentTrack)
    (db : Store) (mu : Option Nat) (pc : AddTrackPc) (a : String)
    (hs : addTrackSchema db = true) (hn : track.ArtistName = a)
    (hle : (artistRows a db).length ≤ 1)
    (hmiss : pc = .artistMissing → artistRows a db = [])
    (hpast : pc.pastArtist = true → (artistRows a db).length = 1)
    (herr : ∀ e, pc = .returned e → e = none)
    (hlock : pc.holdsLock = true ↔ mu = some i) :
    ∃ db1 mu1 pc1, stepAddTrack lower now i track db mu pc = (db1, mu1, pc1) ∧
      addTrackSchema db1 = true ∧
      (artistRows a db1).length ≤ 1 ∧
      (artistRows a db).length ≤ (artistRows a db1).length ∧
      (pc1 = .artistMissing → artistRows a db1 = []) ∧
      (pc1.pastArtist = true → (artistRows a db1).length = 1) ∧
      (∀ e, pc1 = .returned e → e = none) ∧
      (pc1.holdsLock = true ↔ mu1 = some i) ∧
      (db1.rowsOf "tracks").length + (if pc.isReturned then 1 else 0) =
        (db.rowsOf "tracks").length + (if pc1.isReturned then 1 else 0) ∧
      (pc.holdsLock = false → db1 = db ∧
        ((mu1 = mu ∧ pc1 = pc) ∨ (mu = none ∧ mu1 = some i ∧ pc = .start ∧ pc1 = .locked))) ∧
      (pc.holdsLock = true → mu1 = some i ∨ mu1 = none) ∧
      pc1.stepsLeft ≤ pc.stepsLeft ∧
      (pc.holdsLock = true → pc1.stepsLeft < pc.stepsLeft) ∧
      (pc = .start → mu = none → pc1.stepsLeft < pc.stepsLeft) := by
  have hs0 := hs
  unfold addTrackSchema at hs
  simp only [Bool.and_eq_true] at hs
  obtain ⟨⟨hA, hB⟩, hT⟩ := hs
  obtain ⟨tA, htA, hcA⟩ := hasColumns_eq_true _ _ _ hA
  obtain ⟨tB, htB, hcB⟩ := hasColumns_eq_true _ _ _ hB
  obtain ⟨tT, htT, hcT⟩ := hasColumns_eq_true _ _ _ hT
  simp only [List.all_cons, List.all_nil, Bool.and_true, Bool.and_eq_true] at hcA hcB hcT
  cases pc with
  | start =>
    by_cases hmu : mu = none
    · subst hmu
      refine ⟨db, some i, .locked, by simp [stepAddTrack], hs0, hle, le_refl _, ?_, ?_, ?_, ?_,
        ?_, ?_, ?_, ?_, ?_, ?_⟩ <;>
        simp [AddTrackPc.holdsLock, AddTrackPc.pastArtist, AddTrackPc.isReturned,
          AddTrackPc.stepsLeft]
    · refine ⟨db, mu, .start, by simp [stepAddTrack, hmu], hs0, hle, le_refl _, ?_, ?_, ?_,
        hlock, ?_, ?_, ?_, ?_, ?_, ?_⟩ <;>
        simp [AddTrackPc.holdsLock, AddTrackPc.pastArtist, AddTrackPc.isReturned,
          AddTrackPc.stepsLeft, hmu]
  | locked =>
    have hmu : mu = some i := hlock.mp rfl
    have hsel := selectWhere_of_cols db "artists" ["id", "name"]
      (fun r => sqlEq (r.get "name") (.text track.ArtistName)) tA htA
      (by simp [hcA.1, hcA.2.1])
    have hrows : tA.rows.filter (fun r => sqlEq (r.get "name") (.text track.ArtistName)) =
        artistRows a db := by
      unfold artistRows
      rw [rowsOf_of_tables db _ tA htA, hn]
      congr 1
      funext r
      exact sqlEq_text _ _
    rw [hrows] at hsel
    generalize hl : artistRows a db = l at hsel
    cases l with
    | nil =>
      refine ⟨db, mu, .artistMissing, by simp [stepAddTrack, hsel], hs0, hle, by rw [hl], ?_,
        ?_, ?_, ?_, ?_, ?_, ?_, ?_, ?_, ?_⟩ <;>
        simp [AddTrackPc.holdsLock, AddTrackPc.pastArtist, AddTrackPc.isReturned,
          AddTrackPc.stepsLeft, hmu, hl]
    | cons r rest =>
      have h1 : (artistRows a db).length = 1 := by
        rw [hl] at hle ⊢
        simp only [List.length_cons] at hle ⊢
        omega
      refine ⟨db, mu, .haveArtist r.id, by simp [stepAddTrack, hsel], hs0, hle, by rw [hl], ?_,
        ?_, ?_, ?_, ?_, ?_, ?_, ?_, ?_, ?_⟩ <;>
        simp [AddTrackPc.holdsLock, AddTrackPc.pastArtist, AddTrackPc.isReturned,
          AddTrackPc.stepsLeft, hmu, h1]
  | artistMissing =>
    have hmu : mu = some i := hlock.mp rfl
    have h0 := hmiss rfl
    have hins := insertInto_of_cols db "artists" now
      [("name", .text track.ArtistName), ("name_lower", .text (lower track.ArtistName)),
       ("created_at", .time now), ("updated_at", .time now)] tA htA
      (by simp [hcA.2.1, hcA.2.2.1, hcA.2.2.2.1, hcA.2.2.2.2])
    have hrow := artistRows_insert a db tA (insertedRow tA now
      [("name", .text track.ArtistName), ("name_lower", .text (lower track.ArtistName)),
       ("created_at", .time now), ("updated_at", .time now)]) htA
      (by rw [← hn]; exact insertedRow_get _ _ _ _ _ rfl)
    have h1 : (artistRows a (db.setTable "artists" { tA with rows := tA.rows ++ [insertedRow tA now
      [("name", .text track.ArtistName), ("name_lower", .text (lower track.ArtistName)),
       ("created_at", .time now), ("updated_at", .time now)]] })).length = 1 := by
      rw [hrow, h0]
      rfl
    refine ⟨db.setTable "artists" { tA with rows := tA.rows ++ [insertedRow tA now
      [("name", .text track.ArtistName), ("name_lower", .text (lower track.ArtistName)),
       ("created_at", .time now), ("updated_at", .time now)]] },
      mu, .haveArtist (nextId tA.rows), by simp only [stepAddTrack, hins],
      (addTrackSchema_setTable_rows db "artists" tA _ htA).trans hs0, by rw [h1], ?_, ?_,
      ?_, ?_, ?_, ?_, ?_, ?_, ?_, ?_, ?_⟩
    · rw [h1, h0]; simp
    · intro h; cases h
    · intro _; exact h1
    · intro e h; cases h
    · simp [AddTrackPc.holdsLock, hmu]
    · simp [AddTrackPc.isReturned, Store.rowsOf, Store.setTable]
    · simp [AddTrackPc.holdsLock]
    · simp [hmu]
    · simp [AddTrackPc.stepsLeft]
    · simp [AddTrackPc.stepsLeft]
    · intro h; cases h
  | haveArtist artistID =>
    have hmu : mu = some i := hlock.mp rfl
    have h1 := hpast rfl
    have hsel := selectWhere_of_cols db "albums" ["id", "name", "artist_id"]
      (fun r => sqlEq (r.get "name") (.text track.AlbumName) &&
                sqlEq (r.get "artist_id") (.int artistID)) tB htB
      (by simp [hcB.1, hcB.2.1, hcB.2.2.1])
    cases hl : tB.rows.filter (fun r => sqlEq (r.get "name") (.text track.AlbumName) &&
                sqlEq (r.get "artist_id") (.int artistID)) with
    | nil =>
      rw [hl] at hsel
      refine ⟨db, mu, .albumMissing artistID, by simp [stepAddTrack, hsel], hs0, hle,
        le_refl _, ?_, ?_, ?_, ?_, ?_, ?_, ?_, ?_, ?_, ?_⟩ <;>
        simp [AddTrackPc.holdsLock, AddTrackPc.pastArtist, AddTrackPc.isReturned,
          AddTrackPc.stepsLeft, hmu, h1]
    | cons r rest =>
      rw [hl] at hsel
      refine ⟨db, mu, .haveAlbum artistID r.id, by simp [stepAddTrack, hsel], hs0, hle,
        le_refl _, ?_, ?_, ?_, ?_, ?_, ?_, ?_, ?_, ?_, ?_⟩ <;>
        simp [AddTrackPc.holdsLock, AddTrackPc.pastArtist, AddTrackPc.isReturned,
          AddTrackPc.stepsLeft, hmu, h1]
  | albumMissing artistID =>
    have hmu : mu = some i := hlock.mp rfl
    have h1 := hpast rfl
    generalize hv : [("name", Value.text track.AlbumName),
         ("name_lower", Value.text (lower track.AlbumName)),
         ("artist_name", Value.text ""), ("album_artist_name", ofStringPtr track.AlbumArtistName),
         ("album_artist_name_lower", ofStringPtr (match track.AlbumArtistName with
            | some a => some (lower a)
            | none => none)),
         ("image_path", ofStringPtr track.ImagePath),
         ("created_at", Value.time now), ("updated_at", Value.time now)] = vals
    have hins := insertInto_of_cols db "albums" now vals tB htB
      (by rw [← hv]; simp [hcB])
    have hr : artistRows a (db.setTable "albums"
        { tB with rows := tB.rows ++ [insertedRow tB now vals] }) = artistRows a db :=
      artistRows_setTable_other a db "albums" _ (by decide)
    refine ⟨db.setTable "albums" { tB with rows := tB.rows ++ [insertedRow tB now vals] },
      mu, .haveAlbum artistID (nextId tB.rows),
      by simp only [stepAddTrack, hv, hins],
      (addTrackSchema_setTable_rows db "albums" tB _ htB).trans hs0, by rw [hr]; exact hle,
      by rw [hr], ?_, ?_, ?_, ?_, ?_, ?_, ?_, ?_, ?_, ?_⟩
    · intro h; cases h
    · intro _; rw [hr]; exact h1
    · intro e h; cases h
    · simp [AddTrackPc.holdsLock, hmu]
    · simp [AddTrackPc.isReturned, Store.rowsOf, Store.setTable]
    · simp [AddTrackPc.holdsLock]
    · simp [hmu]
    · simp [AddTrackPc.stepsLeft]
    · simp [AddTrackPc.stepsLeft]
    · intro h; cases h
  | haveAlbum artistID albumID =>
    have hmu : mu = some i := hlock.mp rfl
    have h1 := hpast rfl
    generalize hv : [("file_path", Value.text track.FilePath),
         ("file_name", Value.text track.FileName),
         ("title", Value.text track.Title), ("album_name", Value.text track.AlbumName),
         ("album_artist_name", ofStringPtr track.AlbumArtistName),
         ("album_id", Value.int albumID), ("artist_name", Value.text track.ArtistName),
         ("artist_id", Value.int artistID), ("image_path", ofStringPtr track.ImagePath),
         ("track_number", ofIntPtr track.TrackNumber),
         ("txt_lyrics", ofStringPtr track.TxtLyrics),
         ("lrc_lyrics", ofStringPtr track.LrcLyrics),
         ("duration", ofFloat64 track.Duration), ("instrumental", ofBool track.Instrumental),
         ("title_lower", Value.text (lower track.Title)),
         ("created_at", Value.time now), ("updated_at", Value.time now)] = vals
    have hins := insertInto_of_cols db "tracks" now vals tT htT
      (by rw [← hv]; simp [hcT])
    have hr : artistRows a (db.setTable "tracks"
        { tT with rows := tT.rows ++ [insertedRow tT now vals] }) = artistRows a db :=
      artistRows_setTable_other a db "tracks" _ (by decide)
    refine ⟨db.setTable "tracks" { tT with rows := tT.rows ++ [insertedRow tT now vals] },
      none, .returned none, by simp only [stepAddTrack, hv, hins],
      (addTrackSchema_setTable_rows db "tracks" tT _ htT).trans hs0, by rw [hr]; exact hle,
      by rw [hr], ?_, ?_, ?_, ?_, ?_, ?_, ?_, ?_, ?_, ?_⟩
    · intro h; cases h
    · intro _; rw [hr]; exact h1
    · intro e h; cases h; rfl
    · simp [AddTrackPc.holdsLock]
    · rw [rowsOf_setTable_same, rowsOf_of_tables db _ tT htT]
      simp [AddTrackPc.isReturned]
    · simp [AddTrackPc.holdsLock]
    · simp
    · simp [AddTrackPc.stepsLeft]
    · simp [AddTrackPc.stepsLeft]
    · intro h; cases h
  | returned err =>
    refine ⟨db, mu, .returned err, by simp [stepAddTrack], hs0, hle, le_refl _, ?_, hpast,
      herr, hlock, ?_, ?_, ?_, ?_, ?_, ?_⟩ <;>
      simp [AddTrackPc.holdsLock, AddTrackPc.stepsLeft]

theorem sum_map_set (w : Goroutine → Nat) :
    ∀ (l : List Goroutine) (i : Nat) (g g1 : Goroutine), l[i]? = some g →
      ((l.set i g1).map w).sum + w g = (l.map w).sum + w g1
  | [], i, g, g1, h => by simp at h
  | x :: xs, 0, g, g1, h => by
    simp only [List.getElem?_cons_zero, Option.some.injEq] at h
    subst h
    simp only [List.set_cons_zero, List.map_cons, List.sum_cons]
    omega
  | x :: xs, i + 1, g, g1, h => by
    simp only [List.getElem?_cons_succ] at h
    have ih := sum_map_set w xs i g g1 h
    simp only [List.set_cons_succ, List.map_cons, List.sum_cons]
    omega

theorem getElem?_set_calls (l : List Goroutine) (i : Nat) (g g1 : Goroutine)
    (h : l[i]? = some g) (j : Nat) :
    (l.set i g1)[j]? = if i = j then some g1 else l[j]? := by
  have hi : i < l.length := by
    by_contra hc
    rw [List.getElem?_eq_none (by omega)] at h
    cases h
  rw [List.getElem?_set]
  split
  · simp [hi]
  · rfl

theorem Inv_step (lower : String → String) (a : String) (n0 n : Nat) (c : Shared)
    (i now : Nat) (h : c.Inv a n0 n) :
    (c.step lower i now).Inv a n0 n ∧ (c.step lower i now).stepsLeft ≤ c.stepsLeft := by
  unfold Shared.step
  cases hg : c.calls[i]? with
  | none => exact ⟨h, le_refl _⟩
  | some g =>
    obtain ⟨db1, mu1, pc1, hstep, hs, hle, hmono, hmiss, hpast, herr, hlock, htr, hno, hyes,
      hsl, -, -⟩ := stepAddTrack_spec lower now i g.track c.db c.mu g.pc a h.schema
        (h.names i g hg) h.le (h.missing i g hg) (h.past i g hg)
        (fun e => h.noError i g e hg) (h.lock i g hg)
    simp only [hstep]
    have hget := getElem?_set_calls c.calls i g { g with pc := pc1 } hg
    have hdb : ∀ j gj, c.calls[j]? = some gj → j ≠ i → gj.pc.holdsLock = true → db1 = c.db := by
      intro j gj hj hne hl
      have hmuj := (h.lock j gj hj).mp hl
      cases hgl : g.pc.holdsLock with
      | false => exact (hno hgl).1
      | true =>
        have hmui := (h.lock i g hg).mp hgl
        rw [hmui] at hmuj
        exact absurd (Option.some.inj hmuj).symm hne
    refine ⟨⟨hs, ?_, ?_, ?_, ?_, hle, ?_, ?_, ?_, ?_⟩, ?_⟩
    · simp only [List.length_set]
      exact h.len
    · intro j gj hj
      rw [hget] at hj
      split at hj
      · cases hj
        exact h.names i g hg
      · exact h.names j gj hj
    · intro j gj hj
      rw [hget] at hj
      split at hj
      · rename_i hij
        cases hj
        subst hij
        exact hlock
      · rename_i hij
        have hl := h.lock j gj hj
        cases hgl : g.pc.holdsLock with
        | false =>
          rcases (hno hgl).2 with ⟨e1, -⟩ | ⟨e0, e1, -, -⟩
          · rw [e1]; exact hl
          · rw [e1]
            rw [e0] at hl
            constructor
            · intro hx
              exact absurd (hl.mp hx) (by simp)
            · intro hx
              exact absurd (Option.some.inj hx) hij
        | true =>
          have hmui := (h.lock i g hg).mp hgl
          rw [hmui] at hl
          constructor
          · intro hx
            exact absurd (Option.some.inj (hl.mp hx)) hij
          · intro hx
            rcases hyes hgl with e | e
            · rw [e] at hx
              exact absurd (Option.some.inj hx) hij
            · rw [e] at hx
              cases hx
    · intro j hj
      simp only [List.length_set]
      cases hgl : g.pc.holdsLock with
      | false =>
        rcases (hno hgl).2 with ⟨e1, -⟩ | ⟨-, e1, -, -⟩
        · rw [e1] at hj
          exact h.holder j hj
        · rw [e1] at hj
          cases hj
          by_contra hc
          rw [List.getElem?_eq_none (by omega)] at hg
          cases hg
      | true =>
        have hmui := (h.lock i g hg).mp hgl
        rcases hyes hgl with e | e
        · rw [e] at hj
          cases hj
          exact h.holder _ hmui
        · rw [e] at hj
          cases hj
    · intro j gj hj hpc
      rw [hget] at hj
      split at hj
      · cases hj
        exact hmiss hpc
      · rename_i hij
        have e := hdb j gj hj (Ne.symm hij) (by rw [hpc]; rfl)
        rw [e]
        exact h.missing j gj hj hpc
    · intro j gj hj hpc
      rw [hget] at hj
      split at hj
      · cases hj
        exact hpast hpc
      · have := h.past j gj hj hpc
        show (artistRows a db1).length = 1
        omega
    · intro j gj e hj hpc
      rw [hget] at hj
      split at hj
      · cases hj
        exact herr e hpc
      · exact h.noError j gj e hj hpc
    · have hsum := sum_map_set (fun g => if g.pc.isReturned then 1 else 0) c.calls i g
        { g with pc := pc1 } hg
      have ht := h.tracks
      simp only at hsum
      show (db1.rowsOf "tracks").length = n0 + ((c.calls.set i { g with pc := pc1 }).map
        (fun g => if g.pc.isReturned then 1 else 0)).sum
      omega
    · have hsum := sum_map_set (fun g => g.pc.stepsLeft) c.calls i g { g with pc := pc1 } hg
      show ((c.calls.set i { g with pc := pc1 }).map (fun g => g.pc.stepsLeft)).sum ≤
        (c.calls.map (fun g => g.pc.stepsLeft)).sum
      simp only at hsum
      omega

theorem Inv_run (lower : String → String) (a : String) (n0 n : Nat) :
    ∀ (schedule : List (Nat × Nat)) (c : Shared), c.Inv a n0 n →
      (Shared.run lower c schedule).Inv a n0 n
  | [], _, h => h
  | (i, now) :: rest, c, h => Inv_run lower a n0 n rest _ (Inv_step lower a n0 n c i now h).1

theorem run_append (lower : String → String) :
    ∀ (s1 s2 : List (Nat × Nat)) (c : Shared),
      Shared.run lower c (s1 ++ s2) = Shared.run lower (Shared.run lower c s1) s2
  | [], _, _ => rfl
  | _ :: rest, s2, _ => run_append lower rest s2 _

theorem step_stepsLeft (lower : String → String) (a : String) (n0 n : Nat) (c : Shared)
    (i now : Nat) (g : Goroutine) (h : c.Inv a n0 n) (hg : c.calls[i]? = some g) :
    ∃ pc1 : AddTrackPc, (c.step lower i now).stepsLeft + g.pc.stepsLeft = c.stepsLeft + pc1.stepsLeft ∧
      (g.pc.holdsLock = true → pc1.stepsLeft < g.pc.stepsLeft) ∧
      (g.pc = .start → c.mu = none → pc1.stepsLeft < g.pc.stepsLeft) := by
  obtain ⟨db1, mu1, pc1, hstep, -, -, -, -, -, -, -, -, -, -, -, h1, h2⟩ :=
    stepAddTrack_spec lower now i g.track c.db c.mu g.pc a h.schema
      (h.names i g hg) h.le (h.missing i g hg) (h.past i g hg)
      (fun e => h.noError i g e hg) (h.lock i g hg)
  refine ⟨pc1, ?_, h1, h2⟩
  unfold Shared.step
  simp only [hg, hstep]
  exact sum_map_set (fun g => g.pc.stepsLeft) c.calls i g { g with pc := pc1 } hg

theorem Inv_progress (lower : String → String) (a : String) (n0 n : Nat) (c : Shared)
    (h : c.Inv a n0 n) (hnot : c.allReturned = false) :
    ∃ i, ∀ now, (c.step lower i now).stepsLeft < c.stepsLeft := by
  cases hmu : c.mu with
  | some i =>
    have hi := h.holder i hmu
    have hg : c.calls[i]? = some (c.calls.get ⟨i, hi⟩) := List.getElem?_eq_getElem hi
    have hl := (h.lock i _ hg).mpr hmu
    refine ⟨i, fun now => ?_⟩
    obtain ⟨pc1, e, h1, -⟩ := step_stepsLeft lower a n0 n c i now _ h hg
    have := h1 hl
    omega
  | none =>
    unfold Shared.allReturned at hnot
    rw [List.all_eq_false] at hnot
    obtain ⟨g, hgm, hgr⟩ := hnot
    obtain ⟨j, hj⟩ := List.mem_iff_getElem?.mp hgm
    have hl := h.lock j g hj
    rw [hmu] at hl
    have hstart : g.pc = .start := by
      cases hpc : g.pc with
      | start => rfl
      | returned e => rw [hpc] at hgr; exact absurd rfl hgr
      | locked => rw [hpc] at hl; exact absurd (hl.mp rfl) (by simp)
      | artistMissing => rw [hpc] at hl; exact absurd (hl.mp rfl) (by simp)
      | haveArtist _ => rw [hpc] at hl; exact absurd (hl.mp rfl) (by simp)
      | albumMissing _ => rw [hpc] at hl; exact absurd (hl.mp rfl) (by simp)
      | haveAlbum _ _ => rw [hpc] at hl; exact absurd (hl.mp rfl) (by simp)
    refine ⟨j, fun now => ?_⟩
    obtain ⟨pc1, e, -, h2⟩ := step_stepsLeft lower a n0 n c j now g h hj
    have := h2 hstart hmu
    omega

theorem Inv_completes (lower : String → String) (a : String) (n0 n : Nat) :
    ∀ (k : Nat) (c : Shared), c.Inv a n0 n → c.stepsLeft ≤ k →
      ∃ rest, (Shared.run lower c rest).allReturned = true
  | 0, c, h, hk => by
    cases hr : c.allReturned with
    | true => exact ⟨[], hr⟩
    | false =>
      obtain ⟨i, hi⟩ := Inv_progress lower a n0 n c h hr
      have := hi 0
      omega
  | k + 1, c, h, hk => by
    cases hr : c.allReturned with
    | true => exact ⟨[], hr⟩
    | false =>
      obtain ⟨i, hi⟩ := Inv_progress lower a n0 n c h hr
      have := hi 0
      obtain ⟨rest, hrest⟩ := Inv_completes lower a n0 n k (c.step lower i 0)
        (Inv_step lower a n0 n c i 0 h).1 (by omega)
      exact ⟨(i, 0) :: rest, hrest⟩

theorem sum_isReturned (l : List Goroutine) (h : l.all (fun g => g.pc.isReturned) = true) :
    (l.map (fun g => if g.pc.isReturned then 1 else 0)).sum = l.length := by
  induction l with
  | nil => rfl
  | cons x xs ih =>
    simp only [List.all_cons, Bool.and_eq_true] at h
    simp only [List.map_cons, List.sum_cons, List.length_cons, h.1, if_true, ih h.2]
    omega

theorem sum_isReturned_begin (s0 : Store) (tracks : List PersistentTrack) :
    ((Shared.begin s0 tracks).calls.map (fun g => if g.pc.isReturned then 1 else 0)).sum = 0 := by
  unfold Shared.begin
  induction tracks with
  | nil => rfl
  | cons t ts ih =>
    simp only [List.map_cons, List.sum_cons, AddTrackPc.isReturned] at ih ⊢
    rw [ih]
    simp

theorem Inv_begin (a : String) (s0 : Store) (tracks : List PersistentTrack)
    (hschema : addTrackSchema s0 = true)
    (hnames : ∀ t ∈ tracks, t.ArtistName = a)
    (hle : (artistRows a s0).length ≤ 1) :
    (Shared.begin s0 tracks).Inv a (s0.rowsOf "tracks").length tracks.length := by
  have hget : ∀ (j : Nat) (g : Goroutine), (Shared.begin s0 tracks).calls[j]? = some g →
      g.pc = .start ∧ g.track ∈ tracks := by
    intro j g hj
    have hm : g ∈ (Shared.begin s0 tracks).calls := List.mem_iff_getElem?.mpr ⟨j, hj⟩
    unfold Shared.begin at hm
    obtain ⟨t, ht, e⟩ := List.mem_map.mp hm
    subst e
    exact ⟨rfl, ht⟩
  refine ⟨hschema, by simp [Shared.begin], ?_, ?_, ?_, hle, ?_, ?_, ?_, ?_⟩
  · intro j g hj
    exact hnames _ (hget j g hj).2
  · intro j g hj
    rw [(hget j g hj).1]
    simp [Shared.begin, AddTrackPc.holdsLock]
  · intro j hj
    simp [Shared.begin] at hj
  · intro j g hj hpc
    rw [(hget j g hj).1] at hpc
    cases hpc
  · intro j g hj hpc
    rw [(hget j g hj).1] at hpc
    cases hpc
  · intro j g e hj hpc
    rw [(hget j g hj).1] at hpc
    cases hpc
  · rw [sum_isReturned_begin]
    rfl

theorem run_returned (lower : String → String) (now : Nat) (track : PersistentTrack)
    (db : Store) (mu : Option Nat) (e : Option Error) :
    ∀ k, Shared.run lower ⟨db, mu, [⟨track, .returned e⟩]⟩ (List.replicate k (0, now)) =
      ⟨db, mu, [⟨track, .returned e⟩]⟩
  | 0 => rfl
  | k + 1 => by
    show Shared.run lower (Shared.step lower _ 0 now) (List.replicate k (0, now)) = _
    exact run_returned lower now track db mu e k

theorem run_step_alone (lower : String → String) (now : Nat) (track : PersistentTrack)
    (db : Store) (mu : Option Nat) (pc : AddTrackPc) (k : Nat) :
    Shared.run lower ⟨db, mu, [⟨track, pc⟩]⟩ (List.replicate (k + 1) (0, now)) =
      Shared.run lower ⟨(stepAddTrack lower now 0 track db mu pc).1,
        (stepAddTrack lower now 0 track db mu pc).2.1,
        [⟨track, (stepAddTrack lower now 0 track db mu pc).2.2⟩]⟩
        (List.replicate k (0, now)) := rfl

theorem run_from_haveArtist (lower : String → String) (now : Nat) (track : PersistentTrack)
    (db : Store) (artistID : Int) (k : Nat) :
    Shared.run lower ⟨db, some 0, [⟨track, .haveArtist artistID⟩]⟩
        (List.replicate (k + 3) (0, now)) =
      ⟨(match getOrCreateAlbum lower now db track.AlbumName track.AlbumArtistName
            track.ImagePath artistID with
        | (.error e, s2) =>
          ((.error (.wrap "failed to get or create album" e) :
            Except Error PersistentTrack), s2)
        | (.ok albumID, s2) =>
          match insertInto s2 "tracks" now
            [("file_path", .text track.FilePath), ("file_name", .text track.FileName),
             ("title", .text track.Title), ("album_name", .text track.AlbumName),
             ("album_artist_name", ofStringPtr track.AlbumArtistName),
             ("album_id", .int albumID), ("artist_name", .text track.ArtistName),
             ("artist_id", .int artistID), ("image_path", ofStringPtr track.ImagePath),
             ("track_number", ofIntPtr track.TrackNumber),
             ("txt_lyrics", ofStringPtr track.TxtLyrics),
             ("lrc_lyrics", ofStringPtr track.LrcLyrics),
             ("duration", ofFloat64 track.Duration), ("instrumental", ofBool track.Instrumental),
             ("title_lower", .text (lower track.Title)),
             ("created_at", .time now), ("updated_at", .time now)] with
          | none => (.error (.wrap "failed to insert track" .engine), s2)
          | some (trackID, s3) =>
            (.ok { track with ID := trackID, AlbumID := albumID, ArtistID := artistID,
                              CreatedAt := now, UpdatedAt := now }, s3)).2, none,
       [⟨track, .returned (match (match getOrCreateAlbum lower now db track.AlbumName
            track.AlbumArtistName track.ImagePath artistID with
        | (.error e, s2) =>
          ((.error (.wrap "failed to get or create album" e) :
            Except Error PersistentTrack), s2)
        | (.ok albumID, s2) =>
          match insertInto s2 "tracks" now
            [("file_path", .text track.FilePath), ("file_name", .text track.FileName),
             ("title", .text track.Title), ("album_name", .text track.AlbumName),
             ("album_artist_name", ofStringPtr track.AlbumArtistName),
             ("album_id", .int albumID), ("artist_name", .text track.ArtistName),
             ("artist_id", .int artistID), ("image_path", ofStringPtr track.ImagePath),
             ("track_number", ofIntPtr track.TrackNumber),
             ("txt_lyrics", ofStringPtr track.TxtLyrics),
             ("lrc_lyrics", ofStringPtr track.LrcLyrics),
             ("duration", ofFloat64 track.Duration), ("instrumental", ofBool track.Instrumental),
             ("title_lower", .text (lower track.Title)),
             ("created_at", .time now), ("updated_at", .time now)] with
          | none => (.error (.wrap "failed to insert track" .engine), s2)
          | some (trackID, s3) =>
            (.ok { track with ID := trackID, AlbumID := albumID, ArtistID := artistID,
                              CreatedAt := now, UpdatedAt := now }, s3)).1 with
          | .ok _ => none
          | .error e => some e)⟩]⟩ := by
  rw [run_step_alone]
  unfold getOrCreateAlbum
  cases h2 : selectWhere db "albums" ["id", "name", "artist_id"]
      (fun r => sqlEq (r.get "name") (.text track.AlbumName) &&
                sqlEq (r.get "artist_id") (.int artistID)) with
  | none =>
    simp only [stepAddTrack, h2, run_returned]
  | some l =>
    cases l with
    | cons r rest =>
      simp only [stepAddTrack, h2]
      rw [run_step_alone]
      cases h4 : insertInto db "tracks" now
        [("file_path", Value.text track.FilePath),
         ("file_name", Value.text track.FileName),
         ("title", Value.text track.Title), ("album_name", Value.text track.AlbumName),
         ("album_artist_name", ofStringPtr track.AlbumArtistName),
         ("album_id", Value.int r.id), ("artist_name", Value.text track.ArtistName),
         ("artist_id", Value.int artistID), ("image_path", ofStringPtr track.ImagePath),
         ("track_number", ofIntPtr track.TrackNumber),
         ("txt_lyrics", ofStringPtr track.TxtLyrics),
         ("lrc_lyrics", ofStringPtr track.LrcLyrics),
         ("duration", ofFloat64 track.Duration), ("instrumental", ofBool track.Instrumental),
         ("title_lower", Value.text (lower track.Title)),
         ("created_at", Value.time now), ("updated_at", Value.time now)] with
      | none => simp only [stepAddTrack, h4, run_returned]
      | some p => simp only [stepAddTrack, h4, run_returned]
    | nil =>
      simp only [stepAddTrack, h2]
      rw [run_step_alone]
      cases haa : track.AlbumArtistName with
      | none =>
        dsimp only
        generalize h3 : insertInto db "albums" now _ = res
        cases res with
        | none => simp only [stepAddTrack, haa, h3, run_returned]
        | some p =>
          obtain ⟨albumID, s2⟩ := p
          simp only [stepAddTrack, haa, h3]
          rw [run_step_alone]
          generalize h4 : insertInto s2 "tracks" now _ = res4
          cases res4 with
          | none => simp only [stepAddTrack, haa, h4, run_returned]
          | some p => simp only [stepAddTrack, haa, h4, run_returned]
      | some aa =>
        dsimp only
        generalize h3 : insertInto db "albums" now _ = res
        cases res with
        | none => simp only [stepAddTrack, haa, h3, run_returned]
        | some p =>
          obtain ⟨albumID, s2⟩ := p
          simp only [stepAddTrack, haa, h3]
          rw [run_step_alone]
          generalize h4 : insertInto s2 "tracks" now _ = res4
          cases res4 with
          | none => simp only [stepAddTrack, haa, h4, run_returned]
          | some p => simp only [stepAddTrack, haa, h4, run_returned]

/-- A goroutine running alone takes at most six steps from `Lock` to its
return, and leaves the database and the error that `AddTrack` gives. -/
theorem run_alone_eq_AddTrack (lower : String → String) (now : Nat) (s : Store)
    (track : PersistentTrack) :
    Shared.run lower ⟨s, none, [⟨track, .start⟩]⟩ (List.replicate 6 (0, now)) =
      ⟨(AddTrack lower now s track).2, none,
       [⟨track, .returned (match (AddTrack lower now s track).1 with
                            | .ok _ => none
                            | .error e => some e)⟩]⟩ := by
  rw [run_step_alone]
  simp only [stepAddTrack, if_true]
  rw [run_step_alone]
  unfold AddTrack getOrCreateArtist
  cases h1 : selectWhere s "artists" ["id", "name"]
      (fun r => sqlEq (r.get "name") (.text track.ArtistName)) with
  | none =>
    simp only [stepAddTrack, h1, run_returned]
  | some l =>
    cases l with
    | cons r rest =>
      simp only [stepAddTrack, h1]
      exact run_from_haveArtist lower now track s r.id 1
    | nil =>
      simp only [stepAddTrack, h1]
      rw [run_step_alone]
      cases h3 : insertInto s "artists" now
        [("name", Value.text track.ArtistName),
         ("name_lower", Value.text (lower track.ArtistName)),
         ("created_at", Value.time now), ("updated_at", Value.time now)] with
      | none => simp only [stepAddTrack, h3, run_returned]
      | some p =>
        obtain ⟨artistID, s1⟩ := p
        simp only [stepAddTrack, h3]
        exact run_from_haveArtist lower now track s1 artistID 0

/-- C25: goroutines, one per track, call `AddTrack` on one connection for
tracks of the artist `a`, on a database with the schema and at most one Artist
row of that name; the scheduler interleaves their statements in any order
(`schedule`), and `Lock` lets a goroutine go on only when no other holds the
lock.  Then at every moment at most one goroutine is between `Lock` and
`Unlock` and at most one Artist row has the name; the calls can always all be
brought to return; and once all have returned, every call has returned nil,
every track has its Track row, and exactly one Artist row has the name. -/
theorem concurrent_AddTrack_one_artist (lower : String → String) (a : String) (s0 : Store)
    (tracks : List PersistentTrack) (schedule : List (Nat × Nat))
    (hschema : addTrackSchema s0 = true)
    (hnames : ∀ t ∈ tracks, t.ArtistName = a)
    (hle : (artistRows a s0).length ≤ 1)
    (hne : tracks ≠ []) :
    (∀ (i j : Nat) (gi gj : Goroutine),
      (concurrentAddTracks lower s0 tracks schedule).calls[i]? = some gi →
      (concurrentAddTracks lower s0 tracks schedule).calls[j]? = some gj →
      gi.pc.holdsLock = true → gj.pc.holdsLock = true → i = j) ∧
    (artistRows a (concurrentAddTracks lower s0 tracks schedule).db).length ≤ 1 ∧
    (∃ rest, (concurrentAddTracks lower s0 tracks (schedule ++ rest)).allReturned = true) ∧
    ((concurrentAddTracks lower s0 tracks schedule).allReturned = true →
      (∀ g ∈ (concurrentAddTracks lower s0 tracks schedule).calls, g.pc = .returned none) ∧
      (concurrentAddTracks lower s0 tracks schedule).calls.length = tracks.length ∧
      ((concurrentAddTracks lower s0 tracks schedule).db.rowsOf "tracks").length =
        (s0.rowsOf "tracks").length + tracks.length ∧
      (artistRows a (concurrentAddTracks lower s0 tracks schedule).db).length = 1) := by
  have hinv : (concurrentAddTracks lower s0 tracks schedule).Inv a
      (s0.rowsOf "tracks").length tracks.length :=
    Inv_run lower a _ _ schedule _ (Inv_begin a s0 tracks hschema hnames hle)
  refine ⟨?_, hinv.le, ?_, ?_⟩
  · intro i j gi gj hi hj li lj
    have e1 := (hinv.lock i gi hi).mp li
    have e2 := (hinv.lock j gj hj).mp lj
    have e3 : (some i : Option Nat) = some j := e1.symm.trans e2
    exact Option.some.inj e3
  · obtain ⟨rest, hrest⟩ := Inv_completes lower a _ _ _ _ hinv (le_refl _)
    refine ⟨rest, ?_⟩
    unfold concurrentAddTracks
    rw [run_append]
    exact hrest
  · intro hall
    have hret : ∀ g ∈ (concurrentAddTracks lower s0 tracks schedule).calls,
        g.pc = .returned none := by
      intro g hg
      obtain ⟨j, hj⟩ := List.mem_iff_getElem?.mp hg
      have hr : g.pc.isReturned = true := by
        unfold Shared.allReturned at hall
        exact List.all_eq_true.mp hall g hg
      cases hpc : g.pc with
      | returned e => rw [hinv.noError j g e hj hpc]
      | start => rw [hpc] at hr; cases hr
      | locked => rw [hpc] at hr; cases hr
      | artistMissing => rw [hpc] at hr; cases hr
      | haveArtist _ => rw [hpc] at hr; cases hr
      | albumMissing _ => rw [hpc] at hr; cases hr
      | haveAlbum _ _ => rw [hpc] at hr; cases hr
    refine ⟨hret, hinv.len, ?_, ?_⟩
    · have ht := hinv.tracks
      rw [sum_isReturned _ hall, hinv.len] at ht
      exact ht
    · have hlen := hinv.len
      cases hc : (concurrentAddTracks lower s0 tracks schedule).calls with
      | nil =>
        rw [hc] at hlen
        cases tracks with
        | nil => exact absurd rfl hne
        | cons t ts => cases hlen
      | cons g gs =>
        have hg0 : (concurrentAddTracks lower s0 tracks schedule).calls[0]? = some g := by
          rw [hc]; simp
        have hp := hret g (by rw [hc]; exact List.mem_cons_self _ _)
        exact hinv.past 0 g hg0 (by rw [hp]; rfl)

set_option maxRecDepth 100000 in
/-- Witness for C25: three goroutines on the fresh store under an interleaved
schedule, after which all three have returned. -/
theorem concurrent_AddTrack_one_artist_witness :
    addTrackSchema freshStore = true ∧
    (∀ t ∈ threeTracks, t.ArtistName = "Test Artist") ∧
    (artistRows "Test Artist" freshStore).length ≤ 1 ∧
    threeTracks ≠ [] ∧
    (concurrentAddTracks asciiLower freshStore threeTracks interleaved).allReturned = true ∧
    ((∀ (i j : Nat) (gi gj : Goroutine),
      (concurrentAddTracks asciiLower freshStore threeTracks interleaved).calls[i]? = some gi →
      (concurrentAddTracks asciiLower freshStore threeTracks interleaved).calls[j]? = some gj →
      gi.pc.holdsLock = true → gj.pc.holdsLock = true → i = j) ∧
    (artistRows "Test Artist"
      (concurrentAddTracks asciiLower freshStore threeTracks interleaved).db).length ≤ 1 ∧
    (∃ rest, (concurrentAddTracks asciiLower freshStore threeTracks
      (interleaved ++ rest)).allReturned = true) ∧
    ((concurrentAddTracks asciiLower freshStore threeTracks interleaved).allReturned = true →
      (∀ g ∈ (concurrentAddTracks asciiLower freshStore threeTracks interleaved).calls,
        g.pc = .returned none) ∧
      (concurrentAddTracks asciiLower freshStore threeTracks interleaved).calls.length =
        threeTracks.length ∧
      ((concurrentAddTracks asciiLower freshStore threeTracks interleaved).db.rowsOf
        "tracks").length = (freshStore.rowsOf "tracks").length + threeTracks.length ∧
      (artistRows "Test Artist"
        (concurrentAddTracks asciiLower freshStore threeTracks interleaved).db).length = 1)) :=
  ⟨by decide, by decide, by decide, List.cons_ne_nil _ _, by rfl,
   concurrent_AddTrack_one_artist asciiLower "Test Artist" freshStore threeTracks interleaved
     (by decide) (by decide) (by decide) (List.cons_ne_nil _ _)⟩

/-! ## Theorems: the order of the track listings on stores made by `AddTrack` -/

theorem sameSchema_refl (s : Store) : sameSchema s s := fun _ => rfl

theorem sameSchema_trans (s s1 s2 : Store) (h1 : sameSchema s s1) (h2 : sameSchema s1 s2) :
    sameSchema s s2 := fun m => (h2 m).trans (h1 m)

theorem sameSchema_setTable_rows (s : Store) (table : String) (t : Table) (rows : List Row)
    (ht : s.tables table = some t) :
    sameSchema s (s.setTable table { t with rows := rows }) := by
  intro m
  by_cases hm : m = table
  · subst hm
    rw [tables_setTable_same, ht]
    rfl
  · rw [tables_setTable_other _ _ _ _ hm]

theorem insertedRow_get_default (t : Table) (now : Nat) (vals : List (String × Value))
    (c : String) (h : vals.lookup c = none) :
    (insertedRow t now vals).get c = t.defaultOf now c := by
  simp [insertedRow, h]

/-- What `getOrCreateArtist` does to the Artist rows: it appends at most one
row, with the next id and the name, and a returned id is the id of a row
with the name. -/
theorem getOrCreateArtist_rows (lower : String → String) (now : Nat) (s : Store) (n : String)
    (res : Except Error Int) (s1 : Store) (h : getOrCreateArtist lower now s n = (res, s1)) :
    ∃ newA : List Row,
      s1.rowsOf "artists" = s.rowsOf "artists" ++ newA ∧
      (∀ m, m ≠ "artists" → s1.tables m = s.tables m) ∧
      newA.length ≤ 1 ∧
      (∀ a ∈ newA, a.id = nextId (s.rowsOf "artists") ∧ a.get "name" = .text n) ∧
      (∀ id, res = .ok id →
        ∃ a ∈ s.rowsOf "artists" ++ newA, a.id = id ∧ a.get "name" = .text n) ∧
      sameSchema s s1 := by
  unfold getOrCreateArtist at h
  split at h
  · simp only [Prod.mk.injEq] at h
    obtain ⟨h1, h2⟩ := h
    subst h1 h2
    exact ⟨[], by simp, fun _ _ => rfl, by simp, by simp, by simp, sameSchema_refl _⟩
  · rename_i r rest hsel
    simp only [Prod.mk.injEq] at h
    obtain ⟨h1, h2⟩ := h
    subst h1 h2
    obtain ⟨t, ht, -, hl⟩ := selectWhere_eq_some _ _ _ _ _ hsel
    have hr : r ∈ t.rows.filter (fun r => sqlEq (r.get "name") (.text n)) := by
      rw [← hl]; exact List.mem_cons_self _ _
    obtain ⟨hr1, hr2⟩ := List.mem_filter.mp hr
    refine ⟨[], by simp, fun _ _ => rfl, by simp, by simp, ?_, sameSchema_refl _⟩
    intro id hid
    cases hid
    refine ⟨r, ?_, rfl, sqlEq_eq_true _ _ hr2⟩
    rw [List.append_nil, rowsOf_of_tables s _ t ht]
    exact hr1
  · rename_i hsel
    dsimp only at h
    split at h
    · simp only [Prod.mk.injEq] at h
      obtain ⟨h1, h2⟩ := h
      subst h1 h2
      exact ⟨[], by simp, fun _ _ => rfl, by simp, by simp, by simp, sameSchema_refl _⟩
    · rename_i artistID s2 hins
      simp only [Prod.mk.injEq] at h
      obtain ⟨h1, h2⟩ := h
      subst h1 h2
      obtain ⟨t, ht, -, hid, hs2⟩ := insertInto_eq_some _ _ _ _ _ _ hins
      refine ⟨[insertedRow t now [("name", .text n), ("name_lower", .text (lower n)),
        ("created_at", .time now), ("updated_at", .time now)]], ?_, ?_, by simp, ?_, ?_, ?_⟩
      · rw [hs2, rowsOf_setTable_same, rowsOf_of_tables s _ t ht]
      · intro m hm
        rw [hs2]
        exact tables_setTable_other _ _ _ _ hm
      · intro a ha
        rw [List.mem_singleton] at ha
        subst ha
        rw [rowsOf_of_tables s _ t ht]
        exact ⟨rfl, insertedRow_get _ _ _ _ _ rfl⟩
      · intro id hid2
        cases hid2
        refine ⟨_, List.mem_append_right _ (List.mem_singleton_self _), ?_,
          insertedRow_get _ _ _ _ _ rfl⟩
        rw [hid]
        rfl
      · rw [hs2]
        exact sameSchema_setTable_rows s _ t _ ht

/-- What `getOrCreateAlbum` does to the Album rows when no Album row carries
an artist id and the column has no default: the lookup finds nothing, so a
successful call appends one row with the next id and returns that id. -/
theorem getOrCreateAlbum_rows (lower : String → String) (now : Nat) (s : Store)
    (n : String) (aan ip : Option String) (a : Int) (res : Except Error Int) (s1 : Store)
    (hnull : ∀ b ∈ s.rowsOf "albums", b.get "artist_id" = .null)
    (hdef : ∀ t, s.tables "albums" = some t → ∀ now, t.defaultOf now "artist_id" = .null)
    (h : getOrCreateAlbum lower now s n aan ip a = (res, s1)) :
    ∃ newB : List Row,
      s1.rowsOf "albums" = s.rowsOf "albums" ++ newB ∧
      (∀ m, m ≠ "albums" → s1.tables m = s.tables m) ∧
      newB.length ≤ 1 ∧
      (∀ b ∈ newB, b.id = nextId (s.rowsOf "albums") ∧ b.get "artist_id" = .null) ∧
      (∀ id, res = .ok id → id = nextId (s.rowsOf "albums") ∧ newB ≠ []) ∧
      sameSchema s s1 := by
  unfold getOrCreateAlbum at h
  split at h
  · simp only [Prod.mk.injEq] at h
    obtain ⟨h1, h2⟩ := h
    subst h1 h2
    exact ⟨[], by simp, fun _ _ => rfl, by simp, by simp, by simp, sameSchema_refl _⟩
  · rename_i r rest hsel
    exfalso
    obtain ⟨t, ht, -, hl⟩ := selectWhere_eq_some _ _ _ _ _ hsel
    have hr : r ∈ t.rows.filter (fun r => sqlEq (r.get "name") (.text n) &&
        sqlEq (r.get "artist_id") (.int a)) := by
      rw [← hl]; exact List.mem_cons_self _ _
    obtain ⟨hr1, hr2⟩ := List.mem_filter.mp hr
    rw [← rowsOf_of_tables s _ t ht] at hr1
    rw [hnull r hr1] at hr2
    simp [sqlEq] at hr2
  · rename_i hsel
    dsimp only at h
    split at h
    · simp only [Prod.mk.injEq] at h
      obtain ⟨h1, h2⟩ := h
      subst h1 h2
      exact ⟨[], by simp, fun _ _ => rfl, by simp, by simp, by simp, sameSchema_refl _⟩
    · rename_i albumID s2 hins
      simp only [Prod.mk.injEq] at h
      obtain ⟨h1, h2⟩ := h
      subst h1 h2
      obtain ⟨t, ht, -, hid, hs2⟩ := insertInto_eq_some _ _ _ _ _ _ hins
      clear hins
      replace hs2 : s2 = s.setTable "albums" { t with rows := t.rows ++ [insertedRow t now
          [("name", Value.text n), ("name_lower", Value.text (lower n)),
           ("artist_name", Value.text ""), ("album_artist_name", ofStringPtr aan),
           ("album_artist_name_lower", ofStringPtr (aan.map lower)),
           ("image_path", ofStringPtr ip),
           ("created_at", Value.time now), ("updated_at", Value.time now)]] } := by
        rw [hs2]; cases aan <;> rfl
      generalize hv : [("name", Value.text n), ("name_lower", Value.text (lower n)),
        ("artist_name", Value.text ""), ("album_artist_name", ofStringPtr aan),
        ("album_artist_name_lower", ofStringPtr (aan.map lower)),
        ("image_path", ofStringPtr ip),
        ("created_at", Value.time now), ("updated_at", Value.time now)] = vals at hs2
      refine ⟨[insertedRow t now vals], ?_, ?_, by simp, ?_, ?_, ?_⟩
      · rw [hs2, rowsOf_setTable_same, rowsOf_of_tables s _ t ht]
      · intro m hm
        rw [hs2]
        exact tables_setTable_other _ _ _ _ hm
      · intro b hb
        rw [List.mem_singleton] at hb
        subst hb
        rw [rowsOf_of_tables s _ t ht]
        refine ⟨rfl, ?_⟩
        rw [insertedRow_get_default t now vals "artist_id" (by rw [← hv]; rfl)]
        exact hdef t ht now
      · intro id hid2
        cases hid2
        rw [rowsOf_of_tables s _ t ht]
        exact ⟨hid, by simp⟩
      · rw [hs2]
        exact sameSchema_setTable_rows s _ t _ ht

theorem pairwise_of_length_le_one (R : Row → Row → Prop) (l : List Row) (h : l.length ≤ 1) :
    l.Pairwise R := by
  cases l with
  | nil => exact List.Pairwise.nil
  | cons x xs =>
    cases xs with
    | nil => exact List.pairwise_singleton R x
    | cons y ys => simp at h

theorem ListingInv_extend (s s1 : Store) (newA newB newT : List Row) (hinv : ListingInv s)
    (hA : s1.rowsOf "artists" = s.rowsOf "artists" ++ newA)
    (hB : s1.rowsOf "albums" = s.rowsOf "albums" ++ newB)
    (hT : s1.rowsOf "tracks" = s.rowsOf "tracks" ++ newT)
    (hlA : newA.length ≤ 1) (hnA : ∀ a ∈ newA, a.id = nextId (s.rowsOf "artists"))
    (hnB : ∀ b ∈ newB, b.get "artist_id" = .null)
    (hlT : newT.length ≤ 1)
    (hnT : ∀ r ∈ newT,
      (∃ a ∈ s.rowsOf "artists" ++ newA,
        r.get "artist_id" = .int a.id ∧ r.get "artist_name" = a.get "name") ∧
      (∃ b ∈ s.rowsOf "albums" ++ newB, r.get "album_id" = .int b.id) ∧
      r.get "album_id" = .int (nextId (s.rowsOf "albums"))) :
    ListingInv s1 := by
  refine ⟨?_, ?_, ?_, ?_, ?_⟩
  · rw [hA, List.pairwise_append]
    refine ⟨hinv.artistIds, pairwise_of_length_le_one _ _ hlA, ?_⟩
    intro a ha a1 ha1
    rw [hnA a1 ha1]
    exact ne_of_lt (lt_nextId _ a ha)
  · intro b hb
    rw [hB] at hb
    rcases List.mem_append.mp hb with h | h
    · exact hinv.albumNull b h
    · exact hnB b h
  · intro r hr
    rw [hT] at hr
    rw [hA]
    rcases List.mem_append.mp hr with h | h
    · obtain ⟨a, ha, e1, e2⟩ := hinv.trackArtist r h
      exact ⟨a, List.mem_append_left _ ha, e1, e2⟩
    · exact (hnT r h).1
  · intro r hr
    rw [hT] at hr
    rw [hB]
    rcases List.mem_append.mp hr with h | h
    · obtain ⟨b, hb, e1⟩ := hinv.trackAlbum r h
      exact ⟨b, List.mem_append_left _ hb, e1⟩
    · exact (hnT r h).2.1
  · rw [hT, List.pairwise_append]
    refine ⟨hinv.albumIds, pairwise_of_length_le_one _ _ hlT, ?_⟩
    intro r hr r1 hr1
    obtain ⟨b, hb, e1⟩ := hinv.trackAlbum r hr
    rw [e1, (hnT r1 hr1).2.2]
    intro h
    have := lt_nextId _ b hb
    have e : b.id = nextId (s.rowsOf "albums") := by
      injection h
    omega

theorem AddTrack_listingInv (lower : String → String) (now : Nat) (s : Store)
    (track : PersistentTrack) (hdef : albumsArtistIdNull s) (hinv : ListingInv s) :
    ListingInv (AddTrack lower now s track).2 ∧ sameSchema s (AddTrack lower now s track).2 := by
  unfold AddTrack
  cases hgA : getOrCreateArtist lower now s track.ArtistName with
  | mk rA s1 =>
    obtain ⟨newA, hA1, hA2, hlA, hnA, hidA, hschA⟩ :=
      getOrCreateArtist_rows lower now s track.ArtistName rA s1 hgA
    have halb1 : s1.rowsOf "albums" = s.rowsOf "albums" :=
      rowsOf_eq_of_tables s s1 "albums" (hA2 _ (by decide))
    have htr1 : s1.rowsOf "tracks" = s.rowsOf "tracks" :=
      rowsOf_eq_of_tables s s1 "tracks" (hA2 _ (by decide))
    have hinv1 : ListingInv s1 :=
      ListingInv_extend s s1 newA [] [] hinv hA1 (by simp [halb1]) (by simp [htr1]) hlA
        (fun a ha => (hnA a ha).1) (by simp) (by simp) (by simp)
    cases rA with
    | error e => exact ⟨hinv1, hschA⟩
    | ok artistID =>
      obtain ⟨ar, har, harid, harname⟩ := hidA artistID rfl
      dsimp only
      cases hgB : getOrCreateAlbum lower now s1 track.AlbumName track.AlbumArtistName
          track.ImagePath artistID with
      | mk rB s2 =>
        have hdef1 : ∀ t, s1.tables "albums" = some t → ∀ now,
            t.defaultOf now "artist_id" = .null := by
          intro t ht
          rw [hA2 _ (by decide)] at ht
          exact hdef t ht
        obtain ⟨newB, hB1, hB2, hlB, hnB, hidB, hschB⟩ :=
          getOrCreateAlbum_rows lower now s1 track.AlbumName track.AlbumArtistName
            track.ImagePath artistID rB s2 (by rw [halb1]; exact hinv.albumNull) hdef1 hgB
        have hart2 : s2.rowsOf "artists" = s.rowsOf "artists" ++ newA := by
          rw [rowsOf_eq_of_tables s1 s2 "artists" (hB2 _ (by decide)), hA1]
        have halb2 : s2.rowsOf "albums" = s.rowsOf "albums" ++ newB := by
          rw [hB1, halb1]
        have htr2 : s2.rowsOf "tracks" = s.rowsOf "tracks" := by
          rw [rowsOf_eq_of_tables s1 s2 "tracks" (hB2 _ (by decide)), htr1]
        have hinv2 : ListingInv s2 :=
          ListingInv_extend s s2 newA newB [] hinv hart2 halb2 (by simp [htr2]) hlA
            (fun a ha => (hnA a ha).1) (fun b hb => (hnB b hb).2) (by simp) (by simp)
        have hsch2 := sameSchema_trans s s1 s2 hschA hschB
        cases rB with
        | error e => exact ⟨hinv2, hsch2⟩
        | ok albumID =>
          obtain ⟨halid, hnewB⟩ := hidB albumID rfl
          rw [halb1] at halid
          dsimp only
          split
          · exact ⟨hinv2, hsch2⟩
          · rename_i trackID s3 hins
            obtain ⟨t, ht, -, hid, hs3⟩ := insertInto_eq_some _ _ _ _ _ _ hins
            clear hins
            generalize hv : [("file_path", Value.text track.FilePath),
              ("file_name", Value.text track.FileName),
              ("title", Value.text track.Title), ("album_name", Value.text track.AlbumName),
              ("album_artist_name", ofStringPtr track.AlbumArtistName),
              ("album_id", Value.int albumID), ("artist_name", Value.text track.ArtistName),
              ("artist_id", Value.int artistID), ("image_path", ofStringPtr track.ImagePath),
              ("track_number", ofIntPtr track.TrackNumber),
              ("txt_lyrics", ofStringPtr track.TxtLyrics),
              ("lrc_lyrics", ofStringPtr track.LrcLyrics),
              ("duration", ofFloat64 track.Duration),
              ("instrumental", ofBool track.Instrumental),
              ("title_lower", Value.text (lower track.Title)),
              ("created_at", Value.time now), ("updated_at", Value.time now)] = vals at *
            have hart3 : s3.rowsOf "artists" = s.rowsOf "artists" ++ newA := by
              rw [hs3, rowsOf_setTable_other s2 _ _ _ (by decide), hart2]
            have halb3 : s3.rowsOf "albums" = s.rowsOf "albums" ++ newB := by
              rw [hs3, rowsOf_setTable_other s2 _ _ _ (by decide), halb2]
            have htr3 : s3.rowsOf "tracks" =
                s.rowsOf "tracks" ++ [insertedRow t now vals] := by
              rw [hs3, rowsOf_setTable_same, ← htr2, rowsOf_of_tables s2 _ t ht]
            refine ⟨ListingInv_extend s s3 newA newB [insertedRow t now vals] hinv hart3 halb3
              htr3 hlA (fun a ha => (hnA a ha).1) (fun b hb => (hnB b hb).2) (by simp) ?_, ?_⟩
            · intro r hr
              rw [List.mem_singleton] at hr
              subst hr
              have e1 : (insertedRow t now vals).get "artist_id" = .int artistID :=
                insertedRow_get t now vals _ _ (by rw [← hv]; rfl)
              have e2 : (insertedRow t now vals).get "artist_name" = .text track.ArtistName :=
                insertedRow_get t now vals _ _ (by rw [← hv]; rfl)
              have e3 : (insertedRow t now vals).get "album_id" = .int albumID :=
                insertedRow_get t now vals _ _ (by rw [← hv]; rfl)
              refine ⟨⟨ar, har, by rw [e1, harid], by rw [e2, harname]⟩, ?_, by rw [e3, halid]⟩
              cases newB with
              | nil => exact absurd rfl hnewB
              | cons b bs =>
                refine ⟨b, List.mem_append_right _ (List.mem_cons_self _ _), ?_⟩
                rw [e3, halid, (hnB b (List.mem_cons_self _ _)).1, halb1]
            · rw [hs3]
              exact sameSchema_trans s s2 _ hsch2 (sameSchema_setTable_rows s2 _ t _ ht)

theorem insertInto_sameSchema (s : Store) (table : String) (now : Nat)
    (vals : List (String × Value)) (id : Int) (s1 : Store)
    (h : insertInto s table now vals = some (id, s1)) : sameSchema s s1 := by
  obtain ⟨t, ht, -, -, hs1⟩ := insertInto_eq_some _ _ _ _ _ _ h
  rw [hs1]
  exact sameSchema_setTable_rows s _ t _ ht

theorem getOrCreateAlbum_sameSchema (lower : String → String) (now : Nat) (s : Store)
    (n : String) (aan ip : Option String) (a : Int) :
    sameSchema s (getOrCreateAlbum lower now s n aan ip a).2 := by
  unfold getOrCreateAlbum
  split
  · exact sameSchema_refl _
  · exact sameSchema_refl _
  · dsimp only
    split
    · exact sameSchema_refl _
    · rename_i hins
      exact insertInto_sameSchema _ _ _ _ _ _ hins

theorem AddTrack_sameSchema (lower : String → String) (now : Nat) (s : Store)
    (track : PersistentTrack) : sameSchema s (AddTrack lower now s track).2 := by
  unfold AddTrack
  cases hgA : getOrCreateArtist lower now s track.ArtistName with
  | mk rA s1 =>
    obtain ⟨-, -, -, -, -, -, hschA⟩ :=
      getOrCreateArtist_rows lower now s track.ArtistName rA s1 hgA
    cases rA with
    | error e => exact hschA
    | ok artistID =>
      dsimp only
      have hschB := getOrCreateAlbum_sameSchema lower now s1 track.AlbumName
        track.AlbumArtistName track.ImagePath artistID
      cases hgB : getOrCreateAlbum lower now s1 track.AlbumName track.AlbumArtistName
          track.ImagePath artistID with
      | mk rB s2 =>
        rw [hgB] at hschB
        have hsch2 := sameSchema_trans s s1 s2 hschA hschB
        cases rB with
        | error e => exact hsch2
        | ok albumID =>
          dsimp only
          split
          · exact hsch2
          · rename_i hins
            exact sameSchema_trans s s2 _ hsch2 (insertInto_sameSchema _ _ _ _ _ _ hins)

theorem albumsArtistIdNull_of_sameSchema (s s1 : Store) (h : sameSchema s s1)
    (h1 : albumsArtistIdNull s1) : albumsArtistIdNull s := by
  intro t ht now
  have e := h "albums"
  rw [ht] at e
  cases ht1 : s1.tables "albums" with
  | none => rw [ht1] at e; cases e
  | some t1 =>
    rw [ht1] at e
    simp only [Option.map_some', Option.some.injEq] at e
    have := h1 t1 ht1 now
    unfold Table.defaultOf at this ⊢
    rw [← e]
    exact this

theorem reachable_listingInv (lower : String → String) (s : Store) (h : Reachable lower s)
    (hdef : albumsArtistIdNull s) : ListingInv s := by
  induction h with
  | empty s h =>
    obtain ⟨h1, h2, h3⟩ := h
    refine ⟨?_, ?_, ?_, ?_, ?_⟩
    · rw [h3]; exact List.Pairwise.nil
    · intro b hb; rw [h2] at hb; cases hb
    · intro r hr; rw [h1] at hr; cases hr
    · intro r hr; rw [h1] at hr; cases hr
    · rw [h1]; exact List.Pairwise.nil
  | addTrack s now track _ ih =>
    have hdef0 : albumsArtistIdNull s :=
      albumsArtistIdNull_of_sameSchema s _ (AddTrack_sameSchema lower now s track) hdef
    exact (AddTrack_listingInv lower now s track hdef0 (ih hdef0)).1

theorem albumsArtistIdNull_of_noDefault (s : Store) (h : albumsArtistIdNoDefault s = true) :
    albumsArtistIdNull s := by
  intro t ht now
  unfold albumsArtistIdNoDefault at h
  rw [ht] at h
  unfold Table.defaultOf
  cases hf : t.cols.find? (fun k => k.name == "artist_id") with
  | none => rfl
  | some k =>
    simp only [hf, decide_eq_true_eq] at h
    simp only [h, Default.eval]

theorem Value.le_refl (v : Value) : Value.le v v = true := by
  rcases Value.le_total v v with h | h <;> exact h

theorem orderBy_cons_eq (k : String) (ks : List String) (a b : Row) (h : a.get k = b.get k) :
    orderBy (k :: ks) a b = orderBy ks a b := by
  simp only [orderBy, h, Value.le_refl, if_true]

theorem orderBy_prefix (ks ms : List String) (a b : Row)
    (h : orderBy (ks ++ ms) a b = true) : orderBy ks a b = true := by
  induction ks with
  | nil => rfl
  | cons k ks ih =>
    simp only [List.cons_append, orderBy] at h ⊢
    by_cases h1 : Value.le (a.get k) (b.get k) = true
    · by_cases h2 : Value.le (b.get k) (a.get k) = true
      · simp only [h1, h2, if_true] at h ⊢
        exact ih h
      · simp [h1, h2]
    · simp [h1] at h

theorem orderBy_congr (ks : List String) (a b a1 b1 : Row)
    (ha : ∀ k ∈ ks, a.get k = a1.get k) (hb : ∀ k ∈ ks, b.get k = b1.get k) :
    orderBy ks a b = orderBy ks a1 b1 := by
  induction ks with
  | nil => rfl
  | cons k ks ih =>
    simp only [orderBy, ha k (List.mem_cons_self _ _), hb k (List.mem_cons_self _ _),
      ih (fun x hx => ha x (List.mem_cons_of_mem _ hx))
        (fun x hx => hb x (List.mem_cons_of_mem _ hx))]

theorem keyRow_of_scan (r : Row) (t : PersistentTrack) (h : scanTrack r = .ok t) :
    ∀ k ∈ ["artist_name", "album_name", "track_number"], r.get k = (keyRow t).get k := by
  rw [scanTrack_eq_ok] at h
  obtain ⟨-, -, -, -, h4, -, -, h7, -, -, h10, -⟩ := h
  intro k hk
  simp only [List.mem_cons, List.mem_singleton, List.not_mem_nil, or_false] at hk
  rcases hk with rfl | rfl | rfl
  · rw [h7]; rfl
  · rw [h4]; rfl
  · rw [h10]; rfl

theorem pairwise_of_forall₂ (rs : List Row) (l : List PersistentTrack)
    (h : List.Forall₂ (fun r t => scanTrack r = .ok t) rs l)
    (hs : rs.Pairwise (fun a b => orderBy ["artist_name", "album_name", "track_number"] a b
      = true)) :
    l.Pairwise (fun t t1 => listingLe t t1 = true) := by
  induction h with
  | nil => exact List.Pairwise.nil
  | cons h1 h2 ih =>
    rename_i r t rs1 l1
    rw [List.pairwise_cons] at hs ⊢
    refine ⟨?_, ih hs.2⟩
    intro t1 ht1
    obtain ⟨r1, hr1, hscan⟩ : ∃ r1 ∈ rs1, scanTrack r1 = .ok t1 := by
      clear ih hs h1
      induction h2 with
      | nil => cases ht1
      | cons g1 g2 ih2 =>
        rename_i x y xs ys
        rcases List.mem_cons.mp ht1 with e | e
        · subst e
          exact ⟨x, List.mem_cons_self _ _, g1⟩
        · obtain ⟨r1, hr1, hsc⟩ := ih2 e
          exact ⟨r1, List.mem_cons_of_mem _ hr1, hsc⟩
    unfold listingLe
    rw [← orderBy_congr _ r r1 _ _ (keyRow_of_scan r t h1) (keyRow_of_scan r1 t1 hscan)]
    exact hs.1 r1 hr1

theorem eq_of_id_eq (l : List Row) (hp : l.Pairwise (fun a a1 => a.id ≠ a1.id)) (a b : Row)
    (ha : a ∈ l) (hb : b ∈ l) (h : a.id = b.id) : a = b := by
  induction l with
  | nil => cases ha
  | cons x xs ih =>
    rw [List.pairwise_cons] at hp
    rcases List.mem_cons.mp ha with e1 | e1 <;> rcases List.mem_cons.mp hb with e2 | e2
    · rw [e1, e2]
    · subst e1
      exact absurd h (hp.1 b e2)
    · subst e2
      exact absurd h.symm (hp.1 a e1)
    · exact ih hp.2 e1 e2

theorem length_le_one_of_same_album (l : List Row) (v : Value)
    (hall : ∀ r ∈ l, r.get "album_id" = v)
    (hp : l.Pairwise (fun r r1 => r.get "album_id" ≠ r1.get "album_id")) : l.length ≤ 1 := by
  cases l with
  | nil => simp
  | cons x xs =>
    cases xs with
    | nil => simp
    | cons y ys =>
      rw [List.pairwise_cons] at hp
      have h1 := hall x (List.mem_cons_self _ _)
      have h2 := hall y (List.mem_cons_of_mem _ (List.mem_cons_self _ _))
      exact absurd (h1.trans h2.symm) (hp.1 y (List.mem_cons_self _ _))

/-- C14: on every store reachable from an empty store by `AddTrack` calls,
with the tracks table's columns and no default for the album's artist id (the
schema of `migrateToVersion1`), each of `GetTracks`, `GetTracksByAlbumID` and
`GetTracksByArtistID` scans a permutation of the matching Track rows, one
track per row, and that permutation is non-decreasing by artist name, then
album name, then track number; so is every list of tracks a listing returns. -/
theorem track_listings_sorted (lower : String → String) (s : Store) (albumID artistID : Int)
    (hreach : Reachable lower s)
    (hcols : s.hasColumns "tracks" trackColumns = true)
    (hdef : albumsArtistIdNoDefault s = true) :
    (∃ rs, rs.Perm (s.rowsOf "tracks") ∧ GetTracks s = scanTracks rs ∧
      rs.Pairwise (fun a b =>
        orderBy ["artist_name", "album_name", "track_number"] a b = true)) ∧
    (∃ rs, rs.Perm ((s.rowsOf "tracks").filter
        (fun r => sqlEq (r.get "album_id") (.int albumID))) ∧
      GetTracksByAlbumID s albumID = scanTracks rs ∧
      rs.Pairwise (fun a b =>
        orderBy ["artist_name", "album_name", "track_number"] a b = true)) ∧
    (∃ rs, rs.Perm ((s.rowsOf "tracks").filter
        (fun r => sqlEq (r.get "artist_id") (.int artistID))) ∧
      GetTracksByArtistID s artistID = scanTracks rs ∧
      rs.Pairwise (fun a b =>
        orderBy ["artist_name", "album_name", "track_number"] a b = true)) ∧
    (∀ rs l, scanTracks rs = .ok l ↔ List.Forall₂ (fun r t => scanTrack r = .ok t) rs l) ∧
    (∀ l, GetTracks s = .ok l → l.Pairwise (fun t t1 => listingLe t t1 = true)) ∧
    (∀ l, GetTracksByAlbumID s albumID = .ok l →
      l.Pairwise (fun t t1 => listingLe t t1 = true)) ∧
    (∀ l, GetTracksByArtistID s artistID = .ok l →
      l.Pairwise (fun t t1 => listingLe t t1 = true)) := by
  obtain ⟨⟨rs1, p1, s1, e1⟩, ⟨rs2, p2, -, e2⟩, ⟨rs3, p3, s3, e3⟩, hscan⟩ :=
    listings_by_their_order s albumID artistID hcols
  have inv := reachable_listingInv lower s hreach (albumsArtistIdNull_of_noDefault s hdef)
  have t2 : rs2.Pairwise (fun a b =>
      orderBy ["artist_name", "album_name", "track_number"] a b = true) := by
    apply pairwise_of_length_le_one
    rw [p2.length_eq]
    apply length_le_one_of_same_album _ (.int albumID)
    · intro r hr
      exact sqlEq_eq_true _ _ (List.mem_filter.mp hr).2
    · exact inv.albumIds.sublist (List.filter_sublist _)
  have t3 : rs3.Pairwise (fun a b =>
      orderBy ["artist_name", "album_name", "track_number"] a b = true) := by
    refine s3.imp_of_mem ?_
    intro a b ha hb hab
    have ha1 := List.mem_filter.mp (p3.mem_iff.mp ha)
    have hb1 := List.mem_filter.mp (p3.mem_iff.mp hb)
    obtain ⟨ar, har, ear, enar⟩ := inv.trackArtist a ha1.1
    obtain ⟨br, hbr, ebr, enbr⟩ := inv.trackArtist b hb1.1
    have ida : ar.id = artistID := by
      have := (sqlEq_eq_true _ _ ha1.2).symm.trans ear
      injection this with h
      exact h.symm
    have idb : br.id = artistID := by
      have := (sqlEq_eq_true _ _ hb1.2).symm.trans ebr
      injection this with h
      exact h.symm
    have hsame : ar = br := eq_of_id_eq _ inv.artistIds ar br har hbr (ida.trans idb.symm)
    have hname : a.get "artist_name" = b.get "artist_name" := by
      rw [enar, enbr, hsame]
    rw [orderBy_cons_eq _ _ _ _ hname]
    exact orderBy_prefix ["album_name", "track_number"] ["title"] a b hab
  refine ⟨⟨rs1, p1, e1, s1⟩, ⟨rs2, p2, e2, t2⟩, ⟨rs3, p3, e3, t3⟩, hscan, ?_, ?_, ?_⟩
  · intro l hl
    rw [e1] at hl
    exact pairwise_of_forall₂ rs1 l ((hscan rs1 l).mp hl) s1
  · intro l hl
    rw [e2] at hl
    exact pairwise_of_forall₂ rs2 l ((hscan rs2 l).mp hl) t2
  · intro l hl
    rw [e3] at hl
    exact pairwise_of_forall₂ rs3 l ((hscan rs3 l).mp hl) t3

set_option maxRecDepth 100000 in
/-- Witness for C14: four tracks added in no particular order; the three
listings return them by artist, album and track number. -/
theorem track_listings_sorted_witness :
    Reachable asciiLower listedStore ∧
    listedStore.hasColumns "tracks" trackColumns = true ∧
    albumsArtistIdNoDefault listedStore = true ∧
    (GetTracks listedStore).toOption.map
        (List.map (fun t => (t.ArtistName, t.AlbumName, t.TrackNumber))) =
      some [("A", "Hits", some 1), ("B", "Alpha", some 1), ("B", "Zeta", some 1),
        ("B", "Zeta", some 2)] ∧
    (GetTracksByArtistID listedStore 1).toOption.map
        (List.map (fun t => (t.ArtistName, t.AlbumName, t.TrackNumber))) =
      some [("B", "Alpha", some 1), ("B", "Zeta", some 1), ("B", "Zeta", some 2)] ∧
    (GetTracksByAlbumID listedStore 1).toOption.map
        (List.map (fun t => (t.ArtistName, t.AlbumName, t.TrackNumber))) =
      some [("B", "Zeta", some 2)] ∧
    ((∃ rs, rs.Perm (listedStore.rowsOf "tracks") ∧ GetTracks listedStore = scanTracks rs ∧
      rs.Pairwise (fun a b =>
        orderBy ["artist_name", "album_name", "track_number"] a b = true)) ∧
    (∃ rs, rs.Perm ((listedStore.rowsOf "tracks").filter
        (fun r => sqlEq (r.get "album_id") (.int 1))) ∧
      GetTracksByAlbumID listedStore 1 = scanTracks rs ∧
      rs.Pairwise (fun a b =>
        orderBy ["artist_name", "album_name", "track_number"] a b = true)) ∧
    (∃ rs, rs.Perm ((listedStore.rowsOf "tracks").filter
        (fun r => sqlEq (r.get "artist_id") (.int 1))) ∧
      GetTracksByArtistID listedStore 1 = scanTracks rs ∧
      rs.Pairwise (fun a b =>
        orderBy ["artist_name", "album_name", "track_number"] a b = true)) ∧
    (∀ rs l, scanTracks rs = .ok l ↔ List.Forall₂ (fun r t => scanTrack r = .ok t) rs l) ∧
    (∀ l, GetTracks listedStore = .ok l → l.Pairwise (fun t t1 => listingLe t t1 = true)) ∧
    (∀ l, GetTracksByAlbumID listedStore 1 = .ok l →
      l.Pairwise (fun t t1 => listingLe t t1 = true)) ∧
    (∀ l, GetTracksByArtistID listedStore 1 = .ok l →
      l.Pairwise (fun t t1 => listingLe t t1 = true))) :=
  ⟨.addTrack _ _ _ (.addTrack _ _ _ (.addTrack _ _ _ (.addTrack _ _ _
      (.empty _ ⟨rfl, rfl, rfl⟩)))),
   by decide, by decide, by decide, by decide, by decide,
   track_listings_sorted asciiLower listedStore 1 1
     (.addTrack _ _ _ (.addTrack _ _ _ (.addTrack _ _ _ (.addTrack _ _ _
       (.empty _ ⟨rfl, rfl, rfl⟩)))))
     (by decide) (by decide)⟩

end LrcGet
